import Mathlib

/-! # gLabels print engine

A shallow embedding of `src/glabels2/src/print.c`.

Conventions of the embedding.

* The print context `pi->pc` is write-only: every backend call is recorded, in program
  order, in a list that the embedded function returns.
* The three entry points are recorded at the level of the calls they make themselves:
  `gnome_print_beginpage`, `print_label` and `gnome_print_showpage` (type `PageCall`).
  What one `print_label` call sends to the backend is the list of `Op` returned by the
  embedded `print_label`; `run_call` gives the backend calls of one page-level call.
* `gint` values are `Int`; C's `%` and `/` truncate towards zero, so they are `Int.tmod`
  and `Int.tdiv`.  All values are taken inside the range of `gint` (signed overflow is
  undefined in C), and templates have `nx * ny ≠ 0` wherever `%` is evaluated.
* `gdouble` values are elements of an arbitrary linearly ordered field `R` (exact
  arithmetic; `ℚ` for evaluation, `ℝ` for the trigonometric paths).  `cos`, `sin` and
  `M_PI` of `<math.h>` are fields of `Env`.
* The entry points are embedded from the point where `pi = print_info_new (master, label)`
  has returned; of `pi` they read `pi->template` only.  `print_info_new` itself is
  embedded apart, with the calls it makes on the print configuration.
* The meaning of the backend's transform calls (libgnomeprint, libart) is not part of
  `print.c`; it is given by `op_affine`, `affine_apply` and `transform_point`.
* Declarations that are not part of `print.c` (the template, label, record, barcode and
  font types, text expansion, glyph metrics) are reduced to the fields and functions
  that `print.c` reads, the functions being fields of `Env`.
-/

namespace GLabels

/-! ## Data model -/

/-- One merge record (`glMergeRecord`): the selection flag read by the merge loops and
the field list used by text expansion. -/
structure glMergeRecord where
  select_flag : Bool
  field_list : List (String × String)
deriving DecidableEq, Repr

/-- Label outline style of a template (`template->style`); `OTHER` stands for every
value that reaches the `default:` branch of the `switch` statements. -/
inductive glTemplateStyle where
  | RECT
  | ROUND
  | CD
  | OTHER
deriving DecidableEq, Repr

/-- The fields of `glTemplate` read by `print.c`. -/
structure glTemplate (R : Type) where
  page_size : Option String
  style : glTemplateStyle
  label_round : R
  label_radius : R
  label_hole : R
  nx : Int
  ny : Int
  x0 : R
  y0 : R
  dx : R
  dy : R

/-- The fields of `PrintInfo` other than the context and its configuration. -/
structure PrintInfo (R : Type) where
  template : glTemplate R
  label_rotate_flag : Bool

/-- Calls made by the entry points on the print context, in program order. -/
inductive PageCall where
  | beginpage (name : String)
  | print_label (i_label : Int) (record : Option glMergeRecord)
      (outline_flag reverse_flag : Bool)
  | showpage
deriving DecidableEq, Repr

/-! ## Page/sheet traversal -/

/-- The loop `for (i = lo; i < hi; i++) body`, threading the state `s`. -/
def for_loop {σ : Type} (lo hi : Int) (body : Int → σ → σ) (s : σ) : σ :=
  (List.range (hi - lo).toNat).foldl (fun s (k : Nat) => body (lo + (k : Int)) s) s

/-- Result of `g_strdup_printf ("sheet %d", n)`. -/
def sheet_str (n : Int) : String :=
  "sheet " ++ toString n

/-- Simple (no merge data) print command, `gl_print_simple`. -/
def gl_print_simple (n_sheets first last : Int) (outline_flag reverse_flag : Bool) :
    List PageCall :=
  for_loop 0 n_sheets (fun i_sheet out =>
    let out := out ++ [PageCall.beginpage (sheet_str (i_sheet + 1))]
    let out := for_loop (first - 1) last (fun i_label out =>
      out ++ [PageCall.print_label i_label none outline_flag reverse_flag]) out
    out ++ [PageCall.showpage]) []

/-- Local variables of the merge print commands, with the calls made so far. -/
structure MergeState where
  i_sheet : Int
  i_label : Int
  out : List PageCall
deriving DecidableEq, Repr

/-- Body executed for one label instance by both merge print commands (the statements
inside `if ( record->select_flag )`, for one copy). -/
def merge_instance (n_labels_per_page : Int) (record : glMergeRecord)
    (outline_flag reverse_flag : Bool) (s : MergeState) : MergeState :=
  let s : MergeState :=
    if s.i_label = 0 ∨ s.i_sheet = 0 then
      { s with i_sheet := s.i_sheet + 1,
               out := s.out ++ [PageCall.beginpage (sheet_str (s.i_sheet + 1))] }
    else s
  let s : MergeState :=
    { s with out := s.out ++
        [PageCall.print_label s.i_label (some record) outline_flag reverse_flag] }
  let s : MergeState := { s with i_label := Int.tmod (s.i_label + 1) n_labels_per_page }
  if s.i_label = 0 then { s with out := s.out ++ [PageCall.showpage] } else s

/-- The statements after the loops of both merge print commands. -/
def merge_finish (s : MergeState) : List PageCall :=
  if s.i_label ≠ 0 then s.out ++ [PageCall.showpage] else s.out

/-- Merge print command (collated copies), `gl_print_merge_collated`. -/
def gl_print_merge_collated {R : Type} (pi : PrintInfo R)
    (record_list : List glMergeRecord) (n_copies first : Int)
    (outline_flag reverse_flag : Bool) : List PageCall :=
  let n_labels_per_page := pi.template.nx * pi.template.ny
  let s : MergeState := { i_sheet := 0, i_label := first - 1, out := [] }
  let s := record_list.foldl (fun s record =>
    if record.select_flag then
      for_loop 0 n_copies (fun _ s =>
        merge_instance n_labels_per_page record outline_flag reverse_flag s) s
    else s) s
  merge_finish s

/-- Merge print command (uncollated copies), `gl_print_merge_uncollated`. -/
def gl_print_merge_uncollated {R : Type} (pi : PrintInfo R)
    (record_list : List glMergeRecord) (n_copies first : Int)
    (outline_flag reverse_flag : Bool) : List PageCall :=
  let n_labels_per_page := pi.template.nx * pi.template.ny
  let s : MergeState := { i_sheet := 0, i_label := first - 1, out := [] }
  let s := for_loop 0 n_copies (fun _ s =>
    record_list.foldl (fun s record =>
      if record.select_flag then
        merge_instance n_labels_per_page record outline_flag reverse_flag s
      else s) s) s
  merge_finish s

/-! ## Backend calls and the document model -/

/-- A libart affine matrix `a[0..5]`; it maps `(x, y)` to
`(a0*x + a2*y + a4, a1*x + a3*y + a5)`. -/
structure ArtAffine (R : Type) where
  a0 : R
  a1 : R
  a2 : R
  a3 : R
  a4 : R
  a5 : R
deriving DecidableEq, Repr

/-- A font handle, identified by the request made to
`gnome_font_find_closest_from_weight_slant`. -/
structure GnomeFont (R : Type) where
  family : String
  weight : Int
  italic : Bool
  size : R
deriving DecidableEq, Repr

/-- The pixel buffer fields read by `draw_image_object`. -/
structure GdkPixbuf where
  pixels : List Nat
  width : Int
  height : Int
  rowstride : Int
  has_alpha : Bool
deriving DecidableEq, Repr

/-- Calls on the print context made while one label is printed.  Log output
(`gl_debug`, `g_warning`) is not recorded. -/
inductive Op (R : Type) where
  | gsave
  | grestore
  | translate (x y : R)
  | rotate (theta : R)
  | scale (sx sy : R)
  | concat (a : ArtAffine R)
  | newpath
  | moveto (x y : R)
  | lineto (x y : R)
  | closepath
  | stroke
  | fill
  | clip
  | setrgbcolor (r g b : R)
  | setopacity (o : R)
  | setlinewidth (w : R)
  | setfont (font : GnomeFont R)
  | showtext (text : String)
  | rgbaimage (data : List Nat) (width height rowstride : Int)
  | rgbimage (data : List Nat) (width height rowstride : Int)
deriving DecidableEq, Repr

/-- A node of label text: literal text or the name of a merge field. -/
structure glTextNode where
  field_flag : Bool
  data : String
deriving DecidableEq, Repr

/-- Text justification (`GtkJustification`). -/
inductive GtkJustification where
  | GTK_JUSTIFY_LEFT
  | GTK_JUSTIFY_RIGHT
  | GTK_JUSTIFY_CENTER
  | GTK_JUSTIFY_FILL
deriving DecidableEq, Repr

/-- What `draw_text_object` reads of a text object. -/
structure glLabelText (R : Type) where
  x : R
  y : R
  w : R
  h : R
  lines : List (List glTextNode)
  font_family : String
  font_size : R
  font_weight : Int
  font_italic_flag : Bool
  color : Nat
  just : GtkJustification

/-- What `draw_box_object` and `draw_ellipse_object` read of their object. -/
structure glLabelShape (R : Type) where
  x : R
  y : R
  w : R
  h : R
  line_width : R
  line_color : Nat
  fill_color : Nat

/-- What `draw_line_object` reads of a line object. -/
structure glLabelLine (R : Type) where
  x : R
  y : R
  w : R
  h : R
  line_width : R
  line_color : Nat

/-- What `draw_image_object` reads of an image object. -/
structure glLabelImage (R : Type) where
  x : R
  y : R
  w : R
  h : R
  pixbuf : GdkPixbuf

/-- What `draw_barcode_object` reads of a barcode object. -/
structure glLabelBarcode (R : Type) where
  x : R
  y : R
  text_node : glTextNode
  style : Nat
  text_flag : Bool
  color : Nat
  scale : R

/-- One bar of a generated barcode (`glBarcodeLine`). -/
structure glBarcodeLine (R : Type) where
  x : R
  y : R
  length : R
  width : R

/-- One character of a generated barcode (`glBarcodeChar`). -/
structure glBarcodeChar (R : Type) where
  x : R
  y : R
  fsize : R
  c : Char

/-- A generated barcode (`glBarcode`). -/
structure glBarcode (R : Type) where
  lines : List (glBarcodeLine R)
  chars : List (glBarcodeChar R)

/-- A label object, tagged with its runtime type (`GL_IS_LABEL_TEXT`, ...). -/
inductive glLabelObject (R : Type) where
  | text (object : glLabelText R)
  | box (object : glLabelShape R)
  | line (object : glLabelLine R)
  | ellipse (object : glLabelShape R)
  | image (object : glLabelImage R)
  | barcode (object : glLabelBarcode R)

/-- What `print.c` reads of a label: its template, size, rotate flag and objects. -/
structure glLabel (R : Type) where
  template : glTemplate R
  width : R
  height : R
  rotate_flag : Bool
  objects : List (glLabelObject R)

/-- Functions and constants used by `print.c` and defined outside it. -/
structure Env (R : Type) where
  cos : R → R
  sin : R → R
  M_PI : R
  text_node_lines_expand : List (List glTextNode) → Option glMergeRecord → String
  text_node_expand : glTextNode → Option glMergeRecord → String
  glyphlist_bbox_x1 : GnomeFont R → String → R
  font_get_descender : GnomeFont R → R
  barcode_new : Nat → Bool → R → String → Option (glBarcode R)
  GL_BARCODE_FONT_FAMILY : String
  GL_BARCODE_FONT_WEIGHT : Int
  gettext : String → String

section Drawing

variable {R : Type} [LinearOrderedField R]

/-- Macro `RED(x)`. -/
def RED (x : Nat) : R := (((x >>> 24) &&& 0xff : Nat) : R) / 255

/-- Macro `GREEN(x)`. -/
def GREEN (x : Nat) : R := (((x >>> 16) &&& 0xff : Nat) : R) / 255

/-- Macro `BLUE(x)`. -/
def BLUE (x : Nat) : R := (((x >>> 8) &&& 0xff : Nat) : R) / 255

/-- Macro `ALPHA(x)`. -/
def ALPHA (x : Nat) : R := ((x &&& 0xff : Nat) : R) / 255

/-- Result of `art_affine_scale (a, sx, sy)`. -/
def art_affine_scale (sx sy : R) : ArtAffine R :=
  { a0 := sx, a1 := 0, a2 := 0, a3 := sy, a4 := 0, a5 := 0 }

/-- Values taken by `i` in `for (i = lo; i <= hi; i += step)`, with `step > 0`. -/
def for_le_step (lo hi step : Int) : List Int :=
  (List.range ((hi - lo) / step + 1).toNat).map fun (k : Nat) => lo + step * (k : Int)

/-- Result of `g_strsplit (text, "\n", -1)`: the empty string has no piece. -/
def g_strsplit_lines (text : String) : List String :=
  if text = "" then [] else text.splitOn "\n"

/-- Path creation utility `create_rectangle_path`. -/
def create_rectangle_path (x0 y0 w h : R) : List (Op R) :=
  [Op.newpath, Op.moveto x0 y0, Op.lineto (x0 + w) y0, Op.lineto (x0 + w) (y0 + h),
   Op.lineto x0 (y0 + h), Op.lineto x0 y0, Op.closepath]

/-- Path creation utility `create_ellipse_path`. -/
def create_ellipse_path (env : Env R) (x0 y0 rx ry : R) : List (Op R) :=
  [Op.newpath, Op.moveto (x0 + rx) y0] ++
  (for_le_step 2 360 2).map (fun (i_theta : Int) =>
    Op.lineto (x0 + rx * env.cos ((i_theta : R) * env.M_PI / 180))
              (y0 + ry * env.sin ((i_theta : R) * env.M_PI / 180))) ++
  [Op.closepath]

/-- Path creation utility `create_rounded_rectangle_path`. -/
def create_rounded_rectangle_path (env : Env R) (x0 y0 w h r : R) : List (Op R) :=
  [Op.newpath, Op.moveto (x0 + r) y0] ++
  (for_le_step 5 90 5).map (fun (i_theta : Int) =>
    Op.lineto (x0 + r - r * env.sin ((i_theta : R) * env.M_PI / 180))
              (y0 + r - r * env.cos ((i_theta : R) * env.M_PI / 180))) ++
  (for_le_step 0 90 5).map (fun (i_theta : Int) =>
    Op.lineto (x0 + r - r * env.cos ((i_theta : R) * env.M_PI / 180))
              (y0 + (h - r) + r * env.sin ((i_theta : R) * env.M_PI / 180))) ++
  (for_le_step 0 90 5).map (fun (i_theta : Int) =>
    Op.lineto (x0 + (w - r) + r * env.sin ((i_theta : R) * env.M_PI / 180))
              (y0 + (h - r) + r * env.cos ((i_theta : R) * env.M_PI / 180))) ++
  (for_le_step 0 90 5).map (fun (i_theta : Int) =>
    Op.lineto (x0 + (w - r) + r * env.cos ((i_theta : R) * env.M_PI / 180))
              (y0 + r - r * env.sin ((i_theta : R) * env.M_PI / 180))) ++
  [Op.lineto (x0 + r) y0, Op.closepath]

/-- Draw text object, `draw_text_object`. -/
def draw_text_object (env : Env R) (object : glLabelText R)
    (record : Option glMergeRecord) : List (Op R) :=
  let font : GnomeFont R :=
    { family := object.font_family, weight := object.font_weight,
      italic := object.font_italic_flag, size := object.font_size }
  let text := env.text_node_lines_expand object.lines record
  let line := g_strsplit_lines text
  [Op.setfont font,
   Op.setrgbcolor (RED object.color) (GREEN object.color) (BLUE object.color),
   Op.setopacity (ALPHA object.color)] ++
  (line.enum.flatMap fun (i, line_i) =>
    let w := env.glyphlist_bbox_x1 font line_i
    let x_offset : R :=
      match object.just with
      | GtkJustification.GTK_JUSTIFY_LEFT => 0
      | GtkJustification.GTK_JUSTIFY_CENTER => (object.w - w) / 2
      | GtkJustification.GTK_JUSTIFY_RIGHT => object.w - w
      | GtkJustification.GTK_JUSTIFY_FILL => 0
    let y_offset : R := ((i : R) + 1) * object.font_size + env.font_get_descender font
    [Op.moveto (object.x + x_offset) (object.y + y_offset),
     Op.gsave, Op.scale 1 (-1), Op.showtext line_i, Op.grestore])

/-- Draw box object, `draw_box_object`. -/
def draw_box_object (object : glLabelShape R) : List (Op R) :=
  create_rectangle_path object.x object.y object.w object.h ++
  [Op.setrgbcolor (RED object.fill_color) (GREEN object.fill_color)
     (BLUE object.fill_color),
   Op.setopacity (ALPHA object.fill_color), Op.fill] ++
  create_rectangle_path object.x object.y object.w object.h ++
  [Op.setrgbcolor (RED object.line_color) (GREEN object.line_color)
     (BLUE object.line_color),
   Op.setopacity (ALPHA object.line_color), Op.setlinewidth object.line_width,
   Op.stroke]

/-- Draw line object, `draw_line_object`. -/
def draw_line_object (object : glLabelLine R) : List (Op R) :=
  [Op.moveto object.x object.y,
   Op.lineto (object.x + object.w) (object.y + object.h),
   Op.setrgbcolor (RED object.line_color) (GREEN object.line_color)
     (BLUE object.line_color),
   Op.setopacity (ALPHA object.line_color), Op.setlinewidth object.line_width,
   Op.stroke]

/-- Draw ellipse object, `draw_ellipse_object`. -/
def draw_ellipse_object (env : Env R) (object : glLabelShape R) : List (Op R) :=
  let rx := object.w / 2
  let ry := object.h / 2
  let x0 := object.x + rx
  let y0 := object.y + ry
  create_ellipse_path env x0 y0 rx ry ++
  [Op.setrgbcolor (RED object.fill_color) (GREEN object.fill_color)
     (BLUE object.fill_color),
   Op.setopacity (ALPHA object.fill_color), Op.fill] ++
  create_ellipse_path env x0 y0 rx ry ++
  [Op.setrgbcolor (RED object.line_color) (GREEN object.line_color)
     (BLUE object.line_color),
   Op.setopacity (ALPHA object.line_color), Op.setlinewidth object.line_width,
   Op.stroke]

/-- Draw image object, `draw_image_object`. -/
def draw_image_object (object : glLabelImage R) : List (Op R) :=
  let pixbuf := object.pixbuf
  [Op.gsave, Op.translate object.x (object.y + object.h),
   Op.scale object.w (-object.h)] ++
  (if pixbuf.has_alpha then
    [Op.rgbaimage pixbuf.pixels pixbuf.width pixbuf.height pixbuf.rowstride]
   else
    [Op.rgbimage pixbuf.pixels pixbuf.width pixbuf.height pixbuf.rowstride]) ++
  [Op.grestore]

/-- Draw barcode object, `draw_barcode_object`. -/
def draw_barcode_object (env : Env R) (object : glLabelBarcode R)
    (record : Option glMergeRecord) : List (Op R) :=
  let text := env.text_node_expand object.text_node record
  match env.barcode_new object.style object.text_flag object.scale text with
  | none =>
    let font : GnomeFont R :=
      { family := env.GL_BARCODE_FONT_FAMILY, weight := env.GL_BARCODE_FONT_WEIGHT,
        italic := false, size := 12 }
    let y_offset : R := 12 - env.font_get_descender font
    [Op.setfont font,
     Op.setrgbcolor (RED object.color) (GREEN object.color) (BLUE object.color),
     Op.setopacity (ALPHA object.color),
     Op.moveto object.x (object.y + y_offset),
     Op.gsave, Op.scale 1 (-1), Op.showtext (env.gettext "Invalid barcode"),
     Op.grestore]
  | some gbc =>
    (gbc.lines.flatMap fun line =>
      [Op.moveto (object.x + line.x) (object.y + line.y),
       Op.lineto (object.x + line.x) (object.y + line.y + line.length),
       Op.setrgbcolor (RED object.color) (GREEN object.color) (BLUE object.color),
       Op.setopacity (ALPHA object.color), Op.setlinewidth line.width, Op.stroke]) ++
    (gbc.chars.flatMap fun bchar =>
      let font : GnomeFont R :=
        { family := env.GL_BARCODE_FONT_FAMILY, weight := env.GL_BARCODE_FONT_WEIGHT,
          italic := false, size := bchar.fsize }
      let y_offset : R := bchar.y + bchar.fsize - env.font_get_descender font
      [Op.setfont font,
       Op.setrgbcolor (RED object.color) (GREEN object.color) (BLUE object.color),
       Op.setopacity (ALPHA object.color),
       Op.moveto (object.x + bchar.x) (object.y + y_offset),
       Op.gsave, Op.scale 1 (-1), Op.showtext (String.singleton bchar.c),
       Op.grestore])

/-- Dispatch of `draw_label` on the type of one object. -/
def draw_object (env : Env R) (record : Option glMergeRecord) :
    glLabelObject R → List (Op R)
  | glLabelObject.text object => draw_text_object env object record
  | glLabelObject.box object => draw_box_object object
  | glLabelObject.line object => draw_line_object object
  | glLabelObject.ellipse object => draw_ellipse_object env object
  | glLabelObject.image object => draw_image_object object
  | glLabelObject.barcode object => draw_barcode_object env object record

/-- Draw label, `draw_label`: every object of the label, in list order. -/
def draw_label (env : Env R) (label : glLabel R) (record : Option glMergeRecord) :
    List (Op R) :=
  label.objects.flatMap (draw_object env record)

/-- Draw outline, `draw_outline`. -/
def draw_outline (env : Env R) (label : glLabel R) : List (Op R) :=
  let template := label.template
  [Op.setrgbcolor (1 / 4) (1 / 4) (1 / 4), Op.setopacity 1, Op.setlinewidth (1 / 4)] ++
  (match template.style with
   | glTemplateStyle.RECT =>
     let r := template.label_round
     (if r = 0 then create_rectangle_path 0 0 label.width label.height
      else create_rounded_rectangle_path env 0 0 label.width label.height r) ++
     [Op.stroke]
   | glTemplateStyle.ROUND =>
     let r1 := template.label_radius
     create_ellipse_path env r1 r1 r1 r1 ++ [Op.stroke]
   | glTemplateStyle.CD =>
     let r1 := template.label_radius
     let r2 := template.label_hole
     create_ellipse_path env r1 r1 r1 r1 ++ [Op.stroke] ++
     create_ellipse_path env r1 r1 r2 r2 ++ [Op.stroke]
   | glTemplateStyle.OTHER => [])

/-- Clip to outline, `clip_to_outline`. -/
def clip_to_outline (env : Env R) (label : glLabel R) : List (Op R) :=
  let template := label.template
  match template.style with
  | glTemplateStyle.RECT =>
    let r := template.label_round
    (if r = 0 then create_rectangle_path 0 0 label.width label.height
     else create_rounded_rectangle_path env 0 0 label.width label.height r) ++
    [Op.clip]
  | glTemplateStyle.ROUND =>
    let r1 := template.label_radius
    create_ellipse_path env r1 r1 r1 r1 ++ [Op.clip]
  | glTemplateStyle.CD =>
    let r1 := template.label_radius
    create_ellipse_path env r1 r1 r1 r1 ++ [Op.clip]
  | glTemplateStyle.OTHER => []

/-- Local variable `ix` of `print_label`: the grid column of cell `i_label`. -/
def label_ix (template : glTemplate R) (i_label : Int) : Int :=
  Int.tmod i_label template.nx

/-- Local variable `iy` of `print_label`: the grid row of cell `i_label`. -/
def label_iy (template : glTemplate R) (i_label : Int) : Int :=
  (template.ny - 1) - Int.tdiv i_label template.nx

/-- The two arguments of the first `gnome_print_translate` call of `print_label`. -/
def cell_origin (template : glTemplate R) (i_label : Int) : R × R :=
  ((label_ix template i_label : R) * template.dx + template.x0,
   (label_iy template i_label : R) * template.dy + template.y0)

/-- Print the i-th label, `print_label`. -/
def print_label (env : Env R) (label : glLabel R) (i_label : Int)
    (record : Option glMergeRecord) (outline_flag reverse_flag : Bool) : List (Op R) :=
  let template := label.template
  let ix := label_ix template i_label
  let iy := label_iy template i_label
  [Op.gsave,
   Op.translate ((ix : R) * template.dx + template.x0)
     ((iy : R) * template.dy + template.y0)] ++
  (if label.rotate_flag then [Op.rotate 90, Op.scale 1 (-1)]
   else [Op.concat { art_affine_scale 1 (-1) with a5 := label.height }]) ++
  (if reverse_flag then
    [Op.translate label.width 0, Op.concat (art_affine_scale (-1) 1)]
   else []) ++
  (if outline_flag then draw_outline env label else []) ++
  clip_to_outline env label ++
  draw_label env label record ++
  [Op.grestore]

/-- The placement transform of `print_label`: its calls between the save and the
outline, that is the translation to the cell origin, the rotation or vertical flip, and
the mirror step when `reverse_flag` is set. -/
def placement_transform (label : glLabel R) (i_label : Int) (reverse_flag : Bool) :
    List (Op R) :=
  [Op.translate (cell_origin label.template i_label).1
     (cell_origin label.template i_label).2]
  ++ (if label.rotate_flag then [Op.rotate 90, Op.scale 1 (-1)]
      else [Op.concat { a0 := 1, a1 := 0, a2 := 0, a3 := -1, a4 := 0,
                        a5 := label.height }])
  ++ (if reverse_flag then
        [Op.translate label.width 0,
         Op.concat { a0 := -1, a1 := 0, a2 := 0, a3 := 1, a4 := 0, a5 := 0 }]
      else [])

/-- Backend calls of one page-level call; page framing itself is kept apart. -/
def run_call (env : Env R) (label : glLabel R) : PageCall → List (Op R)
  | PageCall.print_label i_label record outline_flag reverse_flag =>
    print_label env label i_label record outline_flag reverse_flag
  | _ => []

/-! ## Reading a backend trace -/

/-- Whether a backend call is `gnome_print_gsave`. -/
def isSave : Op R → Bool
  | Op.gsave => true
  | _ => false

/-- Whether a backend call is `gnome_print_grestore`. -/
def isRestore : Op R → Bool
  | Op.grestore => true
  | _ => false

/-- Whether a backend call is `gnome_print_clip`. -/
def isClip : Op R → Bool
  | Op.clip => true
  | _ => false

/-- Whether a backend call is `gnome_print_stroke`. -/
def isStroke : Op R → Bool
  | Op.stroke => true
  | _ => false

/-- Whether a backend call only builds the current path. -/
def isPathOp : Op R → Bool
  | Op.newpath => true
  | Op.moveto _ _ => true
  | Op.lineto _ _ => true
  | Op.closepath => true
  | _ => false

/-- A trace in which no restore lacks an earlier save and every save is restored: in
every initial segment the restores do not outnumber the saves, and in the whole trace
there are as many saves as restores. -/
def Balanced (l : List (Op R)) : Prop :=
  (∀ k : Nat, (l.take k).countP isRestore ≤ (l.take k).countP isSave)
  ∧ l.countP isSave = l.countP isRestore

/-! ## Reading transforms and paths -/

/-- The calls of `print_label` under `if ( reverse_flag )`: the mirror step. -/
def mirror_step (label : glLabel R) : List (Op R) :=
  [Op.translate label.width 0, Op.concat (art_affine_scale (-1) 1)]

/-- Modelled from the spec: the point transformation of a libart affine matrix,
`(x, y) ↦ (a0*x + a2*y + a4, a1*x + a3*y + a5)`. -/
def affine_apply (a : ArtAffine R) (p : R × R) : R × R :=
  (a.a0 * p.1 + a.a2 * p.2 + a.a4, a.a1 * p.1 + a.a3 * p.2 + a.a5)

/-- Modelled from the spec: the affine matrix a transform call of the drawing backend
stands for (translate, rotate by an angle in degrees, scale, concat); other calls are
no transform. -/
def op_affine (env : Env R) : Op R → Option (ArtAffine R)
  | Op.translate x y => some { a0 := 1, a1 := 0, a2 := 0, a3 := 1, a4 := x, a5 := y }
  | Op.rotate theta =>
    some { a0 := env.cos (theta * env.M_PI / 180), a1 := env.sin (theta * env.M_PI / 180),
           a2 := -env.sin (theta * env.M_PI / 180),
           a3 := env.cos (theta * env.M_PI / 180), a4 := 0, a5 := 0 }
  | Op.scale sx sy => some { a0 := sx, a1 := 0, a2 := 0, a3 := sy, a4 := 0, a5 := 0 }
  | Op.concat a => some a
  | _ => none

/-- Modelled from the spec: where a label-local point lands after a sequence of
transform calls, each call being applied to label-local coordinates before the
transforms already in force (the last call acts on the point first). -/
def transform_point (env : Env R) (ops : List (Op R)) (p : R × R) : R × R :=
  ops.foldr (fun op q =>
    match op_affine env op with
    | some a => affine_apply a q
    | none => q) p

/-- The vertices of a path: the points of its `moveto` and `lineto` calls, in order. -/
def path_vertices (ops : List (Op R)) : List (R × R) :=
  ops.filterMap fun op =>
    match op with
    | Op.moveto x y => some (x, y)
    | Op.lineto x y => some (x, y)
    | _ => none

/-- Whether a backend call is `gnome_print_lineto`. -/
def isLineto : Op R → Bool
  | Op.lineto _ _ => true
  | _ => false

/-- An environment with the given trigonometry; the other fields are stubs. -/
def trigEnv (cos sin : R → R) (M_PI : R) : Env R :=
  { cos := cos, sin := sin, M_PI := M_PI,
    text_node_lines_expand := fun _ _ => "",
    text_node_expand := fun node _ => node.data,
    glyphlist_bbox_x1 := fun _ _ => 0,
    font_get_descender := fun _ => 0,
    barcode_new := fun _ _ _ _ => none,
    GL_BARCODE_FONT_FAMILY := "Sans", GL_BARCODE_FONT_WEIGHT := 400,
    gettext := fun text => text }

/-- Whether a backend call is `gnome_print_show`. -/
def isShow : Op R → Bool
  | Op.showtext _ => true
  | _ => false

end Drawing

/-! ## Sample drawing inputs -/

/-- An environment for evaluation: trigonometry and font metrics are stubs, text
expansion returns two lines and barcode generation fails. -/
def sampleEnv : Env ℚ :=
  { cos := fun _ => 1, sin := fun _ => 0, M_PI := 3,
    text_node_lines_expand := fun _ _ => "a\nb",
    text_node_expand := fun node _ => node.data,
    glyphlist_bbox_x1 := fun _ text => (text.length : ℚ),
    font_get_descender := fun _ => -2,
    barcode_new := fun _ _ _ _ => none,
    GL_BARCODE_FONT_FAMILY := "Sans", GL_BARCODE_FONT_WEIGHT := 400,
    gettext := fun text => text }


/-! ## Reading a page-level trace -/

/-- The merge records of the `print_label` calls of a trace, in call order. -/
def drawnRecords (t : List PageCall) : List (Option glMergeRecord) :=
  t.filterMap fun c =>
    match c with
    | PageCall.print_label _ record _ _ => some record
    | _ => none

/-- The cell indices of the `print_label` calls of a trace, in call order. -/
def drawnCells (t : List PageCall) : List Int :=
  t.filterMap fun c =>
    match c with
    | PageCall.print_label i_label _ _ _ => some i_label
    | _ => none

/-- Whether a call is a `gnome_print_beginpage`. -/
def isBegin : PageCall → Bool
  | PageCall.beginpage _ => true
  | _ => false

/-- Whether a call is a `print_label`. -/
def isLabel : PageCall → Bool
  | PageCall.print_label _ _ _ _ => true
  | _ => false

/-- Scan of a trace: the label counts of the pages closed so far (most recent first)
and the number of labels drawn since the last `showpage`. -/
def pageScan (acc : List Nat × Nat) (c : PageCall) : List Nat × Nat :=
  match c with
  | PageCall.beginpage _ => acc
  | PageCall.print_label _ _ _ _ => (acc.1, acc.2 + 1)
  | PageCall.showpage => (acc.2 :: acc.1, 0)

/-- Number of labels on each page of a trace, a page being closed by `showpage`;
pages are listed in the order in which they are closed. -/
def pageSizes (t : List PageCall) : List Nat :=
  (t.foldl pageScan ([], 0)).1.reverse

/-- Number of `gnome_print_beginpage` calls of a trace. -/
def pagesBegun (t : List PageCall) : Nat :=
  t.countP isBegin

/-- Number of `gnome_print_showpage` calls of a trace. -/
def pagesEnded (t : List PageCall) : Nat :=
  t.count PageCall.showpage

/-- The records with `select_flag` set, in source order. -/
def selected (record_list : List glMergeRecord) : List glMergeRecord :=
  record_list.filter fun record => record.select_flag

/-- Collated order: every selected record repeated `n_copies` times before the next. -/
def collated_order (record_list : List glMergeRecord) (n_copies : Int) :
    List glMergeRecord :=
  (selected record_list).flatMap fun record => List.replicate n_copies.toNat record

/-- Uncollated order: `n_copies` full passes over the selected records. -/
def uncollated_order (record_list : List glMergeRecord) (n_copies : Int) :
    List glMergeRecord :=
  (List.replicate n_copies.toNat (selected record_list)).flatten

/-- The label instances of `instances` printed one after the other from state `s`. -/
def run_instances (n_labels_per_page : Int) (outline_flag reverse_flag : Bool)
    (instances : List glMergeRecord) (s : MergeState) : MergeState :=
  instances.foldl (fun s record =>
    merge_instance n_labels_per_page record outline_flag reverse_flag s) s

/-- Merge traversal started at cell 0 (`first = 1`) on sheets of `Ln` cells: state
reached when `q` pages are full and `r` labels lie on the page after them. -/
def PageInv (Ln q r : Nat) (s : MergeState) : Prop :=
  s.i_label = (r : Int)
  ∧ s.i_sheet = ((q + (if r = 0 then 0 else 1) : Nat) : Int)
  ∧ s.out.foldl pageScan ([], 0) = (List.replicate q Ln, r)
  ∧ pagesBegun s.out = q + (if r = 0 then 0 else 1)
  ∧ pagesEnded s.out = q

/-- Ceiling of `N / L`: the least number of sheets of `L` cells that hold `N` labels. -/
def pagesNeeded (N L : Nat) : Nat :=
  (N + L - 1) / L

/-- One page of `gl_print_simple` as the simple mode is described: page begin, the
cells `first - 1 .. last - 1` in ascending order without merge record, page end. -/
def simple_page (k : Nat) (first last : Int) (outline_flag reverse_flag : Bool) :
    List PageCall :=
  [PageCall.beginpage (sheet_str ((k : Int) + 1))]
  ++ (List.range (last - first + 1).toNat).map
      (fun (j : Nat) =>
        PageCall.print_label (first - 1 + (j : Int)) none outline_flag reverse_flag)
  ++ [PageCall.showpage]

/-! ## Sample inputs -/

/-- A template with an `nx` by `ny` grid of rectangular labels, pitch 100 by 50. -/
def sampleTemplate (nx ny : Int) : glTemplate ℚ :=
  { page_size := some "US Letter", style := glTemplateStyle.RECT, label_round := 0,
    label_radius := 0, label_hole := 0, nx := nx, ny := ny,
    x0 := 10, y0 := 20, dx := 100, dy := 50 }

/-- Print information for `sampleTemplate nx ny`. -/
def samplePrintInfo (nx ny : Int) : PrintInfo ℚ :=
  { template := sampleTemplate nx ny, label_rotate_flag := false }

/-- A merge record with one field `name`. -/
def sampleRecord (select_flag : Bool) (name : String) : glMergeRecord :=
  { select_flag := select_flag, field_list := [("name", name)] }

/-- A label on `sampleTemplate 3 2` with one barcode, one two-line text, one image and
one box. -/
def sampleLabel : glLabel ℚ :=
  { template := sampleTemplate 3 2, width := 90, height := 40, rotate_flag := false,
    objects :=
      [glLabelObject.barcode
         { x := 1, y := 2, text_node := { field_flag := false, data := "x" },
           style := 0, text_flag := true, color := 255, scale := 1 },
       glLabelObject.text
         { x := 0, y := 0, w := 50, h := 20, lines := [], font_family := "Sans",
           font_size := 10, font_weight := 400, font_italic_flag := false,
           color := 255, just := GtkJustification.GTK_JUSTIFY_CENTER },
       glLabelObject.image
         { x := 0, y := 0, w := 8, h := 8,
           pixbuf := { pixels := [], width := 0, height := 0, rowstride := 0,
                       has_alpha := true } },
       glLabelObject.box
         { x := 0, y := 0, w := 8, h := 8, line_width := 1, line_color := 255,
           fill_color := 255 }] }

/-! ## Print job set-up -/

/-- A paper description of the print backend (`GnomePrintPaper`). -/
structure GnomePrintPaper (R : Type) where
  name : String
  width : R
  height : R
deriving DecidableEq, Repr

/-- The configuration keys written by `print_info_new`. -/
inductive ConfigKey where
  | GNOME_PRINT_KEY_PAPER_SIZE
  | GNOME_PRINT_KEY_PAPER_WIDTH
  | GNOME_PRINT_KEY_PAPER_HEIGHT
deriving DecidableEq, Repr

/-- Calls on the print configuration `pi->config`; lengths are in `GNOME_PRINT_PS_UNIT`. -/
inductive ConfigCall (R : Type) where
  | set (key : ConfigKey) (value : String)
  | set_length (key : ConfigKey) (value : R)
deriving DecidableEq, Repr

/-- How `print_info_new` ends: it returns NULL after the warning "Label has no
template" (`null`), it reads a field through a NULL pointer after the configuration
calls listed (`fault`), or it returns the print information after the configuration
calls listed (`ok`). -/
inductive PrintInfoResult (R : Type) where
  | null
  | fault (config : List (ConfigCall R))
  | ok (pi : PrintInfo R) (config : List (ConfigCall R))

/-- Macro `GL_PRINT_DEFAULT_PAPER`. -/
def GL_PRINT_DEFAULT_PAPER : String := "US Letter"

/-- New print info structure, `print_info_new`.  `template` is the result of
`gl_label_get_template (label)` (`none` for NULL), `label_rotate_flag` the result of
`gl_label_get_rotate_flag (label)`, and `paper_get_by_name` the paper lookup of the
print backend (`none` for NULL). -/
def print_info_new {R : Type} (paper_get_by_name : String → Option (GnomePrintPaper R))
    (template : Option (glTemplate R)) (label_rotate_flag : Bool) : PrintInfoResult R :=
  match template with
  | none => PrintInfoResult.null
  | some template =>
    match template.page_size with
    | some page_size =>
      let paper := paper_get_by_name page_size
      let config := [ConfigCall.set ConfigKey.GNOME_PRINT_KEY_PAPER_SIZE "Custom"]
      match paper with
      | none => PrintInfoResult.fault config
      | some paper =>
        PrintInfoResult.ok
          { template := template, label_rotate_flag := label_rotate_flag }
          (config ++
            [ConfigCall.set_length ConfigKey.GNOME_PRINT_KEY_PAPER_WIDTH paper.width,
             ConfigCall.set_length ConfigKey.GNOME_PRINT_KEY_PAPER_HEIGHT paper.height])
    | none =>
      PrintInfoResult.ok
        { template := template, label_rotate_flag := label_rotate_flag }
        [ConfigCall.set ConfigKey.GNOME_PRINT_KEY_PAPER_SIZE GL_PRINT_DEFAULT_PAPER]

/-- A paper lookup that knows the names "US Letter" and "A4" only. -/
def samplePapers (name : String) : Option (GnomePrintPaper ℚ) :=
  if name = "US Letter" then some { name := "US Letter", width := 612, height := 792 }
  else if name = "A4" then some { name := "A4", width := 595, height := 842 }
  else none

/-! ## Reading page ends and page brackets -/

/-- For every `print_label` call of a trace, in order: its cell index and whether the
call right after it is `gnome_print_showpage`. -/
def labelsWithEnd : List PageCall → List (Int × Bool)
  | [] => []
  | PageCall.print_label i_label _ _ _ :: rest =>
    (i_label, decide (rest.head? = some PageCall.showpage)) :: labelsWithEnd rest
  | PageCall.beginpage _ :: rest => labelsWithEnd rest
  | PageCall.showpage :: rest => labelsWithEnd rest

/-- One step of the page bracket check.  The state is `none` after a violation,
`some none` outside a page and `some (some n)` inside a page holding `n` labels: a
page begin is allowed outside a page only, a label inside a page only, and a page end
inside a page holding at least one label only. -/
def pageStep (st : Option (Option Nat)) (c : PageCall) : Option (Option Nat) :=
  match st, c with
  | some none, PageCall.beginpage _ => some (some 0)
  | some (some n), PageCall.print_label _ _ _ _ => some (some (n + 1))
  | some (some (_ + 1)), PageCall.showpage => some none
  | _, _ => none

/-- Whether the page calls of a trace are well bracketed: begins and ends alternate
starting with a begin, every label lies between a begin and the end that follows it, no
page is empty, and the trace ends outside a page. -/
def wellBracketed (t : List PageCall) : Bool :=
  t.foldl pageStep (some none) == some none


/-- The cell sequence of a merge trace `t` of `N` label instances started at `first` on
sheets of `L` cells: instance `k` is at cell `(first - 1 + k) mod L`, every cell index
lies in `[0, L)`, the trace is the calls of the loops followed by the closing page end
(made when the last page is partly filled), in the calls of the loops a label is
followed at once by a page end exactly when its cell index is `L - 1`, and in the whole
trace every label at cell `L - 1` is followed at once by a page end. -/
def CellSequence (L first : Int) (N : Nat) (t : List PageCall) : Prop :=
  drawnCells t = (List.range N).map (fun (k : Nat) => (first - 1 + (k : Int)) % L)
  ∧ (∀ c ∈ drawnCells t, 0 ≤ c ∧ c < L)
  ∧ (∃ loop_calls : List PageCall,
      t = loop_calls
          ++ (if (first - 1 + (N : Int)) % L ≠ 0 then [PageCall.showpage] else [])
      ∧ labelsWithEnd loop_calls
          = (List.range N).map (fun (k : Nat) =>
              ((first - 1 + (k : Int)) % L,
               decide ((first - 1 + (k : Int)) % L = L - 1))))
  ∧ (∀ p ∈ labelsWithEnd t, p.1 = L - 1 → p.2 = true)

/-- Merge traversal: what holds of the local variables and of the calls made so far
after any number of label instances.  Before the first instance nothing was called;
afterwards the trace starts with the begin of "sheet 1" and either the cell counter is 0
and the last call closed a well-bracketed trace, or the counter is not 0 and the trace
is inside a page holding at least one label. -/
def BracketInv (s : MergeState) : Prop :=
  0 ≤ s.i_sheet
  ∧ ((s.i_sheet = 0 ∧ s.out = [])
    ∨ (s.i_sheet ≠ 0
        ∧ s.out.head? = some (PageCall.beginpage (sheet_str 1))
        ∧ ((s.i_label = 0 ∧ s.out.foldl pageStep (some none) = some none
              ∧ s.out.getLast? = some PageCall.showpage)
          ∨ (s.i_label ≠ 0
              ∧ ∃ n : Nat, s.out.foldl pageStep (some none) = some (some (n + 1))))))


/-! ## Loops as iteration over the list of label instances -/

theorem for_loop_const {σ : Type} (n : Int) (f : σ → σ) (s : σ) :
    for_loop 0 n (fun _ s => f s) s = f^[n.toNat] s := by
  unfold for_loop
  simp only [sub_zero]
  generalize n.toNat = m
  induction m with
  | zero => simp
  | succ m ih =>
    rw [List.range_succ, List.foldl_append, ih, Function.iterate_succ_apply']
    simp

theorem foldl_replicate_iterate {σ α : Type} (g : α → σ → σ) (a : α) (m : Nat) (s : σ) :
    (List.replicate m a).foldl (fun s x => g x s) s = (g a)^[m] s := by
  induction m generalizing s with
  | zero => simp
  | succ m ih => simp [List.replicate_succ, ih]

theorem collated_loop_eq {σ : Type} (g : glMergeRecord → σ → σ) (m : Nat)
    (record_list : List glMergeRecord) (s : σ) :
    record_list.foldl (fun s record =>
        if record.select_flag then (g record)^[m] s else s) s
      = ((selected record_list).flatMap fun record => List.replicate m record).foldl
          (fun s x => g x s) s := by
  induction record_list generalizing s with
  | nil => simp [selected]
  | cons record rest ih =>
    cases hsel : record.select_flag
    · simp only [List.foldl_cons, hsel]
      rw [ih]
      simp [selected, hsel]
    · simp only [List.foldl_cons, hsel]
      rw [ih]
      simp [selected, hsel, List.foldl_append, foldl_replicate_iterate]

theorem pass_loop_eq {σ : Type} (g : glMergeRecord → σ → σ)
    (record_list : List glMergeRecord) (s : σ) :
    record_list.foldl (fun s record => if record.select_flag then g record s else s) s
      = (selected record_list).foldl (fun s x => g x s) s := by
  induction record_list generalizing s with
  | nil => simp [selected]
  | cons record rest ih =>
    cases hsel : record.select_flag
    · simp only [List.foldl_cons, hsel]
      rw [ih]
      simp [selected, hsel]
    · simp only [List.foldl_cons, hsel]
      rw [ih]
      simp [selected, hsel]

theorem uncollated_loop_eq {σ : Type} (g : glMergeRecord → σ → σ) (m : Nat)
    (record_list : List glMergeRecord) (s : σ) :
    (fun s => record_list.foldl
        (fun s record => if record.select_flag then g record s else s) s)^[m] s
      = ((List.replicate m (selected record_list)).flatten).foldl
          (fun s x => g x s) s := by
  induction m generalizing s with
  | zero => simp
  | succ m ih =>
    rw [Function.iterate_succ_apply, ih, pass_loop_eq]
    simp [List.replicate_succ, List.foldl_append]

theorem gl_print_merge_collated_eq {R : Type} (pi : PrintInfo R)
    (record_list : List glMergeRecord) (n_copies first : Int)
    (outline_flag reverse_flag : Bool) :
    gl_print_merge_collated pi record_list n_copies first outline_flag reverse_flag
      = merge_finish (run_instances (pi.template.nx * pi.template.ny) outline_flag
          reverse_flag (collated_order record_list n_copies)
          { i_sheet := 0, i_label := first - 1, out := [] }) := by
  unfold gl_print_merge_collated run_instances collated_order
  simp only [for_loop_const]
  rw [collated_loop_eq]

theorem gl_print_merge_uncollated_eq {R : Type} (pi : PrintInfo R)
    (record_list : List glMergeRecord) (n_copies first : Int)
    (outline_flag reverse_flag : Bool) :
    gl_print_merge_uncollated pi record_list n_copies first outline_flag reverse_flag
      = merge_finish (run_instances (pi.template.nx * pi.template.ny) outline_flag
          reverse_flag (uncollated_order record_list n_copies)
          { i_sheet := 0, i_label := first - 1, out := [] }) := by
  unfold gl_print_merge_uncollated run_instances uncollated_order
  simp only [for_loop_const]
  rw [uncollated_loop_eq]

/-! ## One label instance -/

theorem merge_instance_out (L : Int) (record : glMergeRecord) (o r : Bool)
    (s : MergeState) :
    (merge_instance L record o r s).out
      = s.out
        ++ (if s.i_label = 0 ∨ s.i_sheet = 0
            then [PageCall.beginpage (sheet_str (s.i_sheet + 1))] else [])
        ++ [PageCall.print_label s.i_label (some record) o r]
        ++ (if Int.tmod (s.i_label + 1) L = 0 then [PageCall.showpage] else []) := by
  unfold merge_instance
  by_cases h1 : s.i_label = 0 ∨ s.i_sheet = 0 <;>
    by_cases h2 : Int.tmod (s.i_label + 1) L = 0 <;> simp [h1, h2]

theorem merge_instance_i_label (L : Int) (record : glMergeRecord) (o r : Bool)
    (s : MergeState) :
    (merge_instance L record o r s).i_label = Int.tmod (s.i_label + 1) L := by
  unfold merge_instance
  by_cases h1 : s.i_label = 0 ∨ s.i_sheet = 0 <;>
    by_cases h2 : Int.tmod (s.i_label + 1) L = 0 <;> simp [h1, h2]

theorem merge_instance_i_sheet (L : Int) (record : glMergeRecord) (o r : Bool)
    (s : MergeState) :
    (merge_instance L record o r s).i_sheet
      = if s.i_label = 0 ∨ s.i_sheet = 0 then s.i_sheet + 1 else s.i_sheet := by
  unfold merge_instance
  by_cases h1 : s.i_label = 0 ∨ s.i_sheet = 0 <;>
    by_cases h2 : Int.tmod (s.i_label + 1) L = 0 <;> simp [h1, h2]

theorem run_instances_cons (L : Int) (o r : Bool) (record : glMergeRecord)
    (rest : List glMergeRecord) (s : MergeState) :
    run_instances L o r (record :: rest) s
      = run_instances L o r rest (merge_instance L record o r s) := rfl

theorem drawnRecords_append (t u : List PageCall) :
    drawnRecords (t ++ u) = drawnRecords t ++ drawnRecords u := by
  simp [drawnRecords, List.filterMap_append]

theorem drawnCells_append (t u : List PageCall) :
    drawnCells (t ++ u) = drawnCells t ++ drawnCells u := by
  simp [drawnCells, List.filterMap_append]

theorem drawnRecords_merge_instance (L : Int) (record : glMergeRecord) (o r : Bool)
    (s : MergeState) :
    drawnRecords (merge_instance L record o r s).out
      = drawnRecords s.out ++ [some record] := by
  rw [merge_instance_out]
  by_cases h1 : s.i_label = 0 ∨ s.i_sheet = 0 <;>
    by_cases h2 : Int.tmod (s.i_label + 1) L = 0 <;>
    simp [h1, h2, drawnRecords_append, drawnRecords]

theorem drawnCells_merge_instance (L : Int) (record : glMergeRecord) (o r : Bool)
    (s : MergeState) :
    drawnCells (merge_instance L record o r s).out
      = drawnCells s.out ++ [s.i_label] := by
  rw [merge_instance_out]
  by_cases h1 : s.i_label = 0 ∨ s.i_sheet = 0 <;>
    by_cases h2 : Int.tmod (s.i_label + 1) L = 0 <;>
    simp [h1, h2, drawnCells_append, drawnCells]

theorem drawnRecords_run_instances (L : Int) (o r : Bool)
    (instances : List glMergeRecord) (s : MergeState) :
    drawnRecords (run_instances L o r instances s).out
      = drawnRecords s.out ++ instances.map some := by
  induction instances generalizing s with
  | nil => simp [run_instances]
  | cons record rest ih =>
    rw [run_instances_cons, ih, drawnRecords_merge_instance]
    simp

theorem drawnRecords_merge_finish (s : MergeState) :
    drawnRecords (merge_finish s) = drawnRecords s.out := by
  unfold merge_finish
  by_cases h : s.i_label = 0 <;> simp [h, drawnRecords_append, drawnRecords]

theorem drawnCells_merge_finish (s : MergeState) :
    drawnCells (merge_finish s) = drawnCells s.out := by
  unfold merge_finish
  by_cases h : s.i_label = 0 <;> simp [h, drawnCells_append, drawnCells]

/-- Cell counter and cell indices after a run of label instances started at a cell
inside the sheet. -/
theorem cells_run_instances (L : Int) (o r : Bool)
    (instances : List glMergeRecord) (s : MergeState)
    (h0 : 0 ≤ s.i_label) (h1 : s.i_label < L) :
    (run_instances L o r instances s).i_label = (s.i_label + instances.length) % L
    ∧ drawnCells (run_instances L o r instances s).out
        = drawnCells s.out
          ++ (List.range instances.length).map
              (fun (k : Nat) => (s.i_label + (k : Int)) % L) := by
  have hL : 0 < L := lt_of_le_of_lt h0 h1
  induction instances generalizing s with
  | nil =>
    simp [run_instances, Int.emod_eq_of_lt h0 h1]
  | cons record rest ih =>
    have hstep : (merge_instance L record o r s).i_label = (s.i_label + 1) % L := by
      rw [merge_instance_i_label, Int.tmod_eq_emod (by omega) (le_of_lt hL)]
    have hlo : 0 ≤ (merge_instance L record o r s).i_label := by
      rw [hstep]; exact Int.emod_nonneg _ (ne_of_gt hL)
    have hhi : (merge_instance L record o r s).i_label < L := by
      rw [hstep]; exact Int.emod_lt_of_pos _ hL
    obtain ⟨ih1, ih2⟩ := ih (merge_instance L record o r s) hlo hhi
    rw [run_instances_cons]
    constructor
    · rw [ih1, hstep, Int.emod_add_emod]
      congr 1
      simp only [List.length_cons, Nat.cast_add, Nat.cast_one]
      ring
    · rw [ih2, drawnCells_merge_instance, hstep, List.length_cons,
        List.range_succ_eq_map, List.map_cons, List.map_map, List.append_assoc]
      congr 1
      simp only [List.singleton_append, Nat.cast_zero, add_zero]
      rw [Int.emod_eq_of_lt h0 h1]
      congr 1
      apply List.map_congr_left
      intro k _
      simp only [Function.comp, Nat.succ_eq_add_one, Nat.cast_add, Nat.cast_one]
      rw [Int.emod_add_emod]
      congr 1
      ring

/-! ## Pages of a merge traversal started at cell 0 -/

theorem pageInv_start (Ln : Nat) :
    PageInv Ln 0 0 { i_sheet := 0, i_label := 0, out := [] } := by
  simp [PageInv, pagesBegun, pagesEnded]

theorem pageInv_step (Ln q r : Nat) (record : glMergeRecord) (o rv : Bool)
    (s : MergeState) (h : PageInv Ln q r s) (hr : r < Ln) :
    (r + 1 = Ln → PageInv Ln (q + 1) 0 (merge_instance (Ln : Int) record o rv s))
    ∧ (r + 1 ≠ Ln → PageInv Ln q (r + 1) (merge_instance (Ln : Int) record o rv s)) := by
  obtain ⟨h1, h2, h3, h4, h5⟩ := h
  have hcond : (s.i_label = 0 ∨ s.i_sheet = 0) ↔ r = 0 := by
    rw [h1, h2]
    by_cases hr0 : r = 0
    · simp [hr0]
    · simp only [hr0, if_false, iff_false, not_or]
      constructor <;> omega
  have hmod : Int.tmod (s.i_label + 1) (Ln : Int)
      = if r + 1 = Ln then 0 else ((r + 1 : Nat) : Int) := by
    rw [h1, Int.tmod_eq_emod (by omega) (by omega)]
    by_cases hfull : r + 1 = Ln
    · rw [if_pos hfull, ← hfull]
      simp
    · rw [if_neg hfull]
      have : ((r : Int) + 1) < (Ln : Int) := by omega
      rw [Int.emod_eq_of_lt (by omega) this]
      simp
  constructor
  · intro hfull
    unfold PageInv
    rw [merge_instance_out, merge_instance_i_label, merge_instance_i_sheet, hmod]
    by_cases hr0 : r = 0
    · have hc : s.i_label = 0 ∨ s.i_sheet = 0 := hcond.mpr hr0
      simp only [hc, hfull, if_true, List.foldl_append, h3, pagesBegun, pagesEnded,
        List.countP_append, List.count_append]
      simp only [pagesBegun, pagesEnded] at h4 h5
      subst hr0
      simp [pageScan, isBegin, h2, h4, h5, List.replicate_succ, ← hfull]
    · have hc : ¬ (s.i_label = 0 ∨ s.i_sheet = 0) := fun hh => hr0 (hcond.mp hh)
      simp only [hc, hfull, if_true, if_false, List.foldl_append, h3, pagesBegun,
        pagesEnded, List.countP_append, List.count_append]
      simp only [pagesBegun, pagesEnded] at h4 h5
      simp [pageScan, isBegin, h2, h4, h5, hr0, List.replicate_succ, hfull]
  · intro hfull
    unfold PageInv
    rw [merge_instance_out, merge_instance_i_label, merge_instance_i_sheet, hmod]
    have hne : (r : Int) + 1 ≠ 0 := by omega
    by_cases hr0 : r = 0
    · have hc : s.i_label = 0 ∨ s.i_sheet = 0 := hcond.mpr hr0
      simp only [hc, hfull, if_true, if_false, List.foldl_append, h3, pagesBegun,
        pagesEnded, List.countP_append, List.count_append]
      simp only [pagesBegun, pagesEnded] at h4 h5
      subst hr0
      simp [pageScan, isBegin, h2, h4, h5]
    · have hc : ¬ (s.i_label = 0 ∨ s.i_sheet = 0) := fun hh => hr0 (hcond.mp hh)
      simp only [hc, hfull, if_false, List.foldl_append, h3, pagesBegun,
        pagesEnded, List.countP_append, List.count_append]
      simp only [pagesBegun, pagesEnded] at h4 h5
      simp [pageScan, isBegin, h2, h4, h5, hr0, hne]

theorem pageInv_run (Ln : Nat) (o rv : Bool) (instances : List glMergeRecord)
    (q r : Nat) (s : MergeState) (h : PageInv Ln q r s) (hr : r < Ln) :
    ∃ q2 r2 : Nat, r2 < Ln ∧ q2 * Ln + r2 = q * Ln + r + instances.length
      ∧ PageInv Ln q2 r2 (run_instances (Ln : Int) o rv instances s) := by
  induction instances generalizing q r s with
  | nil => exact ⟨q, r, hr, by simp, by simpa [run_instances] using h⟩
  | cons record rest ih =>
    rw [run_instances_cons]
    obtain ⟨hfull, hpart⟩ := pageInv_step Ln q r record o rv s h hr
    by_cases hc : r + 1 = Ln
    · obtain ⟨q2, r2, h1, h2, h3⟩ := ih (q + 1) 0 _ (hfull hc) (by omega)
      refine ⟨q2, r2, h1, ?_, h3⟩
      rw [h2, List.length_cons, ← hc]
      ring
    · obtain ⟨q2, r2, h1, h2, h3⟩ := ih q (r + 1) _ (hpart hc) (by omega)
      refine ⟨q2, r2, h1, ?_, h3⟩
      rw [h2, List.length_cons]
      ring

theorem pageInv_finish (Ln q r : Nat) (s : MergeState) (h : PageInv Ln q r s) :
    pagesBegun (merge_finish s) = q + (if r = 0 then 0 else 1)
    ∧ pagesEnded (merge_finish s) = q + (if r = 0 then 0 else 1)
    ∧ pageSizes (merge_finish s)
        = List.replicate q Ln ++ (if r = 0 then [] else [r]) := by
  obtain ⟨h1, _, h3, h4, h5⟩ := h
  unfold merge_finish pageSizes
  by_cases hr0 : r = 0
  · have : s.i_label = 0 := by rw [h1, hr0]; rfl
    simp [this, hr0, h3, h4, h5]
  · have : s.i_label ≠ 0 := by rw [h1]; exact_mod_cast hr0
    simp only [this, ne_eq, not_false_eq_true, if_true, hr0, if_false, pagesBegun,
      pagesEnded, List.countP_append, List.count_append, List.foldl_append, h3]
    simp only [pagesBegun, pagesEnded] at h4 h5
    simp [pageScan, isBegin, h4, h5, hr0]

/-- Page count and page sizes written with the ceiling of `N / Ln`. -/
theorem pages_arith (Ln q r N : Nat) (hr : r < Ln) (hN : q * Ln + r = N) (h1 : 1 ≤ N) :
    q + (if r = 0 then 0 else 1) = (N + Ln - 1) / Ln
    ∧ List.replicate q Ln ++ (if r = 0 then [] else [r])
        = List.replicate ((N + Ln - 1) / Ln - 1) Ln
          ++ [N - Ln * ((N + Ln - 1) / Ln - 1)] := by
  have hLn : 0 < Ln := by omega
  by_cases hr0 : r = 0
  · subst hr0
    have hq : 1 ≤ q := by
      rcases Nat.eq_zero_or_pos q with h0 | h0
      · subst h0; simp at hN; omega
      · exact h0
    have hdiv : (N + Ln - 1) / Ln = q := by
      have : N + Ln - 1 = (Ln - 1) + Ln * q := by
        rw [← hN, Nat.mul_comm q Ln]; omega
      rw [this, Nat.add_mul_div_left _ _ hLn, Nat.div_eq_of_lt (by omega)]
      simp
    rw [hdiv]
    obtain ⟨k, rfl⟩ : ∃ k, q = k + 1 := ⟨q - 1, by omega⟩
    refine ⟨by simp, ?_⟩
    have hlast : N - Ln * (k + 1 - 1) = Ln := by
      rw [← hN]
      simp only [Nat.add_sub_cancel, add_zero]
      rw [Nat.mul_comm Ln k, Nat.add_mul]
      simp
    rw [hlast]
    simpa using List.replicate_succ' k Ln
  · have hdiv : (N + Ln - 1) / Ln = q + 1 := by
      have : N + Ln - 1 = (r - 1) + Ln * (q + 1) := by
        rw [← hN, Nat.mul_add, Nat.mul_comm q Ln]; omega
      rw [this, Nat.add_mul_div_left _ _ hLn, Nat.div_eq_of_lt (by omega)]
      simp
    rw [hdiv]
    refine ⟨by simp [hr0], ?_⟩
    have hlast : N - Ln * (q + 1 - 1) = r := by
      rw [← hN, Nat.add_sub_cancel, Nat.mul_comm Ln q]
      simp
    rw [hlast]
    simp [hr0]

/-- Pages of a merge traversal over any instance list, started at cell 0. -/
theorem pages_run_instances (Ln : Nat) (o rv : Bool) (instances : List glMergeRecord)
    (hLn : 1 ≤ Ln) (hN : 1 ≤ instances.length) :
    let t := merge_finish (run_instances (Ln : Int) o rv instances
      { i_sheet := 0, i_label := 0, out := [] })
    let P := (instances.length + Ln - 1) / Ln
    pagesBegun t = P ∧ pagesEnded t = P
    ∧ pageSizes t = List.replicate (P - 1) Ln ++ [instances.length - Ln * (P - 1)] := by
  intro t P
  obtain ⟨q, r, hr, hsum, hinv⟩ :=
    pageInv_run Ln o rv instances 0 0 _ (pageInv_start Ln) (by omega)
  obtain ⟨hb, he, hs⟩ := pageInv_finish Ln q r _ hinv
  have hsum2 : q * Ln + r = instances.length := by simpa using hsum
  obtain ⟨ha1, ha2⟩ := pages_arith Ln q r instances.length hr hsum2 hN
  refine ⟨?_, ?_, ?_⟩
  · show pagesBegun (merge_finish _) = _
    rw [hb, ha1]
  · show pagesEnded (merge_finish _) = _
    rw [he, ha1]
  · show pageSizes (merge_finish _) = _
    rw [hs, ha2]

/-! ## Simple mode as a list of pages -/

theorem for_loop_append {α : Type} (lo hi : Int) (g : Int → List α) (out : List α) :
    for_loop lo hi (fun i out => out ++ g i) out
      = out ++ (List.range (hi - lo).toNat).flatMap (fun (k : Nat) => g (lo + (k : Int))) := by
  unfold for_loop
  generalize (hi - lo).toNat = m
  induction m with
  | zero => simp
  | succ m ih =>
    rw [List.range_succ, List.foldl_append, ih]
    simp [List.flatMap_append]

theorem gl_print_simple_eq (n_sheets first last : Int) (o r : Bool) :
    gl_print_simple n_sheets first last o r
      = (List.range n_sheets.toNat).flatMap (fun k => simple_page k first last o r) := by
  unfold gl_print_simple
  have hbody : ∀ (i_sheet : Int) (out : List PageCall),
      for_loop (first - 1) last (fun i_label out =>
          out ++ [PageCall.print_label i_label none o r])
          (out ++ [PageCall.beginpage (sheet_str (i_sheet + 1))])
        ++ [PageCall.showpage]
      = out ++ ([PageCall.beginpage (sheet_str (i_sheet + 1))]
          ++ (List.range (last - first + 1).toNat).map
              (fun (j : Nat) => PageCall.print_label (first - 1 + (j : Int)) none o r)
          ++ [PageCall.showpage]) := by
    intro i_sheet out
    rw [for_loop_append]
    have hlen : (last - (first - 1)).toNat = (last - first + 1).toNat := by
      congr 1; ring
    rw [hlen]
    simp [List.flatMap_singleton, List.append_assoc]
    induction (last - first + 1).toNat with
    | zero => simp
    | succ m ih => simp [List.range_succ, List.flatMap_append, ih]
  simp only [hbody]
  rw [for_loop_append]
  simp [simple_page]

theorem drawnCells_flatMap {α : Type} (l : List α) (page : α → List PageCall) :
    drawnCells (l.flatMap page) = l.flatMap (fun k => drawnCells (page k)) := by
  induction l with
  | nil => simp [drawnCells]
  | cons a rest ih => simp [List.flatMap_cons, drawnCells_append, ih]

theorem drawnRecords_flatMap {α : Type} (l : List α) (page : α → List PageCall) :
    drawnRecords (l.flatMap page) = l.flatMap (fun k => drawnRecords (page k)) := by
  induction l with
  | nil => simp [drawnRecords]
  | cons a rest ih => simp [List.flatMap_cons, drawnRecords_append, ih]

theorem drawnCells_simple_page (k : Nat) (first last : Int) (o r : Bool) :
    drawnCells (simple_page k first last o r)
      = (List.range (last - first + 1).toNat).map
          (fun (j : Nat) => first - 1 + (j : Int)) := by
  unfold simple_page
  rw [drawnCells_append, drawnCells_append]
  simp only [drawnCells, List.filterMap_cons, List.filterMap_nil, List.nil_append,
    List.append_nil, List.filterMap_map]
  induction (last - first + 1).toNat with
  | zero => simp
  | succ m ih =>
    rw [List.range_succ, List.filterMap_append, List.map_append, ih]
    simp

theorem drawnRecords_simple_page (k : Nat) (first last : Int) (o r : Bool) :
    drawnRecords (simple_page k first last o r)
      = List.replicate (last - first + 1).toNat none := by
  unfold simple_page
  rw [drawnRecords_append, drawnRecords_append]
  simp only [drawnRecords, List.filterMap_cons, List.filterMap_nil, List.nil_append,
    List.append_nil, List.filterMap_map]
  induction (last - first + 1).toNat with
  | zero => simp
  | succ m ih =>
    rw [List.range_succ, List.filterMap_append, ih, List.replicate_succ']
    simp

theorem length_flatMap_const {α β : Type} (l : List α) (f : α → List β) (m : Nat)
    (h : ∀ a, (f a).length = m) : (l.flatMap f).length = l.length * m := by
  induction l with
  | nil => simp
  | cons a rest ih =>
    rw [List.flatMap_cons, List.length_append, ih, h, List.length_cons]
    ring

theorem length_collated_order (record_list : List glMergeRecord) (n_copies : Int) :
    (collated_order record_list n_copies).length
      = (record_list.filter fun record => record.select_flag).length * n_copies.toNat := by
  unfold collated_order selected
  exact length_flatMap_const _ _ _ (fun a => by simp)

theorem length_uncollated_order (record_list : List glMergeRecord) (n_copies : Int) :
    (uncollated_order record_list n_copies).length
      = (record_list.filter fun record => record.select_flag).length * n_copies.toNat := by
  unfold uncollated_order selected
  generalize n_copies.toNat = m
  induction m with
  | zero => simp
  | succ m ih =>
    rw [List.replicate_succ, List.flatten_cons, List.length_append, ih]
    ring

theorem selected_selected (record_list : List glMergeRecord) :
    selected (selected record_list) = selected record_list := by
  unfold selected
  rw [List.filter_filter]
  simp

/-! ## Traversal claims -/

/-- C1: in collated mode the records of the labels drawn are the selected records in
source order, each repeated `n_copies` times in a row before the next one; this holds
for every `first`, and for selected records `R1, R2` with two copies the order is
`R1, R1, R2, R2`. -/
theorem gl_print_merge_collated_record_order {R : Type} (pi : PrintInfo R)
    (record_list : List glMergeRecord) (n_copies first : Int) (o r : Bool)
    (fields1 fields2 : List (String × String)) :
    drawnRecords (gl_print_merge_collated pi record_list n_copies first o r)
      = (record_list.filter fun record => record.select_flag).flatMap
          (fun record => List.replicate n_copies.toNat (some record))
    ∧ drawnRecords (gl_print_merge_collated pi
          [{ select_flag := true, field_list := fields1 },
           { select_flag := true, field_list := fields2 }] 2 first o r)
      = [some { select_flag := true, field_list := fields1 },
         some { select_flag := true, field_list := fields1 },
         some { select_flag := true, field_list := fields2 },
         some { select_flag := true, field_list := fields2 }] := by
  have hgen : ∀ l : List glMergeRecord, ∀ n : Int,
      drawnRecords (gl_print_merge_collated pi l n first o r)
        = (l.filter fun record => record.select_flag).flatMap
            (fun record => List.replicate n.toNat (some record)) := by
    intro l n
    rw [gl_print_merge_collated_eq, drawnRecords_merge_finish, drawnRecords_run_instances]
    simp only [drawnRecords, List.filterMap_nil, List.nil_append, collated_order, selected]
    induction l.filter (fun record => record.select_flag) with
    | nil => simp
    | cons a rest ih => simp [List.flatMap_cons, ih]
  refine ⟨hgen record_list n_copies, ?_⟩
  rw [hgen]
  simp [List.replicate]

/-- C2: in uncollated mode the records of the labels drawn are `n_copies` full passes
over the selected records in source order; this holds for every `first`, and for
selected records `R1, R2` with two copies the order is `R1, R2, R1, R2`. -/
theorem gl_print_merge_uncollated_record_order {R : Type} (pi : PrintInfo R)
    (record_list : List glMergeRecord) (n_copies first : Int) (o r : Bool)
    (fields1 fields2 : List (String × String)) :
    drawnRecords (gl_print_merge_uncollated pi record_list n_copies first o r)
      = (List.replicate n_copies.toNat
          ((record_list.filter fun record => record.select_flag).map some)).flatten
    ∧ drawnRecords (gl_print_merge_uncollated pi
          [{ select_flag := true, field_list := fields1 },
           { select_flag := true, field_list := fields2 }] 2 first o r)
      = [some { select_flag := true, field_list := fields1 },
         some { select_flag := true, field_list := fields2 },
         some { select_flag := true, field_list := fields1 },
         some { select_flag := true, field_list := fields2 }] := by
  have hgen : ∀ l : List glMergeRecord, ∀ n : Int,
      drawnRecords (gl_print_merge_uncollated pi l n first o r)
        = (List.replicate n.toNat
            ((l.filter fun record => record.select_flag).map some)).flatten := by
    intro l n
    rw [gl_print_merge_uncollated_eq, drawnRecords_merge_finish,
      drawnRecords_run_instances]
    simp only [drawnRecords, List.filterMap_nil, List.nil_append, uncollated_order,
      selected]
    induction n.toNat with
    | zero => simp
    | succ m ih => simp [List.replicate_succ, ih]
  refine ⟨hgen record_list n_copies, ?_⟩
  rw [hgen]
  simp [List.replicate]

/-- C3, as the claim states its example: on a sheet of one cell the list
`[A (selected), B (unselected), C (selected)]` with one copy and `first = 1` has its two
labels placed at cells 0 and 0, not at cells 0 and 1, in both merge modes. -/
theorem merge_cells_single_cell_sheet :
    drawnCells (gl_print_merge_collated (samplePrintInfo 1 1)
        [sampleRecord true "A", sampleRecord false "B", sampleRecord true "C"]
        1 1 false false) = [0, 0]
    ∧ drawnCells (gl_print_merge_uncollated (samplePrintInfo 1 1)
        [sampleRecord true "A", sampleRecord false "B", sampleRecord true "C"]
        1 1 false false) = [0, 0]
    ∧ drawnCells (gl_print_merge_collated (samplePrintInfo 1 1)
        [sampleRecord true "A", sampleRecord false "B", sampleRecord true "C"]
        1 1 false false) ≠ [0, 1]
    ∧ drawnCells (gl_print_merge_uncollated (samplePrintInfo 1 1)
        [sampleRecord true "A", sampleRecord false "B", sampleRecord true "C"]
        1 1 false false) ≠ [0, 1] := by
  decide

theorem merge_two_instances_wide (L : Int) (o r : Bool) (A C : glMergeRecord)
    (hL : 2 ≤ L) :
    merge_finish (run_instances L o r [A, C] { i_sheet := 0, i_label := 1 - 1, out := [] })
      = [PageCall.beginpage "sheet 1", PageCall.print_label 0 (some A) o r,
         PageCall.print_label 1 (some C) o r, PageCall.showpage] := by
  have hs1 : sheet_str 1 = "sheet 1" := by decide
  have hm1 : Int.tmod 1 L = 1 := Int.tmod_eq_of_lt (by omega) (by omega)
  by_cases h2 : L = 2
  · subst h2
    have hm2 : Int.tmod 2 2 = 0 := by decide
    simp [run_instances, merge_instance, merge_finish, hs1, hm1, hm2]
  · have hm2 : Int.tmod 2 L = 2 := Int.tmod_eq_of_lt (by omega) (by omega)
    simp [run_instances, merge_instance, merge_finish, hs1, hm1, hm2]

theorem merge_two_instances_single (o r : Bool) (A C : glMergeRecord) :
    merge_finish (run_instances 1 o r [A, C] { i_sheet := 0, i_label := 1 - 1, out := [] })
      = [PageCall.beginpage "sheet 1", PageCall.print_label 0 (some A) o r,
         PageCall.showpage, PageCall.beginpage "sheet 2",
         PageCall.print_label 0 (some C) o r, PageCall.showpage] := by
  have hs1 : sheet_str 1 = "sheet 1" := by decide
  have hs2 : sheet_str 2 = "sheet 2" := by decide
  have hm1 : Int.tmod 1 1 = 0 := by decide
  simp [run_instances, merge_instance, merge_finish, hs1, hs2, hm1]

/-- C3, amended: in both merge modes, for every record list, `n_copies` and `first`, the
whole sequence of page and label calls equals the sequence for the list with the
unselected records removed.  The list `[A (selected), B (unselected), C (selected)]`
with one copy and `first = 1` places exactly two labels, for `A` and `C`: at cells 0 and
1 of one page when the sheet has at least two cells, and both at cell 0, on two pages,
when the sheet has a single cell. -/
theorem merge_unselected_skipped {R : Type} (pi : PrintInfo R)
    (record_list : List glMergeRecord) (n_copies first : Int) (o r : Bool) :
    gl_print_merge_collated pi record_list n_copies first o r
      = gl_print_merge_collated pi
          (record_list.filter fun record => record.select_flag) n_copies first o r
    ∧ gl_print_merge_uncollated pi record_list n_copies first o r
      = gl_print_merge_uncollated pi
          (record_list.filter fun record => record.select_flag) n_copies first o r
    ∧ (∀ A B C : glMergeRecord,
        A.select_flag = true → B.select_flag = false → C.select_flag = true →
        (2 ≤ pi.template.nx * pi.template.ny →
          gl_print_merge_collated pi [A, B, C] 1 1 o r
            = [PageCall.beginpage "sheet 1", PageCall.print_label 0 (some A) o r,
               PageCall.print_label 1 (some C) o r, PageCall.showpage]
          ∧ gl_print_merge_uncollated pi [A, B, C] 1 1 o r
            = [PageCall.beginpage "sheet 1", PageCall.print_label 0 (some A) o r,
               PageCall.print_label 1 (some C) o r, PageCall.showpage]
          ∧ drawnCells (gl_print_merge_collated pi [A, B, C] 1 1 o r) = [0, 1]
          ∧ drawnCells (gl_print_merge_uncollated pi [A, B, C] 1 1 o r) = [0, 1])
        ∧ (pi.template.nx * pi.template.ny = 1 →
          gl_print_merge_collated pi [A, B, C] 1 1 o r
            = [PageCall.beginpage "sheet 1", PageCall.print_label 0 (some A) o r,
               PageCall.showpage, PageCall.beginpage "sheet 2",
               PageCall.print_label 0 (some C) o r, PageCall.showpage]
          ∧ gl_print_merge_uncollated pi [A, B, C] 1 1 o r
            = [PageCall.beginpage "sheet 1", PageCall.print_label 0 (some A) o r,
               PageCall.showpage, PageCall.beginpage "sheet 2",
               PageCall.print_label 0 (some C) o r, PageCall.showpage]
          ∧ drawnCells (gl_print_merge_collated pi [A, B, C] 1 1 o r) = [0, 0]
          ∧ drawnCells (gl_print_merge_uncollated pi [A, B, C] 1 1 o r) = [0, 0])) := by
  refine ⟨?_, ?_, ?_⟩
  · rw [gl_print_merge_collated_eq, gl_print_merge_collated_eq]
    have : collated_order (record_list.filter fun record => record.select_flag) n_copies
        = collated_order record_list n_copies := by
      unfold collated_order
      rw [show (record_list.filter fun record => record.select_flag)
        = selected record_list from rfl, selected_selected]
    rw [this]
  · rw [gl_print_merge_uncollated_eq, gl_print_merge_uncollated_eq]
    have : uncollated_order (record_list.filter fun record => record.select_flag)
        n_copies = uncollated_order record_list n_copies := by
      unfold uncollated_order
      rw [show (record_list.filter fun record => record.select_flag)
        = selected record_list from rfl, selected_selected]
    rw [this]
  · intro A B C hA hB hC
    have hsel : selected [A, B, C] = [A, C] := by simp [selected, hA, hB, hC]
    have hco : collated_order [A, B, C] 1 = [A, C] := by
      simp [collated_order, hsel]
    have hun : uncollated_order [A, B, C] 1 = [A, C] := by
      simp [uncollated_order, hsel]
    constructor
    · intro hL
      have hc := merge_two_instances_wide (pi.template.nx * pi.template.ny) o r A C hL
      have h1 : gl_print_merge_collated pi [A, B, C] 1 1 o r
          = [PageCall.beginpage "sheet 1", PageCall.print_label 0 (some A) o r,
             PageCall.print_label 1 (some C) o r, PageCall.showpage] := by
        rw [gl_print_merge_collated_eq, hco, hc]
      have h2 : gl_print_merge_uncollated pi [A, B, C] 1 1 o r
          = [PageCall.beginpage "sheet 1", PageCall.print_label 0 (some A) o r,
             PageCall.print_label 1 (some C) o r, PageCall.showpage] := by
        rw [gl_print_merge_uncollated_eq, hun, hc]
      refine ⟨h1, h2, ?_, ?_⟩
      · rw [h1]; simp [drawnCells]
      · rw [h2]; simp [drawnCells]
    · intro hL
      have hc := merge_two_instances_single o r A C
      have h1 : gl_print_merge_collated pi [A, B, C] 1 1 o r
          = [PageCall.beginpage "sheet 1", PageCall.print_label 0 (some A) o r,
             PageCall.showpage, PageCall.beginpage "sheet 2",
             PageCall.print_label 0 (some C) o r, PageCall.showpage] := by
        rw [gl_print_merge_collated_eq, hco, hL, hc]
      have h2 : gl_print_merge_uncollated pi [A, B, C] 1 1 o r
          = [PageCall.beginpage "sheet 1", PageCall.print_label 0 (some A) o r,
             PageCall.showpage, PageCall.beginpage "sheet 2",
             PageCall.print_label 0 (some C) o r, PageCall.showpage] := by
        rw [gl_print_merge_uncollated_eq, hun, hL, hc]
      refine ⟨h1, h2, ?_, ?_⟩
      · rw [h1]; simp [drawnCells]
      · rw [h2]; simp [drawnCells]

/-- C3, amended, with records `A`, `B` (unselected), `C`: on a 2 by 2 sheet the two
labels are at cells 0 and 1 of one page, on a 1 by 1 sheet both are at cell 0, on two
pages. -/
theorem merge_unselected_skipped_witness :
    (sampleRecord true "A").select_flag = true
    ∧ (sampleRecord false "B").select_flag = false
    ∧ (sampleRecord true "C").select_flag = true
    ∧ 2 ≤ (samplePrintInfo 2 2).template.nx * (samplePrintInfo 2 2).template.ny
    ∧ (samplePrintInfo 1 1).template.nx * (samplePrintInfo 1 1).template.ny = 1
    ∧ gl_print_merge_collated (samplePrintInfo 2 2)
        [sampleRecord true "A", sampleRecord false "B", sampleRecord true "C"]
        1 1 true false
      = [PageCall.beginpage "sheet 1",
         PageCall.print_label 0 (some (sampleRecord true "A")) true false,
         PageCall.print_label 1 (some (sampleRecord true "C")) true false,
         PageCall.showpage]
    ∧ gl_print_merge_uncollated (samplePrintInfo 1 1)
        [sampleRecord true "A", sampleRecord false "B", sampleRecord true "C"]
        1 1 true false
      = [PageCall.beginpage "sheet 1",
         PageCall.print_label 0 (some (sampleRecord true "A")) true false,
         PageCall.showpage, PageCall.beginpage "sheet 2",
         PageCall.print_label 0 (some (sampleRecord true "C")) true false,
         PageCall.showpage] :=
  ⟨by decide, by decide, by decide, by decide, by decide,
   (((merge_unselected_skipped (samplePrintInfo 2 2) [] 1 1 true false).2.2
      (sampleRecord true "A") (sampleRecord false "B") (sampleRecord true "C")
      (by decide) (by decide) (by decide)).1 (by decide)).1,
   (((merge_unselected_skipped (samplePrintInfo 1 1) [] 1 1 true false).2.2
      (sampleRecord true "A") (sampleRecord false "B") (sampleRecord true "C")
      (by decide) (by decide) (by decide)).2 (by decide)).2.1⟩

/-- C4: in both merge modes with `first = 1` and `L = nx * ny ≥ 1`, when
`N ≥ 1` label instances are emitted (`N` = number of selected records times `n_copies`),
the number `P` of pages begun and of pages ended is the ceiling of `N / L`
(`L * (P - 1) < N ≤ L * P`), every page but the last holds `L` labels and the last one
holds `N - L * (P - 1)` labels. -/
theorem merge_page_count {R : Type} (pi : PrintInfo R)
    (record_list : List glMergeRecord) (n_copies : Int) (o r : Bool)
    (hL : 1 ≤ pi.template.nx * pi.template.ny)
    (hN : 1 ≤ (record_list.filter fun record => record.select_flag).length
            * n_copies.toNat) :
    (L : Nat) → (N : Nat) → (P : Nat) →
    L = (pi.template.nx * pi.template.ny).toNat →
    N = (record_list.filter fun record => record.select_flag).length * n_copies.toNat →
    P = pagesNeeded N L →
    (L * (P - 1) < N ∧ N ≤ L * P)
    ∧ pagesBegun (gl_print_merge_collated pi record_list n_copies 1 o r) = P
    ∧ pagesEnded (gl_print_merge_collated pi record_list n_copies 1 o r) = P
    ∧ pageSizes (gl_print_merge_collated pi record_list n_copies 1 o r)
        = List.replicate (P - 1) L ++ [N - L * (P - 1)]
    ∧ pagesBegun (gl_print_merge_uncollated pi record_list n_copies 1 o r) = P
    ∧ pagesEnded (gl_print_merge_uncollated pi record_list n_copies 1 o r) = P
    ∧ pageSizes (gl_print_merge_uncollated pi record_list n_copies 1 o r)
        = List.replicate (P - 1) L ++ [N - L * (P - 1)] := by
  intro L N P hLdef hNdef hPdef
  have hLpos : 1 ≤ L := by omega
  have hcast : pi.template.nx * pi.template.ny = ((L : Nat) : Int) := by omega
  have hN1 : 1 ≤ N := by rw [hNdef]; exact hN
  have hco := pages_run_instances L o r (collated_order record_list n_copies) hLpos
    (by rw [length_collated_order]; exact hN)
  have hun := pages_run_instances L o r (uncollated_order record_list n_copies) hLpos
    (by rw [length_uncollated_order]; exact hN)
  simp only [length_collated_order, ← hNdef] at hco
  simp only [length_uncollated_order, ← hNdef] at hun
  have hP : (N + L - 1) / L = P := by rw [hPdef]; rfl
  rw [hP] at hco hun
  rw [gl_print_merge_collated_eq, gl_print_merge_uncollated_eq, hcast]
  refine ⟨?_, hco.1, hco.2.1, hco.2.2, hun.1, hun.2.1, hun.2.2⟩
  have hdm := Nat.div_add_mod (N + L - 1) L
  have hlt := Nat.mod_lt (N + L - 1) hLpos
  rw [hP] at hdm
  have hPpos : 1 ≤ P := by
    rcases Nat.eq_zero_or_pos P with h0 | h0
    · rw [h0] at hdm; simp at hdm; omega
    · exact h0
  obtain ⟨k, rfl⟩ : ∃ k, P = k + 1 := ⟨P - 1, by omega⟩
  rw [Nat.mul_add] at hdm
  simp only [Nat.add_sub_cancel]
  constructor
  · omega
  · rw [Nat.mul_add]; omega

/-- C4 at a 2 by 2 sheet (`L = 4`) with five selected single-copy records: two pages,
holding four labels and one label. -/
theorem merge_page_count_witness :
    1 ≤ (samplePrintInfo 2 2).template.nx * (samplePrintInfo 2 2).template.ny
    ∧ pagesBegun (gl_print_merge_collated (samplePrintInfo 2 2)
        [sampleRecord true "1", sampleRecord true "2", sampleRecord true "3",
         sampleRecord true "4", sampleRecord true "5"] 1 1 false false) = 2
    ∧ pageSizes (gl_print_merge_collated (samplePrintInfo 2 2)
        [sampleRecord true "1", sampleRecord true "2", sampleRecord true "3",
         sampleRecord true "4", sampleRecord true "5"] 1 1 false false) = [4, 1]
    ∧ pageSizes (gl_print_merge_uncollated (samplePrintInfo 2 2)
        [sampleRecord true "1", sampleRecord true "2", sampleRecord true "3",
         sampleRecord true "4", sampleRecord true "5"] 1 1 false false) = [4, 1] :=
  have h := merge_page_count (samplePrintInfo 2 2)
    [sampleRecord true "1", sampleRecord true "2", sampleRecord true "3",
     sampleRecord true "4", sampleRecord true "5"] 1 false false
    (by decide) (by decide) 4 5 2 (by decide) (by decide) (by decide)
  ⟨by decide, h.2.1, h.2.2.2.1, h.2.2.2.2.2.2⟩

/-- C5, at the failing input: with `first = 2` on a 2 by 2 sheet and no selected record
(an empty list, or a list of one unselected record), both merge modes issue one
`gnome_print_showpage` although no page was begun. -/
theorem merge_no_record_showpage :
    gl_print_merge_collated (samplePrintInfo 2 2) [] 1 2 false false
      = [PageCall.showpage]
    ∧ gl_print_merge_uncollated (samplePrintInfo 2 2) [] 1 2 false false
      = [PageCall.showpage]
    ∧ gl_print_merge_collated (samplePrintInfo 2 2) [sampleRecord false "B"] 3 2
        false false = [PageCall.showpage]
    ∧ gl_print_merge_uncollated (samplePrintInfo 2 2) [sampleRecord false "B"] 3 2
        false false = [PageCall.showpage] := by
  decide

/-- C6: for `n_sheets ≥ 0` and `1 ≤ first ≤ last`, `gl_print_simple` emits exactly
`n_sheets` pages, page `k` being: page begin "sheet k", one label at each cell
`first - 1, ..., last - 1` in ascending order with no merge record, page end; the number
of labels drawn is `n_sheets * (last - first + 1)`. -/
theorem gl_print_simple_pages (n_sheets first last : Int) (o r : Bool)
    (hn : 0 ≤ n_sheets) (hf : 1 ≤ first) (hfl : first ≤ last) :
    gl_print_simple n_sheets first last o r
      = (List.range n_sheets.toNat).flatMap (fun (k : Nat) =>
          [PageCall.beginpage (sheet_str ((k : Int) + 1))]
          ++ (List.range (last - first + 1).toNat).map
              (fun (j : Nat) => PageCall.print_label (first - 1 + (j : Int)) none o r)
          ++ [PageCall.showpage])
    ∧ ((List.range n_sheets.toNat).length : Int) = n_sheets
    ∧ ((List.range (last - first + 1).toNat).length : Int) = last - first + 1
    ∧ ((drawnCells (gl_print_simple n_sheets first last o r)).length : Int)
        = n_sheets * (last - first + 1)
    ∧ (∀ record ∈ drawnRecords (gl_print_simple n_sheets first last o r),
        record = none)
    ∧ (∀ c ∈ drawnCells (gl_print_simple n_sheets first last o r),
        0 ≤ c ∧ first - 1 ≤ c ∧ c ≤ last - 1) := by
  have hcells : (drawnCells (gl_print_simple n_sheets first last o r)).length
      = n_sheets.toNat * (last - first + 1).toNat := by
    rw [gl_print_simple_eq, drawnCells_flatMap,
      length_flatMap_const _ _ (last - first + 1).toNat
        (fun k => by rw [drawnCells_simple_page]; simp)]
    simp
  refine ⟨?_, ?_, ?_, ?_, ?_, ?_⟩
  · rw [gl_print_simple_eq]; rfl
  · simp [Int.toNat_of_nonneg hn]
  · simp; omega
  · rw [hcells]
    push_cast
    rw [Int.toNat_of_nonneg hn, Int.toNat_of_nonneg (by omega)]
  · intro record hrec
    rw [gl_print_simple_eq, drawnRecords_flatMap] at hrec
    simp only [List.mem_flatMap, drawnRecords_simple_page] at hrec
    obtain ⟨_, _, h⟩ := hrec
    exact (List.mem_replicate.mp h).2
  · intro c hc
    rw [gl_print_simple_eq, drawnCells_flatMap] at hc
    simp only [List.mem_flatMap, drawnCells_simple_page, List.mem_map,
      List.mem_range] at hc
    obtain ⟨_, _, j, hj, rfl⟩ := hc
    omega

/-- C6 at two sheets with cells 2 to 3 of the sheet. -/
theorem gl_print_simple_pages_witness :
    (0 : Int) ≤ 2 ∧ (1 : Int) ≤ 2 ∧ (2 : Int) ≤ 3
    ∧ gl_print_simple 2 2 3 true false
      = [PageCall.beginpage "sheet 1", PageCall.print_label 1 none true false,
         PageCall.print_label 2 none true false, PageCall.showpage,
         PageCall.beginpage "sheet 2", PageCall.print_label 1 none true false,
         PageCall.print_label 2 none true false, PageCall.showpage] :=
  ⟨by decide, by decide, by decide,
   (gl_print_simple_pages 2 2 3 true false (by decide) (by decide) (by decide)).1.trans
     (by decide)⟩

/-! ## Cell origin -/

theorem label_ix_eq {R : Type} (template : glTemplate R) (i : Int) (hnx : 1 ≤ template.nx)
    (hi : 0 ≤ i) : label_ix template i = i % template.nx := by
  unfold label_ix
  exact Int.tmod_eq_emod hi (by omega)

theorem label_iy_eq {R : Type} (template : glTemplate R) (i : Int) (hnx : 1 ≤ template.nx)
    (hi : 0 ≤ i) : label_iy template i = (template.ny - 1) - i / template.nx := by
  unfold label_iy
  rw [Int.tdiv_eq_ediv hi (by omega)]

section CellOrigin

variable {R : Type} [LinearOrderedField R]

theorem cell_bounds (nx ny i : Int) (hnx : 1 ≤ nx) (hi0 : 0 ≤ i) (hi : i < nx * ny) :
    0 ≤ i % nx ∧ i % nx < nx ∧ 0 ≤ (ny - 1) - i / nx ∧ (ny - 1) - i / nx < ny := by
  have hpos : 0 < nx := by omega
  have h1 : 0 ≤ i % nx := Int.emod_nonneg _ (by omega)
  have h2 : i % nx < nx := Int.emod_lt_of_pos _ hpos
  have h3 : 0 ≤ i / nx := Int.ediv_nonneg hi0 (by omega)
  have h4 : i / nx < ny := Int.ediv_lt_of_lt_mul hpos (by rw [Int.mul_comm]; exact hi)
  omega

theorem cell_of_grid (nx ny a b : Int) (ha0 : 0 ≤ a) (ha : a < nx)
    (hb0 : 0 ≤ b) (hb : b < ny) :
    0 ≤ (ny - 1 - b) * nx + a ∧ (ny - 1 - b) * nx + a < nx * ny
    ∧ ((ny - 1 - b) * nx + a) % nx = a
    ∧ (ny - 1) - ((ny - 1 - b) * nx + a) / nx = b := by
  have hpos : 0 < nx := by omega
  have hc0 : 0 ≤ ny - 1 - b := by omega
  have hmul0 : 0 ≤ (ny - 1 - b) * nx := Int.mul_nonneg hc0 (by omega)
  have hmul : (ny - 1 - b) * nx ≤ (ny - 1) * nx :=
    Int.mul_le_mul_of_nonneg_right (by omega) (by omega)
  have hexp : (ny - 1) * nx = nx * ny - nx := by ring
  refine ⟨by omega, by omega, ?_, ?_⟩
  · rw [Int.add_comm, Int.add_mul_emod_self]
    exact Int.emod_eq_of_lt ha0 ha
  · rw [Int.add_comm, Int.add_mul_ediv_right _ _ (by omega), Int.ediv_eq_zero_of_lt ha0 ha]
    omega

theorem cell_origin_eq (template : glTemplate R) (i : Int) (hnx : 1 ≤ template.nx)
    (hi : 0 ≤ i) :
    cell_origin template i
      = (((i % template.nx : Int) : R) * template.dx + template.x0,
         (((template.ny - 1) - i / template.nx : Int) : R) * template.dy
           + template.y0) := by
  unfold cell_origin
  rw [label_ix_eq template i hnx hi, label_iy_eq template i hnx hi]

theorem cell_origin_injOn (template : glTemplate R) (hnx : 1 ≤ template.nx)
    (hdx : 0 < template.dx) (hdy : 0 < template.dy) (i j : Int)
    (hi : 0 ≤ i) (hj : 0 ≤ j) (h : cell_origin template i = cell_origin template j) :
    i = j := by
  rw [cell_origin_eq template i hnx hi, cell_origin_eq template j hnx hj] at h
  obtain ⟨hx, hy⟩ := Prod.mk.inj h
  have hx2 : ((i % template.nx : Int) : R) = ((j % template.nx : Int) : R) :=
    mul_right_cancel₀ (ne_of_gt hdx) (add_right_cancel hx)
  have hy2 : (((template.ny - 1) - i / template.nx : Int) : R)
      = (((template.ny - 1) - j / template.nx : Int) : R) :=
    mul_right_cancel₀ (ne_of_gt hdy) (add_right_cancel hy)
  have hx3 : i % template.nx = j % template.nx := Int.cast_injective hx2
  have hy3 : (template.ny - 1) - i / template.nx = (template.ny - 1) - j / template.nx :=
    Int.cast_injective hy2
  have hq : i / template.nx = j / template.nx := by omega
  have hi2 := Int.emod_add_ediv i template.nx
  have hj2 := Int.emod_add_ediv j template.nx
  rw [hx3, hq] at hi2
  omega

/-- C7: for a template with `nx, ny ≥ 1` and a cell index `0 ≤ i < nx * ny`,
`print_label` saves the state and translates to `(ix * dx + x0, iy * dy + y0)` with
`ix = i mod nx` and `iy = (ny - 1) - i div nx`, where `0 ≤ ix < nx` and `0 ≤ iy < ny`;
for `nx = 3`, `ny = 2` the cells 0, 2, 3, 5 are at `(ix, iy)` = (0, 1), (2, 1), (0, 0),
(2, 0). -/
theorem print_label_cell_origin (env : Env R) (label : glLabel R) (i : Int)
    (record : Option glMergeRecord) (o r : Bool)
    (hnx : 1 ≤ label.template.nx) (hny : 1 ≤ label.template.ny)
    (hi0 : 0 ≤ i) (hi : i < label.template.nx * label.template.ny) :
    (∃ rest, print_label env label i record o r
      = Op.gsave
        :: Op.translate
            (((i % label.template.nx : Int) : R) * label.template.dx + label.template.x0)
            ((((label.template.ny - 1) - i / label.template.nx : Int) : R)
              * label.template.dy + label.template.y0)
        :: rest)
    ∧ label_ix label.template i = i % label.template.nx
    ∧ label_iy label.template i = (label.template.ny - 1) - i / label.template.nx
    ∧ (0 ≤ i % label.template.nx ∧ i % label.template.nx < label.template.nx)
    ∧ (0 ≤ (label.template.ny - 1) - i / label.template.nx
        ∧ (label.template.ny - 1) - i / label.template.nx < label.template.ny)
    ∧ (∀ t : glTemplate R,
        (label_ix { t with nx := 3, ny := 2 } 0, label_iy { t with nx := 3, ny := 2 } 0)
          = (0, 1)
        ∧ (label_ix { t with nx := 3, ny := 2 } 2,
            label_iy { t with nx := 3, ny := 2 } 2) = (2, 1)
        ∧ (label_ix { t with nx := 3, ny := 2 } 3,
            label_iy { t with nx := 3, ny := 2 } 3) = (0, 0)
        ∧ (label_ix { t with nx := 3, ny := 2 } 5,
            label_iy { t with nx := 3, ny := 2 } 5) = (2, 0)) := by
  have hb := cell_bounds label.template.nx label.template.ny i hnx hi0 hi
  have hy1 : 1 ≤ label.template.ny := hny
  refine ⟨?_, label_ix_eq _ i hnx hi0, label_iy_eq _ i hnx hi0, ⟨hb.1, hb.2.1⟩,
    ⟨hb.2.2.1, hb.2.2.2⟩, ?_⟩
  · unfold print_label
    simp only [label_ix_eq _ i hnx hi0, label_iy_eq _ i hnx hi0]
    exact ⟨_, rfl⟩
  · intro t
    simp only [label_ix, label_iy]
    decide

/-- C7 on the 3 by 2 sample template, at its last cell. -/
theorem print_label_cell_origin_witness :
    1 ≤ sampleLabel.template.nx ∧ 1 ≤ sampleLabel.template.ny ∧ (0 : Int) ≤ 5
    ∧ 5 < sampleLabel.template.nx * sampleLabel.template.ny
    ∧ (print_label sampleEnv sampleLabel 5 none false false).take 2
        = [Op.gsave, Op.translate 210 20] := by
  have h := print_label_cell_origin sampleEnv sampleLabel 5 none false false
    (by decide) (by decide) (by decide) (by decide)
  obtain ⟨rest, hrest⟩ := h.1
  refine ⟨by decide, by decide, by decide, by decide, ?_⟩
  rw [hrest]
  simp [sampleLabel, sampleTemplate]
  norm_num

/-- C8: for a template with `nx, ny ≥ 1` and `dx, dy > 0` the map from the cell index
`i` in `[0, nx * ny)` to the origin `print_label` translates to is injective, takes
exactly `nx * ny` distinct values, and its image is the grid
`(a * dx + x0, b * dy + y0)`, `0 ≤ a < nx`, `0 ≤ b < ny`, every grid position being the
origin of exactly one cell. -/
theorem cell_origin_bijective (template : glTemplate R)
    (hnx : 1 ≤ template.nx) (hny : 1 ≤ template.ny)
    (hdx : 0 < template.dx) (hdy : 0 < template.dy) :
    (∀ (env : Env R) (label : glLabel R) (i : Int) (record : Option glMergeRecord)
        (o r : Bool), label.template = template →
        (print_label env label i record o r).take 2
          = [Op.gsave, Op.translate (cell_origin template i).1 (cell_origin template i).2])
    ∧ Set.InjOn (cell_origin template) (Set.Ico 0 (template.nx * template.ny))
    ∧ Set.image (cell_origin template) (Set.Ico 0 (template.nx * template.ny))
        = { p | ∃ a b : Int, 0 ≤ a ∧ a < template.nx ∧ 0 ≤ b ∧ b < template.ny
            ∧ p = ((a : R) * template.dx + template.x0,
                   (b : R) * template.dy + template.y0) }
    ∧ (Finset.image (cell_origin template)
          (Finset.Ico 0 (template.nx * template.ny))).card
        = (template.nx * template.ny).toNat
    ∧ (∀ a b : Int, 0 ≤ a → a < template.nx → 0 ≤ b → b < template.ny →
        ∃! i : Int, (0 ≤ i ∧ i < template.nx * template.ny)
          ∧ cell_origin template i
              = ((a : R) * template.dx + template.x0,
                 (b : R) * template.dy + template.y0)) := by
  have hinj : Set.InjOn (cell_origin template)
      (Set.Ico 0 (template.nx * template.ny)) := by
    intro i hi j hj h
    exact cell_origin_injOn template hnx hdx hdy i j hi.1 hj.1 h
  have hgrid : ∀ a b : Int, 0 ≤ a → a < template.nx → 0 ≤ b → b < template.ny →
      (0 ≤ (template.ny - 1 - b) * template.nx + a
        ∧ (template.ny - 1 - b) * template.nx + a < template.nx * template.ny)
      ∧ cell_origin template ((template.ny - 1 - b) * template.nx + a)
          = ((a : R) * template.dx + template.x0,
             (b : R) * template.dy + template.y0) := by
    intro a b ha0 ha hb0 hb
    obtain ⟨h1, h2, h3, h4⟩ := cell_of_grid template.nx template.ny a b ha0 ha hb0 hb
    refine ⟨⟨h1, h2⟩, ?_⟩
    rw [cell_origin_eq template _ hnx h1, h3, h4]
  refine ⟨?_, hinj, ?_, ?_, ?_⟩
  · intro env label i record o r hlabel
    subst hlabel
    unfold print_label cell_origin
    rfl
  · ext p
    simp only [Set.mem_image, Set.mem_Ico, Set.mem_setOf_eq]
    constructor
    · rintro ⟨i, ⟨hi0, hi⟩, rfl⟩
      obtain ⟨h1, h2, h3, h4⟩ := cell_bounds template.nx template.ny i hnx hi0 hi
      exact ⟨i % template.nx, (template.ny - 1) - i / template.nx, h1, h2, h3, h4,
        cell_origin_eq template i hnx hi0⟩
    · rintro ⟨a, b, ha0, ha, hb0, hb, rfl⟩
      exact ⟨_, (hgrid a b ha0 ha hb0 hb).1, (hgrid a b ha0 ha hb0 hb).2⟩
  · rw [Finset.card_image_of_injOn (by simpa using hinj)]
    simp
  · intro a b ha0 ha hb0 hb
    refine ⟨_, hgrid a b ha0 ha hb0 hb, ?_⟩
    rintro j ⟨⟨hj0, _⟩, hj⟩
    exact cell_origin_injOn template hnx hdx hdy _ _ hj0 (hgrid a b ha0 ha hb0 hb).1.1
      (hj.trans (hgrid a b ha0 ha hb0 hb).2.symm)

/-- C8 on the 3 by 2 sample template: six distinct origins. -/
theorem cell_origin_bijective_witness :
    1 ≤ (sampleTemplate 3 2).nx ∧ 1 ≤ (sampleTemplate 3 2).ny
    ∧ 0 < (sampleTemplate 3 2).dx ∧ 0 < (sampleTemplate 3 2).dy
    ∧ (Finset.image (cell_origin (sampleTemplate 3 2))
          (Finset.Ico 0 ((sampleTemplate 3 2).nx * (sampleTemplate 3 2).ny))).card = 6 :=
  ⟨by decide, by decide, by simp [sampleTemplate], by simp [sampleTemplate],
   (cell_origin_bijective (sampleTemplate 3 2) (by decide) (by decide)
      (by simp [sampleTemplate]) (by simp [sampleTemplate])).2.2.2.1.trans (by decide)⟩

end CellOrigin

/-! ## Save/restore discipline and the per-label draw sequence -/

theorem for_le_step_2_360 :
    for_le_step 2 360 2 = (List.range 180).map (fun (k : Nat) => 2 + 2 * (k : Int)) := by
  unfold for_le_step
  have h : ((360 - 2 : Int) / 2 + 1).toNat = 180 := by decide
  rw [h]

theorem for_le_step_5_90 :
    for_le_step 5 90 5 = (List.range 18).map (fun (k : Nat) => 5 + 5 * (k : Int)) := by
  unfold for_le_step
  have h : ((90 - 5 : Int) / 5 + 1).toNat = 18 := by decide
  rw [h]

theorem for_le_step_0_90 :
    for_le_step 0 90 5 = (List.range 19).map (fun (k : Nat) => 5 * (k : Int)) := by
  unfold for_le_step
  have h : ((90 - 0 : Int) / 5 + 1).toNat = 19 := by decide
  rw [h]
  apply List.map_congr_left
  intro k _
  simp


theorem pathOp_plain {R : Type} (op : Op R) (h : isPathOp op = true) :
    isSave op = false ∧ isRestore op = false ∧ isClip op = false
      ∧ isStroke op = false := by
  cases op <;> simp_all [isPathOp, isSave, isRestore, isClip, isStroke]

theorem countP_take_eq_zero {α : Type} (p : α → Bool) (l : List α) (k : Nat)
    (h : ∀ a ∈ l, p a = false) : (l.take k).countP p = 0 := by
  rw [List.countP_eq_zero]
  intro a ha
  simp [h a (List.mem_of_mem_take ha)]

theorem balanced_nil {R : Type} : Balanced ([] : List (Op R)) := by
  simp [Balanced]

theorem balanced_of_plain {R : Type} (l : List (Op R))
    (h : ∀ op ∈ l, isSave op = false ∧ isRestore op = false) : Balanced l := by
  constructor
  · intro k
    rw [countP_take_eq_zero isRestore l k (fun a ha => (h a ha).2)]
    exact Nat.zero_le _
  · rw [List.countP_eq_zero.mpr (fun a ha => by simp [(h a ha).1]),
      List.countP_eq_zero.mpr (fun a ha => by simp [(h a ha).2])]

theorem balanced_append {R : Type} (l1 l2 : List (Op R)) (h1 : Balanced l1) (h2 : Balanced l2) :
    Balanced (l1 ++ l2) := by
  constructor
  · intro k
    rw [List.take_append_eq_append_take, List.countP_append, List.countP_append]
    exact Nat.add_le_add (h1.1 k) (h2.1 _)
  · rw [List.countP_append, List.countP_append, h1.2, h2.2]

theorem balanced_wrap {R : Type} (l : List (Op R)) (h : Balanced l) :
    Balanced (Op.gsave :: (l ++ [Op.grestore])) := by
  constructor
  · intro k
    cases k with
    | zero => simp
    | succ j =>
      rw [List.take_succ_cons, List.take_append_eq_append_take]
      simp only [List.countP_cons, List.countP_append, isSave, isRestore]
      have h1 := h.1 j
      have h2 : (([Op.grestore] : List (Op R)).take (j - l.length)).countP isRestore
          ≤ 1 := by
        refine le_trans (List.countP_le_length _) ?_
        simp [List.length_take]
      have h3 : (([Op.grestore] : List (Op R)).take (j - l.length)).countP isSave
          = 0 :=
        countP_take_eq_zero isSave _ _ (by simp [isSave])
      simp only [Bool.false_eq_true, if_false, if_true, add_zero]
      omega
  · simp only [List.countP_cons, List.countP_append, isSave, isRestore, List.countP_nil]
    have := h.2
    simp
    omega

theorem balanced_flatMap {R α : Type} (l : List α) (f : α → List (Op R))
    (h : ∀ a ∈ l, Balanced (f a)) : Balanced (l.flatMap f) := by
  induction l with
  | nil => simpa using balanced_nil
  | cons a rest ih =>
    rw [List.flatMap_cons]
    exact balanced_append _ _ (h a (List.mem_cons_self a rest))
      (ih (fun b hb => h b (List.mem_cons_of_mem a hb)))

theorem balanced_saved {R : Type} (pre mid : List (Op R))
    (hpre : ∀ op ∈ pre, isSave op = false ∧ isRestore op = false)
    (hmid : ∀ op ∈ mid, isSave op = false ∧ isRestore op = false) :
    Balanced (pre ++ Op.gsave :: (mid ++ [Op.grestore])) :=
  balanced_append _ _ (balanced_of_plain pre hpre)
    (balanced_wrap mid (balanced_of_plain mid hmid))

theorem countP_clip_shape {R : Type} (before objects : List (Op R))
    (hbefore : ∀ op ∈ before, isClip op = false)
    (hobjects : ∀ op ∈ objects, isClip op = false) :
    (before ++ [Op.clip] ++ objects ++ [Op.grestore]).countP isClip = 1 := by
  have h1 : before.countP isClip = 0 :=
    List.countP_eq_zero.mpr (fun op hop => by simp [hbefore op hop])
  have h2 : objects.countP isClip = 0 :=
    List.countP_eq_zero.mpr (fun op hop => by simp [hobjects op hop])
  simp only [List.countP_append, h1, h2]
  simp [isClip]

theorem wrap_strict {R : Type} (body : List (Op R)) (h : Balanced body) (k : Nat)
    (hk0 : 0 < k) (hk : k < (Op.gsave :: (body ++ [Op.grestore])).length) :
    ((Op.gsave :: (body ++ [Op.grestore])).take k).countP isRestore
      < ((Op.gsave :: (body ++ [Op.grestore])).take k).countP isSave := by
  obtain ⟨j, rfl⟩ : ∃ j, k = j + 1 := ⟨k - 1, by omega⟩
  have hj : j ≤ body.length := by
    simp only [List.length_cons, List.length_append, List.length_nil] at hk
    omega
  rw [List.take_succ_cons, List.take_append_eq_append_take,
    Nat.sub_eq_zero_of_le hj, List.take_zero, List.append_nil]
  simp only [List.countP_cons, isSave, isRestore, Bool.false_eq_true, if_false, if_true,
    add_zero]
  have := h.1 j
  omega

section SaveRestore

variable {R : Type} [LinearOrderedField R]

theorem create_rectangle_path_pathOps (x0 y0 w h : R) :
    ∀ op ∈ create_rectangle_path x0 y0 w h, isPathOp op = true := by
  simp [create_rectangle_path, isPathOp]

theorem create_ellipse_path_pathOps (env : Env R) (x0 y0 rx ry : R) :
    ∀ op ∈ create_ellipse_path env x0 y0 rx ry, isPathOp op = true := by
  intro op hop
  simp only [create_ellipse_path, List.mem_append, List.mem_cons, List.mem_map,
    List.mem_singleton, List.not_mem_nil, or_false] at hop
  aesop

theorem create_rounded_rectangle_path_pathOps (env : Env R) (x0 y0 w h r : R) :
    ∀ op ∈ create_rounded_rectangle_path env x0 y0 w h r, isPathOp op = true := by
  intro op hop
  simp only [create_rounded_rectangle_path, List.mem_append, List.mem_cons, List.mem_map,
    List.mem_singleton, List.not_mem_nil, or_false] at hop
  aesop

theorem draw_barcode_object_none (env : Env R) (object : glLabelBarcode R)
    (record : Option glMergeRecord)
    (h : env.barcode_new object.style object.text_flag object.scale
      (env.text_node_expand object.text_node record) = none) :
    draw_barcode_object env object record
      = ([Op.setfont
            { family := env.GL_BARCODE_FONT_FAMILY, weight := env.GL_BARCODE_FONT_WEIGHT,
              italic := false, size := 12 },
         Op.setrgbcolor (RED object.color) (GREEN object.color) (BLUE object.color),
         Op.setopacity (ALPHA object.color),
         Op.moveto object.x (object.y + (12 - env.font_get_descender
           { family := env.GL_BARCODE_FONT_FAMILY, weight := env.GL_BARCODE_FONT_WEIGHT,
             italic := false, size := 12 })),
         Op.gsave, Op.scale 1 (-1), Op.showtext (env.gettext "Invalid barcode"),
         Op.grestore] : List (Op R)) := by
  simp only [draw_barcode_object, h]

theorem draw_barcode_object_some (env : Env R) (object : glLabelBarcode R)
    (record : Option glMergeRecord) (gbc : glBarcode R)
    (h : env.barcode_new object.style object.text_flag object.scale
      (env.text_node_expand object.text_node record) = some gbc) :
    draw_barcode_object env object record
      = (gbc.lines.flatMap fun line =>
          ([Op.moveto (object.x + line.x) (object.y + line.y),
           Op.lineto (object.x + line.x) (object.y + line.y + line.length),
           Op.setrgbcolor (RED object.color) (GREEN object.color) (BLUE object.color),
           Op.setopacity (ALPHA object.color), Op.setlinewidth line.width, Op.stroke]
            : List (Op R)))
        ++ (gbc.chars.flatMap fun bchar =>
          ([Op.setfont
              { family := env.GL_BARCODE_FONT_FAMILY,
                weight := env.GL_BARCODE_FONT_WEIGHT, italic := false,
                size := bchar.fsize },
           Op.setrgbcolor (RED object.color) (GREEN object.color) (BLUE object.color),
           Op.setopacity (ALPHA object.color),
           Op.moveto (object.x + bchar.x)
             (object.y + (bchar.y + bchar.fsize - env.font_get_descender
               { family := env.GL_BARCODE_FONT_FAMILY,
                 weight := env.GL_BARCODE_FONT_WEIGHT, italic := false,
                 size := bchar.fsize })),
           Op.gsave, Op.scale 1 (-1), Op.showtext (String.singleton bchar.c),
           Op.grestore] : List (Op R))) := by
  simp only [draw_barcode_object, h]

theorem draw_text_object_balanced (env : Env R) (object : glLabelText R)
    (record : Option glMergeRecord) : Balanced (draw_text_object env object record) := by
  unfold draw_text_object
  refine balanced_append _ _ (balanced_of_plain _ (by simp [isSave, isRestore])) ?_
  refine balanced_flatMap _ _ ?_
  rintro ⟨i, line_i⟩ _
  refine balanced_saved [_] [_, _] ?_ ?_ <;> simp [isSave, isRestore]

theorem draw_barcode_object_balanced (env : Env R) (object : glLabelBarcode R)
    (record : Option glMergeRecord) :
    Balanced (draw_barcode_object env object record) := by
  cases h : env.barcode_new object.style object.text_flag object.scale
      (env.text_node_expand object.text_node record) with
  | none =>
    rw [draw_barcode_object_none env object record h]
    refine balanced_saved [_, _, _, _] [_, _] ?_ ?_ <;> simp [isSave, isRestore]
  | some gbc =>
    rw [draw_barcode_object_some env object record gbc h]
    refine balanced_append _ _ (balanced_flatMap _ _ ?_) (balanced_flatMap _ _ ?_)
    · intro line _
      exact balanced_of_plain _ (by simp [isSave, isRestore])
    · intro bchar _
      refine balanced_saved [_, _, _, _] [_, _] ?_ ?_ <;> simp [isSave, isRestore]

theorem draw_image_object_balanced (object : glLabelImage R) :
    Balanced (draw_image_object object) := by
  unfold draw_image_object
  cases h : object.pixbuf.has_alpha
  · simp only [h, Bool.false_eq_true, if_false]
    refine balanced_saved [] [_, _, _] ?_ ?_ <;> simp [isSave, isRestore]
  · simp only [h, if_true]
    refine balanced_saved [] [_, _, _] ?_ ?_ <;> simp [isSave, isRestore]

theorem draw_box_object_plain (object : glLabelShape R) :
    ∀ op ∈ draw_box_object object,
      isSave op = false ∧ isRestore op = false ∧ isClip op = false := by
  simp [draw_box_object, create_rectangle_path, isSave, isRestore, isClip]

theorem draw_line_object_plain (object : glLabelLine R) :
    ∀ op ∈ draw_line_object object,
      isSave op = false ∧ isRestore op = false ∧ isClip op = false := by
  simp [draw_line_object, isSave, isRestore, isClip]

theorem draw_ellipse_object_plain (env : Env R) (object : glLabelShape R) :
    ∀ op ∈ draw_ellipse_object env object,
      isSave op = false ∧ isRestore op = false ∧ isClip op = false := by
  intro op hop
  simp only [draw_ellipse_object, List.mem_append, List.mem_cons, List.mem_singleton,
    List.not_mem_nil, or_false] at hop
  have hpath := create_ellipse_path_pathOps env (object.x + object.w / 2)
    (object.y + object.h / 2) (object.w / 2) (object.h / 2) op
  rcases hop with ((hp | h) | hp) | h
  · have := pathOp_plain op (hpath hp); exact ⟨this.1, this.2.1, this.2.2.1⟩
  · rcases h with rfl | rfl | rfl <;> simp [isSave, isRestore, isClip]
  · have := pathOp_plain op (hpath hp); exact ⟨this.1, this.2.1, this.2.2.1⟩
  · rcases h with rfl | rfl | rfl | rfl <;> simp [isSave, isRestore, isClip]

theorem draw_object_balanced (env : Env R) (record : Option glMergeRecord)
    (object : glLabelObject R) : Balanced (draw_object env record object) := by
  cases object with
  | text object => exact draw_text_object_balanced env object record
  | box object =>
    exact balanced_of_plain _ (fun op hop =>
      ⟨(draw_box_object_plain object op hop).1, (draw_box_object_plain object op hop).2.1⟩)
  | line object =>
    exact balanced_of_plain _ (fun op hop =>
      ⟨(draw_line_object_plain object op hop).1,
       (draw_line_object_plain object op hop).2.1⟩)
  | ellipse object =>
    exact balanced_of_plain _ (fun op hop =>
      ⟨(draw_ellipse_object_plain env object op hop).1,
       (draw_ellipse_object_plain env object op hop).2.1⟩)
  | image object => exact draw_image_object_balanced object
  | barcode object => exact draw_barcode_object_balanced env object record

theorem draw_object_noclip (env : Env R) (record : Option glMergeRecord)
    (object : glLabelObject R) :
    ∀ op ∈ draw_object env record object, isClip op = false := by
  intro op hop
  cases object with
  | text object =>
    simp only [draw_object, draw_text_object, List.mem_append, List.mem_cons,
      List.mem_flatMap, List.mem_singleton, List.not_mem_nil, or_false] at hop
    aesop
  | box object => exact (draw_box_object_plain object op hop).2.2
  | line object => exact (draw_line_object_plain object op hop).2.2
  | ellipse object => exact (draw_ellipse_object_plain env object op hop).2.2
  | image object =>
    simp only [draw_object, draw_image_object] at hop
    cases hal : object.pixbuf.has_alpha <;> simp [hal] at hop <;> aesop
  | barcode object =>
    simp only [draw_object] at hop
    cases h : env.barcode_new object.style object.text_flag object.scale
        (env.text_node_expand object.text_node record) with
    | none =>
      rw [draw_barcode_object_none env object record h] at hop
      simp only [List.mem_cons, List.mem_singleton, List.not_mem_nil, or_false] at hop
      aesop
    | some gbc =>
      rw [draw_barcode_object_some env object record gbc h] at hop
      simp only [List.mem_append, List.mem_cons, List.mem_flatMap, List.mem_singleton,
        List.not_mem_nil, or_false] at hop
      aesop

theorem draw_label_balanced (env : Env R) (label : glLabel R)
    (record : Option glMergeRecord) : Balanced (draw_label env label record) :=
  balanced_flatMap _ _ (fun object _ => draw_object_balanced env record object)

theorem draw_label_noclip (env : Env R) (label : glLabel R)
    (record : Option glMergeRecord) :
    ∀ op ∈ draw_label env label record, isClip op = false := by
  intro op hop
  simp only [draw_label, List.mem_flatMap] at hop
  obtain ⟨object, _, h⟩ := hop
  exact draw_object_noclip env record object op h

theorem draw_outline_plain (env : Env R) (label : glLabel R) :
    ∀ op ∈ draw_outline env label,
      isSave op = false ∧ isRestore op = false ∧ isClip op = false := by
  intro op hop
  simp only [draw_outline, List.mem_append, List.mem_cons, List.mem_singleton,
    List.not_mem_nil, or_false] at hop
  have hpath : isPathOp op = true →
      isSave op = false ∧ isRestore op = false ∧ isClip op = false :=
    fun hp => ⟨(pathOp_plain op hp).1, (pathOp_plain op hp).2.1,
      (pathOp_plain op hp).2.2.1⟩
  rcases hop with (rfl | rfl | rfl) | hop
  · simp [isSave, isRestore, isClip]
  · simp [isSave, isRestore, isClip]
  · simp [isSave, isRestore, isClip]
  · cases hstyle : label.template.style <;> rw [hstyle] at hop <;>
      simp only [List.mem_append, List.mem_cons, List.mem_singleton, List.not_mem_nil,
        or_false] at hop
    · rcases hop with hop | rfl
      · by_cases hr : label.template.label_round = 0
        · rw [if_pos hr] at hop
          exact hpath (create_rectangle_path_pathOps _ _ _ _ op hop)
        · rw [if_neg hr] at hop
          exact hpath (create_rounded_rectangle_path_pathOps env _ _ _ _ _ op hop)
      · simp [isSave, isRestore, isClip]
    · rcases hop with hop | rfl
      · exact hpath (create_ellipse_path_pathOps env _ _ _ _ op hop)
      · simp [isSave, isRestore, isClip]
    · rcases hop with ((hop | rfl) | hop) | rfl
      · exact hpath (create_ellipse_path_pathOps env _ _ _ _ op hop)
      · simp [isSave, isRestore, isClip]
      · exact hpath (create_ellipse_path_pathOps env _ _ _ _ op hop)
      · simp [isSave, isRestore, isClip]

theorem draw_outline_stroke (env : Env R) (label : glLabel R)
    (hstyle : label.template.style ≠ glTemplateStyle.OTHER) :
    ∃ op ∈ draw_outline env label, isStroke op = true := by
  refine ⟨Op.stroke, ?_, rfl⟩
  cases h : label.template.style <;> simp_all [draw_outline]

theorem clip_to_outline_shape (env : Env R) (label : glLabel R)
    (hstyle : label.template.style ≠ glTemplateStyle.OTHER) :
    ∃ path : List (Op R), clip_to_outline env label = path ++ [Op.clip]
      ∧ ∀ op ∈ path, isPathOp op = true := by
  cases h : label.template.style
  · by_cases hr : label.template.label_round = 0
    · exact ⟨create_rectangle_path 0 0 label.width label.height,
        by simp only [clip_to_outline, h, if_pos hr],
        create_rectangle_path_pathOps _ _ _ _⟩
    · exact ⟨create_rounded_rectangle_path env 0 0 label.width label.height
          label.template.label_round,
        by simp only [clip_to_outline, h, if_neg hr],
        create_rounded_rectangle_path_pathOps env _ _ _ _ _⟩
  · exact ⟨create_ellipse_path env label.template.label_radius
        label.template.label_radius label.template.label_radius
        label.template.label_radius,
      by simp only [clip_to_outline, h], create_ellipse_path_pathOps env _ _ _ _⟩
  · exact ⟨create_ellipse_path env label.template.label_radius
        label.template.label_radius label.template.label_radius
        label.template.label_radius,
      by simp only [clip_to_outline, h], create_ellipse_path_pathOps env _ _ _ _⟩
  · exact absurd h hstyle

theorem clip_to_outline_plain (env : Env R) (label : glLabel R) :
    ∀ op ∈ clip_to_outline env label, isSave op = false ∧ isRestore op = false := by
  intro op hop
  by_cases hstyle : label.template.style = glTemplateStyle.OTHER
  · simp only [clip_to_outline, hstyle, List.not_mem_nil] at hop
  · obtain ⟨path, hpath, hops⟩ := clip_to_outline_shape env label hstyle
    rw [hpath, List.mem_append, List.mem_singleton] at hop
    rcases hop with hop | rfl
    · exact ⟨(pathOp_plain op (hops op hop)).1, (pathOp_plain op (hops op hop)).2.1⟩
    · simp [isSave, isRestore]

theorem print_label_eq (env : Env R) (label : glLabel R) (i : Int)
    (record : Option glMergeRecord) (o r : Bool) :
    print_label env label i record o r
      = [Op.gsave] ++ placement_transform label i r
        ++ (if o then draw_outline env label else [])
        ++ clip_to_outline env label
        ++ draw_label env label record
        ++ [Op.grestore] := by
  unfold print_label placement_transform cell_origin art_affine_scale
  simp

theorem placement_plain (label : glLabel R) (i : Int) (r : Bool) :
    ∀ op ∈ placement_transform label i r,
      isSave op = false ∧ isRestore op = false ∧ isClip op = false
        ∧ isStroke op = false := by
  intro op hop
  unfold placement_transform at hop
  cases label.rotate_flag <;> cases r <;>
    simp only [Bool.false_eq_true, if_false, if_true, List.mem_append, List.mem_cons,
      List.mem_singleton, List.not_mem_nil, or_false] at hop <;>
    aesop

theorem print_label_body (env : Env R) (label : glLabel R) (i : Int)
    (record : Option glMergeRecord) (o r : Bool) :
    ∃ body : List (Op R),
      print_label env label i record o r = Op.gsave :: (body ++ [Op.grestore])
      ∧ Balanced body := by
  refine ⟨placement_transform label i r
      ++ ((if o then draw_outline env label else [])
        ++ (clip_to_outline env label ++ draw_label env label record)), ?_, ?_⟩
  · rw [print_label_eq]
    simp only [List.singleton_append, List.append_assoc, List.cons_append,
      List.nil_append]
  · refine balanced_append _ _ (balanced_of_plain _ (fun op hop => ?_))
      (balanced_append _ _ (balanced_of_plain _ (fun op hop => ?_))
        (balanced_append _ _ (balanced_of_plain _ (clip_to_outline_plain env label))
          (draw_label_balanced env label record)))
    · have := placement_plain label i r op hop
      exact ⟨this.1, this.2.1⟩
    · cases o
      · simp at hop
      · simp only [if_true] at hop
        exact ⟨(draw_outline_plain env label op hop).1,
          (draw_outline_plain env label op hop).2.1⟩

/-- C9: for every design, merge record, flag values and barcode outcome, the backend
calls of `print_label` are balanced in save/restore: the first call is a save, the last
one a restore, every non-empty proper initial segment holds strictly more saves than
restores (so the last restore is the one matching the first save), and the whole
sequence holds as many saves as restores. -/
theorem print_label_save_restore {R : Type} [LinearOrderedField R]
    (env : Env R) (label : glLabel R) (i : Int)
    (record : Option glMergeRecord) (o r : Bool) :
    (print_label env label i record o r).head? = some Op.gsave
    ∧ (print_label env label i record o r).getLast? = some Op.grestore
    ∧ (∀ k : Nat, 0 < k → k < (print_label env label i record o r).length →
        ((print_label env label i record o r).take k).countP isRestore
          < ((print_label env label i record o r).take k).countP isSave)
    ∧ (print_label env label i record o r).countP isSave
        = (print_label env label i record o r).countP isRestore := by
  obtain ⟨body, hbody, hbal⟩ := print_label_body env label i record o r
  rw [hbody]
  refine ⟨rfl, ?_, ?_, (balanced_wrap body hbal).2⟩
  · rw [← List.cons_append, List.getLast?_append]
    simp
  · intro k hk0 hk
    exact wrap_strict body hbal k hk0 hk

/-- C9 on the sample label, whose barcode is rejected by the generator: right after the
fallback text (call 32) one save is open, and the whole label is balanced. -/
theorem print_label_save_restore_witness :
    (0 < 32 ∧ 32 < (print_label sampleEnv sampleLabel 0 none true true).length)
    ∧ ((print_label sampleEnv sampleLabel 0 none true true).take 32).countP isRestore
        < ((print_label sampleEnv sampleLabel 0 none true true).take 32).countP isSave
    ∧ (print_label sampleEnv sampleLabel 0 none true true).countP isSave
        = (print_label sampleEnv sampleLabel 0 none true true).countP isRestore := by
  have h := print_label_save_restore sampleEnv sampleLabel 0 none true true
  have hlen : 32 < (print_label sampleEnv sampleLabel 0 none true true).length := by
    simp [print_label, draw_outline, clip_to_outline, draw_label, draw_object,
      draw_barcode_object, draw_image_object, draw_box_object,
      create_rectangle_path, sampleLabel, sampleTemplate, sampleEnv]
  exact ⟨⟨by decide, hlen⟩, h.2.2.1 32 (by decide) hlen, h.2.2.2⟩

theorem create_rectangle_path_explicit (x0 y0 w h : R) :
    create_rectangle_path x0 y0 w h
      = [Op.newpath, Op.moveto x0 y0, Op.lineto (x0 + w) y0, Op.lineto (x0 + w) (y0 + h),
         Op.lineto x0 (y0 + h), Op.lineto x0 y0, Op.closepath] := rfl

theorem create_ellipse_path_explicit (env : Env R) (x0 y0 rx ry : R) :
    create_ellipse_path env x0 y0 rx ry
      = [Op.newpath, Op.moveto (x0 + rx) y0]
        ++ (List.range 180).map (fun (k : Nat) =>
            Op.lineto
              (x0 + rx * env.cos (((2 + 2 * (k : Int) : Int) : R) * env.M_PI / 180))
              (y0 + ry * env.sin (((2 + 2 * (k : Int) : Int) : R) * env.M_PI / 180)))
        ++ [Op.closepath] := by
  unfold create_ellipse_path
  rw [for_le_step_2_360, List.map_map]
  rfl

theorem create_rounded_rectangle_path_explicit (env : Env R) (x0 y0 w h r : R) :
    create_rounded_rectangle_path env x0 y0 w h r
      = [Op.newpath, Op.moveto (x0 + r) y0]
        ++ (List.range 18).map (fun (k : Nat) =>
            Op.lineto
              (x0 + r - r * env.sin (((5 + 5 * (k : Int) : Int) : R) * env.M_PI / 180))
              (y0 + r - r * env.cos (((5 + 5 * (k : Int) : Int) : R) * env.M_PI / 180)))
        ++ (List.range 19).map (fun (k : Nat) =>
            Op.lineto
              (x0 + r - r * env.cos (((5 * (k : Int) : Int) : R) * env.M_PI / 180))
              (y0 + (h - r) + r * env.sin (((5 * (k : Int) : Int) : R) * env.M_PI / 180)))
        ++ (List.range 19).map (fun (k : Nat) =>
            Op.lineto
              (x0 + (w - r) + r * env.sin (((5 * (k : Int) : Int) : R) * env.M_PI / 180))
              (y0 + (h - r) + r * env.cos (((5 * (k : Int) : Int) : R) * env.M_PI / 180)))
        ++ (List.range 19).map (fun (k : Nat) =>
            Op.lineto
              (x0 + (w - r) + r * env.cos (((5 * (k : Int) : Int) : R) * env.M_PI / 180))
              (y0 + r - r * env.sin (((5 * (k : Int) : Int) : R) * env.M_PI / 180)))
        ++ [Op.lineto (x0 + r) y0, Op.closepath] := by
  unfold create_rounded_rectangle_path
  rw [for_le_step_5_90, for_le_step_0_90]
  simp only [List.map_map]
  rfl

theorem draw_text_object_explicit (env : Env R) (object : glLabelText R)
    (record : Option glMergeRecord) :
    draw_text_object env object record
      = [Op.setfont
            { family := object.font_family, weight := object.font_weight,
              italic := object.font_italic_flag, size := object.font_size },
         Op.setrgbcolor (RED object.color) (GREEN object.color) (BLUE object.color),
         Op.setopacity (ALPHA object.color)]
        ++ ((if env.text_node_lines_expand object.lines record = "" then []
             else (env.text_node_lines_expand object.lines record).splitOn "\n").enum.flatMap
            fun (p : Nat × String) =>
              [Op.moveto
                 (object.x
                   + (match object.just with
                      | GtkJustification.GTK_JUSTIFY_LEFT => 0
                      | GtkJustification.GTK_JUSTIFY_CENTER =>
                        (object.w - env.glyphlist_bbox_x1
                          { family := object.font_family, weight := object.font_weight,
                            italic := object.font_italic_flag, size := object.font_size }
                          p.2) / 2
                      | GtkJustification.GTK_JUSTIFY_RIGHT =>
                        object.w - env.glyphlist_bbox_x1
                          { family := object.font_family, weight := object.font_weight,
                            italic := object.font_italic_flag, size := object.font_size }
                          p.2
                      | GtkJustification.GTK_JUSTIFY_FILL => 0))
                 (object.y
                   + (((p.1 : R) + 1) * object.font_size
                      + env.font_get_descender
                          { family := object.font_family, weight := object.font_weight,
                            italic := object.font_italic_flag,
                            size := object.font_size })),
               Op.gsave, Op.scale 1 (-1), Op.showtext p.2, Op.grestore]) := by
  unfold draw_text_object g_strsplit_lines
  rfl

theorem draw_image_object_explicit (object : glLabelImage R) :
    draw_image_object object
      = [Op.gsave, Op.translate object.x (object.y + object.h),
         Op.scale object.w (-object.h),
         (if object.pixbuf.has_alpha then
            Op.rgbaimage object.pixbuf.pixels object.pixbuf.width object.pixbuf.height
              object.pixbuf.rowstride
          else
            Op.rgbimage object.pixbuf.pixels object.pixbuf.width object.pixbuf.height
              object.pixbuf.rowstride),
         Op.grestore] := by
  by_cases h : object.pixbuf.has_alpha = true <;> simp [draw_image_object, h]

theorem clip_path_by_style (env : Env R) (label : glLabel R)
    (hstyle : label.template.style ≠ glTemplateStyle.OTHER) :
    ∃ path : List (Op R), clip_to_outline env label = path ++ [Op.clip]
      ∧ (∀ op ∈ path, isPathOp op = true)
      ∧ (label.template.style = glTemplateStyle.RECT → label.template.label_round = 0 →
          path = create_rectangle_path 0 0 label.width label.height)
      ∧ (label.template.style = glTemplateStyle.RECT → label.template.label_round ≠ 0 →
          path = create_rounded_rectangle_path env 0 0 label.width label.height
            label.template.label_round)
      ∧ (label.template.style = glTemplateStyle.ROUND
          ∨ label.template.style = glTemplateStyle.CD →
          path = create_ellipse_path env label.template.label_radius
            label.template.label_radius label.template.label_radius
            label.template.label_radius)
      ∧ draw_outline env label
          = [Op.setrgbcolor (1 / 4) (1 / 4) (1 / 4), Op.setopacity 1,
             Op.setlinewidth (1 / 4)]
            ++ path ++ [Op.stroke]
            ++ (if label.template.style = glTemplateStyle.CD then
                  create_ellipse_path env label.template.label_radius
                    label.template.label_radius label.template.label_hole
                    label.template.label_hole ++ [Op.stroke]
                else []) := by
  cases h : label.template.style
  · by_cases hr : label.template.label_round = 0
    · refine ⟨create_rectangle_path 0 0 label.width label.height,
        by simp only [clip_to_outline, h, if_pos hr],
        create_rectangle_path_pathOps _ _ _ _, fun _ _ => rfl,
        fun _ hne => absurd hr hne, ?_, ?_⟩
      · rintro (h2 | h2) <;> cases h2
      · simp [draw_outline, h, hr]
    · refine ⟨create_rounded_rectangle_path env 0 0 label.width label.height
          label.template.label_round,
        by simp only [clip_to_outline, h, if_neg hr],
        create_rounded_rectangle_path_pathOps env _ _ _ _ _,
        fun _ h0 => absurd h0 hr, fun _ _ => rfl, ?_, ?_⟩
      · rintro (h2 | h2) <;> cases h2
      · simp [draw_outline, h, hr]
  · refine ⟨create_ellipse_path env label.template.label_radius
        label.template.label_radius label.template.label_radius
        label.template.label_radius,
      by simp only [clip_to_outline, h], create_ellipse_path_pathOps env _ _ _ _,
      (fun h2 => by cases h2), (fun h2 => by cases h2), fun _ => rfl, ?_⟩
    simp [draw_outline, h]
  · refine ⟨create_ellipse_path env label.template.label_radius
        label.template.label_radius label.template.label_radius
        label.template.label_radius,
      by simp only [clip_to_outline, h], create_ellipse_path_pathOps env _ _ _ _,
      (fun h2 => by cases h2), (fun h2 => by cases h2), fun _ => rfl, ?_⟩
    simp [draw_outline, h]
  · exact absurd h hstyle

/-- C10: for a template style Rect, Round or CD, `print_label` emits, in this order: one
save; the placement transform; the outline calls (with a stroke) exactly when
`outline_flag` is set; the clip path and one clip call; the draw calls of every object
of the design in design order; one restore.  The sequence holds exactly one clip call,
no object call precedes it, and a stroke precedes it exactly when `outline_flag` is
set.  The clip path and the outline are given for every style, the three path builders
call by call, and the draw calls of an object are given call by call for each of the six
object types (for a barcode, for both outcomes of its generation). -/
theorem print_label_draw_sequence {R : Type} [LinearOrderedField R]
    (env : Env R) (label : glLabel R) (i : Int)
    (record : Option glMergeRecord) (o r : Bool)
    (hstyle : label.template.style = glTemplateStyle.RECT
      ∨ label.template.style = glTemplateStyle.ROUND
      ∨ label.template.style = glTemplateStyle.CD) :
    (print_label env label i record o r).countP isClip = 1
    ∧ (∃ placement outline path : List (Op R),
      print_label env label i record o r
        = [Op.gsave] ++ placement ++ outline ++ path ++ [Op.clip]
          ++ label.objects.flatMap (draw_object env record) ++ [Op.grestore]
      ∧ placement
          = [Op.translate (cell_origin label.template i).1
              (cell_origin label.template i).2]
            ++ (if label.rotate_flag then [Op.rotate 90, Op.scale 1 (-1)]
                else [Op.concat { a0 := 1, a1 := 0, a2 := 0, a3 := -1, a4 := 0,
                                  a5 := label.height }])
            ++ (if r then [Op.translate label.width 0,
                           Op.concat { a0 := -1, a1 := 0, a2 := 0, a3 := 1, a4 := 0,
                                       a5 := 0 }]
                else [])
      ∧ placement = placement_transform label i r
      ∧ outline = (if o then draw_outline env label else [])
      ∧ path ++ [Op.clip] = clip_to_outline env label
      ∧ (∀ op ∈ path, isPathOp op = true)
      ∧ ((∃ op ∈ [Op.gsave] ++ placement ++ outline ++ path, isStroke op = true)
          ↔ o = true)
      ∧ (∀ op ∈ [Op.gsave] ++ placement ++ outline ++ path, isClip op = false)
      ∧ (∀ op ∈ label.objects.flatMap (draw_object env record), isClip op = false)
      ∧ (label.template.style = glTemplateStyle.RECT → label.template.label_round = 0 →
          path = create_rectangle_path 0 0 label.width label.height)
      ∧ (label.template.style = glTemplateStyle.RECT → label.template.label_round ≠ 0 →
          path = create_rounded_rectangle_path env 0 0 label.width label.height
            label.template.label_round)
      ∧ (label.template.style = glTemplateStyle.ROUND
          ∨ label.template.style = glTemplateStyle.CD →
          path = create_ellipse_path env label.template.label_radius
            label.template.label_radius label.template.label_radius
            label.template.label_radius)
      ∧ (o = true →
          outline
            = [Op.setrgbcolor (1 / 4) (1 / 4) (1 / 4), Op.setopacity 1,
               Op.setlinewidth (1 / 4)]
              ++ path ++ [Op.stroke]
              ++ (if label.template.style = glTemplateStyle.CD then
                    create_ellipse_path env label.template.label_radius
                      label.template.label_radius label.template.label_hole
                      label.template.label_hole ++ [Op.stroke]
                  else []))
      ∧ (o = false → outline = []))
    ∧ ((∀ x0 y0 w h : R,
          create_rectangle_path x0 y0 w h
            = [Op.newpath, Op.moveto x0 y0, Op.lineto (x0 + w) y0,
               Op.lineto (x0 + w) (y0 + h), Op.lineto x0 (y0 + h), Op.lineto x0 y0,
               Op.closepath])
      ∧ (∀ x0 y0 rx ry : R,
          create_ellipse_path env x0 y0 rx ry
            = [Op.newpath, Op.moveto (x0 + rx) y0]
              ++ (List.range 180).map (fun (k : Nat) =>
                  Op.lineto
                    (x0 + rx * env.cos (((2 + 2 * (k : Int) : Int) : R) * env.M_PI / 180))
                    (y0 + ry * env.sin (((2 + 2 * (k : Int) : Int) : R) * env.M_PI / 180)))
              ++ [Op.closepath])
      ∧ (∀ x0 y0 w h rad : R,
          create_rounded_rectangle_path env x0 y0 w h rad
            = [Op.newpath, Op.moveto (x0 + rad) y0]
              ++ (List.range 18).map (fun (k : Nat) =>
                  Op.lineto
                    (x0 + rad
                      - rad * env.sin (((5 + 5 * (k : Int) : Int) : R) * env.M_PI / 180))
                    (y0 + rad
                      - rad * env.cos (((5 + 5 * (k : Int) : Int) : R) * env.M_PI / 180)))
              ++ (List.range 19).map (fun (k : Nat) =>
                  Op.lineto
                    (x0 + rad
                      - rad * env.cos (((5 * (k : Int) : Int) : R) * env.M_PI / 180))
                    (y0 + (h - rad)
                      + rad * env.sin (((5 * (k : Int) : Int) : R) * env.M_PI / 180)))
              ++ (List.range 19).map (fun (k : Nat) =>
                  Op.lineto
                    (x0 + (w - rad)
                      + rad * env.sin (((5 * (k : Int) : Int) : R) * env.M_PI / 180))
                    (y0 + (h - rad)
                      + rad * env.cos (((5 * (k : Int) : Int) : R) * env.M_PI / 180)))
              ++ (List.range 19).map (fun (k : Nat) =>
                  Op.lineto
                    (x0 + (w - rad)
                      + rad * env.cos (((5 * (k : Int) : Int) : R) * env.M_PI / 180))
                    (y0 + rad
                      - rad * env.sin (((5 * (k : Int) : Int) : R) * env.M_PI / 180)))
              ++ [Op.lineto (x0 + rad) y0, Op.closepath]))
    ∧ ((∀ object : glLabelText R,
          draw_object env record (glLabelObject.text object)
            = [Op.setfont
                  { family := object.font_family, weight := object.font_weight,
                    italic := object.font_italic_flag, size := object.font_size },
               Op.setrgbcolor (RED object.color) (GREEN object.color)
                 (BLUE object.color),
               Op.setopacity (ALPHA object.color)]
              ++ ((if env.text_node_lines_expand object.lines record = "" then []
                   else (env.text_node_lines_expand object.lines record).splitOn
                     "\n").enum.flatMap
                  fun (p : Nat × String) =>
                    [Op.moveto
                       (object.x
                         + (match object.just with
                            | GtkJustification.GTK_JUSTIFY_LEFT => 0
                            | GtkJustification.GTK_JUSTIFY_CENTER =>
                              (object.w - env.glyphlist_bbox_x1
                                { family := object.font_family,
                                  weight := object.font_weight,
                                  italic := object.font_italic_flag,
                                  size := object.font_size }
                                p.2) / 2
                            | GtkJustification.GTK_JUSTIFY_RIGHT =>
                              object.w - env.glyphlist_bbox_x1
                                { family := object.font_family,
                                  weight := object.font_weight,
                                  italic := object.font_italic_flag,
                                  size := object.font_size }
                                p.2
                            | GtkJustification.GTK_JUSTIFY_FILL => 0))
                       (object.y
                         + (((p.1 : R) + 1) * object.font_size
                            + env.font_get_descender
                                { family := object.font_family,
                                  weight := object.font_weight,
                                  italic := object.font_italic_flag,
                                  size := object.font_size })),
                     Op.gsave, Op.scale 1 (-1), Op.showtext p.2, Op.grestore]))
      ∧ (∀ object : glLabelShape R,
          draw_object env record (glLabelObject.box object)
            = create_rectangle_path object.x object.y object.w object.h
              ++ [Op.setrgbcolor (RED object.fill_color) (GREEN object.fill_color)
                    (BLUE object.fill_color),
                  Op.setopacity (ALPHA object.fill_color), Op.fill]
              ++ create_rectangle_path object.x object.y object.w object.h
              ++ [Op.setrgbcolor (RED object.line_color) (GREEN object.line_color)
                    (BLUE object.line_color),
                  Op.setopacity (ALPHA object.line_color),
                  Op.setlinewidth object.line_width, Op.stroke])
      ∧ (∀ object : glLabelLine R,
          draw_object env record (glLabelObject.line object)
            = [Op.moveto object.x object.y,
               Op.lineto (object.x + object.w) (object.y + object.h),
               Op.setrgbcolor (RED object.line_color) (GREEN object.line_color)
                 (BLUE object.line_color),
               Op.setopacity (ALPHA object.line_color),
               Op.setlinewidth object.line_width, Op.stroke])
      ∧ (∀ object : glLabelShape R,
          draw_object env record (glLabelObject.ellipse object)
            = create_ellipse_path env (object.x + object.w / 2)
                (object.y + object.h / 2) (object.w / 2) (object.h / 2)
              ++ [Op.setrgbcolor (RED object.fill_color) (GREEN object.fill_color)
                    (BLUE object.fill_color),
                  Op.setopacity (ALPHA object.fill_color), Op.fill]
              ++ create_ellipse_path env (object.x + object.w / 2)
                (object.y + object.h / 2) (object.w / 2) (object.h / 2)
              ++ [Op.setrgbcolor (RED object.line_color) (GREEN object.line_color)
                    (BLUE object.line_color),
                  Op.setopacity (ALPHA object.line_color),
                  Op.setlinewidth object.line_width, Op.stroke])
      ∧ (∀ object : glLabelImage R,
          draw_object env record (glLabelObject.image object)
            = [Op.gsave, Op.translate object.x (object.y + object.h),
               Op.scale object.w (-object.h),
               (if object.pixbuf.has_alpha then
                  Op.rgbaimage object.pixbuf.pixels object.pixbuf.width
                    object.pixbuf.height object.pixbuf.rowstride
                else
                  Op.rgbimage object.pixbuf.pixels object.pixbuf.width
                    object.pixbuf.height object.pixbuf.rowstride),
               Op.grestore])
      ∧ (∀ object : glLabelBarcode R,
          env.barcode_new object.style object.text_flag object.scale
              (env.text_node_expand object.text_node record) = none →
          draw_object env record (glLabelObject.barcode object)
            = ([Op.setfont
                  { family := env.GL_BARCODE_FONT_FAMILY,
                    weight := env.GL_BARCODE_FONT_WEIGHT, italic := false, size := 12 },
               Op.setrgbcolor (RED object.color) (GREEN object.color)
                 (BLUE object.color),
               Op.setopacity (ALPHA object.color),
               Op.moveto object.x (object.y + (12 - env.font_get_descender
                 { family := env.GL_BARCODE_FONT_FAMILY,
                   weight := env.GL_BARCODE_FONT_WEIGHT, italic := false, size := 12 })),
               Op.gsave, Op.scale 1 (-1), Op.showtext (env.gettext "Invalid barcode"),
               Op.grestore] : List (Op R)))
      ∧ (∀ (object : glLabelBarcode R) (gbc : glBarcode R),
          env.barcode_new object.style object.text_flag object.scale
              (env.text_node_expand object.text_node record) = some gbc →
          draw_object env record (glLabelObject.barcode object)
            = (gbc.lines.flatMap fun line =>
                ([Op.moveto (object.x + line.x) (object.y + line.y),
                  Op.lineto (object.x + line.x) (object.y + line.y + line.length),
                  Op.setrgbcolor (RED object.color) (GREEN object.color)
                    (BLUE object.color),
                  Op.setopacity (ALPHA object.color), Op.setlinewidth line.width,
                  Op.stroke] : List (Op R)))
              ++ (gbc.chars.flatMap fun bchar =>
                ([Op.setfont
                    { family := env.GL_BARCODE_FONT_FAMILY,
                      weight := env.GL_BARCODE_FONT_WEIGHT, italic := false,
                      size := bchar.fsize },
                  Op.setrgbcolor (RED object.color) (GREEN object.color)
                    (BLUE object.color),
                  Op.setopacity (ALPHA object.color),
                  Op.moveto (object.x + bchar.x)
                    (object.y + (bchar.y + bchar.fsize - env.font_get_descender
                      { family := env.GL_BARCODE_FONT_FAMILY,
                        weight := env.GL_BARCODE_FONT_WEIGHT, italic := false,
                        size := bchar.fsize })),
                  Op.gsave, Op.scale 1 (-1), Op.showtext (String.singleton bchar.c),
                  Op.grestore] : List (Op R))))) := by
  have hne : label.template.style ≠ glTemplateStyle.OTHER := by
    rcases hstyle with h | h | h <;> rw [h] <;> decide
  obtain ⟨path, hpath, hops, hrect, hrounded, hround, houtline⟩ :=
    clip_path_by_style env label hne
  have hplace := placement_plain label i r
  have hout : ∀ op ∈ (if o then draw_outline env label else []), isClip op = false := by
    intro op hop
    cases o
    · simp at hop
    · simp only [if_true] at hop
      exact (draw_outline_plain env label op hop).2.2
  have hobjs : ∀ op ∈ label.objects.flatMap (draw_object env record),
      isClip op = false := draw_label_noclip env label record
  have hbefore : ∀ op ∈ [Op.gsave] ++ placement_transform label i r
      ++ (if o then draw_outline env label else []) ++ path, isClip op = false := by
    intro op hop
    simp only [List.mem_append, List.mem_singleton] at hop
    rcases hop with ((rfl | hop) | hop) | hop
    · rfl
    · exact (hplace op hop).2.2.1
    · exact hout op hop
    · exact (pathOp_plain op (hops op hop)).2.2.1
  have heq : print_label env label i record o r
      = [Op.gsave] ++ placement_transform label i r
        ++ (if o then draw_outline env label else []) ++ path
        ++ [Op.clip] ++ label.objects.flatMap (draw_object env record)
        ++ [Op.grestore] := by
    rw [print_label_eq, hpath]
    simp only [draw_label, List.append_assoc]
  refine ⟨?_, ⟨placement_transform label i r,
    (if o then draw_outline env label else []),
    path, heq, rfl, rfl, rfl, hpath.symm, hops, ?_, hbefore, hobjs, hrect, hrounded,
    hround, ?_, ?_⟩, ⟨create_rectangle_path_explicit, create_ellipse_path_explicit env,
    create_rounded_rectangle_path_explicit env⟩,
    ⟨fun object => draw_text_object_explicit env object record, fun _ => rfl,
     fun _ => rfl, fun _ => rfl, fun object => draw_image_object_explicit object,
     fun object h => draw_barcode_object_none env object record h,
     fun object gbc h => draw_barcode_object_some env object record gbc h⟩⟩
  · rw [heq]
    exact countP_clip_shape _ _ hbefore hobjs
  · constructor
    · rintro ⟨op, hop, hstroke⟩
      simp only [List.mem_append, List.mem_singleton] at hop
      rcases hop with ((rfl | hop) | hop) | hop
      · simp [isStroke] at hstroke
      · rw [(hplace op hop).2.2.2] at hstroke
        simp at hstroke
      · cases o
        · simp at hop
        · rfl
      · rw [(pathOp_plain op (hops op hop)).2.2.2] at hstroke
        simp at hstroke
    · intro ho
      obtain ⟨op, hop, hstroke⟩ := draw_outline_stroke env label hne
      refine ⟨op, ?_, hstroke⟩
      simp only [List.mem_append]
      left; right
      rw [ho]
      simpa using hop
  · intro ho
    rw [ho, if_pos rfl, houtline]
  · intro ho
    rw [ho]
    rfl

/-- C10 on the sample label (style Rect) with the outline requested. -/
theorem print_label_draw_sequence_witness :
    (sampleLabel.template.style = glTemplateStyle.RECT
      ∨ sampleLabel.template.style = glTemplateStyle.ROUND
      ∨ sampleLabel.template.style = glTemplateStyle.CD)
    ∧ (print_label sampleEnv sampleLabel 0 none true false).countP isClip = 1 :=
  ⟨Or.inl (by decide),
   (print_label_draw_sequence sampleEnv sampleLabel 0 none true false
      (Or.inl (by decide))).1⟩

end SaveRestore


/-! ## Placement transform -/

section Placement

variable {R : Type} [LinearOrderedField R]

theorem transform_point_append (env : Env R) (ops1 ops2 : List (Op R)) (p : R × R) :
    transform_point env (ops1 ++ ops2) p
      = transform_point env ops1 (transform_point env ops2 p) := by
  simp [transform_point, List.foldr_append]

theorem transform_point_mirror (env : Env R) (label : glLabel R) (p : R × R) :
    transform_point env (mirror_step label) p = (label.width - p.1, p.2) := by
  simp only [transform_point, mirror_step, art_affine_scale, List.foldr_cons,
    List.foldr_nil, op_affine, affine_apply]
  ext <;> simp
  ring

theorem placement_transform_reverse (label : glLabel R) (i : Int) :
    placement_transform label i true
      = placement_transform label i false ++ mirror_step label := by
  simp [placement_transform, mirror_step, art_affine_scale]

/-- C11: the mirror step of `print_label` (translate by the design width along X, then
scale X by -1) maps a label-local point `(x, y)` to `(width - x, y)`; applied twice it
is the identity on every point, so the placement transform with the mirror step applied
twice places every point where the placement transform with `reverse_flag` off places
it (exact arithmetic). -/
theorem mirror_step_involution (env : Env R) (label : glLabel R) (i : Int)
    (record : Option glMergeRecord) (o : Bool) (x y : R) :
    (∃ rest, print_label env label i record o true
        = [Op.gsave] ++ (placement_transform label i false ++ mirror_step label)
          ++ rest)
    ∧ mirror_step label
        = [Op.translate label.width 0,
           Op.concat { a0 := -1, a1 := 0, a2 := 0, a3 := 1, a4 := 0, a5 := 0 }]
    ∧ transform_point env (mirror_step label) (x, y) = (label.width - x, y)
    ∧ transform_point env (mirror_step label ++ mirror_step label) (x, y) = (x, y)
    ∧ transform_point env (placement_transform label i true ++ mirror_step label) (x, y)
        = transform_point env (placement_transform label i false) (x, y) := by
  have htwice : transform_point env (mirror_step label ++ mirror_step label) (x, y)
      = (x, y) := by
    rw [transform_point_append, transform_point_mirror, transform_point_mirror]
    simp
  refine ⟨⟨((if o then draw_outline env label else []) ++ (clip_to_outline env label
      ++ (draw_label env label record ++ [Op.grestore]))), ?_⟩, ?_,
    transform_point_mirror env label (x, y), htwice, ?_⟩
  · rw [print_label_eq, placement_transform_reverse]
    simp only [List.append_assoc]
  · simp [mirror_step, art_affine_scale]
  · rw [placement_transform_reverse, List.append_assoc, transform_point_append, htwice]

end Placement


section PlacementWitness

end PlacementWitness

/-! ## Outline and clip paths -/

theorem path_vertices_append {R : Type} (l1 l2 : List (Op R)) :
    path_vertices (l1 ++ l2) = path_vertices l1 ++ path_vertices l2 := by
  simp [path_vertices, List.filterMap_append]

theorem path_vertices_map_lineto {R : Type} (l : List Int) (f g : Int → R) :
    path_vertices (l.map (fun (i : Int) => Op.lineto (f i) (g i)))
      = l.map (fun (i : Int) => (f i, g i)) := by
  induction l with
  | nil => simp [path_vertices]
  | cons a rest ih =>
    simp only [List.map_cons]
    rw [← ih]
    simp [path_vertices]

section Paths

variable {R : Type} [LinearOrderedField R]

/-- C12: for Rect style with `label_round = 0` and design size `(w, h)`, both
`draw_outline` and `clip_to_outline` build exactly the path: new path, move to `(0, 0)`,
line to `(w, 0)`, `(w, h)`, `(0, h)`, `(0, 0)`, close path.  It has four segments, and
for `w, h ≥ 0` all its vertices lie in `[0, w] x [0, h]`, whose corners `(0, 0)` and
`(w, h)` are vertices. -/
theorem rect_outline_path (env : Env R) (label : glLabel R)
    (hstyle : label.template.style = glTemplateStyle.RECT)
    (hround : label.template.label_round = 0)
    (hw : 0 ≤ label.width) (hh : 0 ≤ label.height) :
    clip_to_outline env label
      = [Op.newpath, Op.moveto 0 0, Op.lineto label.width 0,
         Op.lineto label.width label.height, Op.lineto 0 label.height, Op.lineto 0 0,
         Op.closepath, Op.clip]
    ∧ draw_outline env label
      = [Op.setrgbcolor (1 / 4) (1 / 4) (1 / 4), Op.setopacity 1, Op.setlinewidth (1 / 4),
         Op.newpath, Op.moveto 0 0, Op.lineto label.width 0,
         Op.lineto label.width label.height, Op.lineto 0 label.height, Op.lineto 0 0,
         Op.closepath, Op.stroke]
    ∧ create_rectangle_path 0 0 label.width label.height
      = [Op.newpath, Op.moveto 0 0, Op.lineto label.width 0,
         Op.lineto label.width label.height, Op.lineto 0 label.height, Op.lineto 0 0,
         Op.closepath]
    ∧ (create_rectangle_path 0 0 label.width label.height).countP isLineto = 4
    ∧ path_vertices (create_rectangle_path 0 0 label.width label.height)
      = [(0, 0), (label.width, 0), (label.width, label.height), (0, label.height),
         (0, 0)]
    ∧ (∀ v ∈ path_vertices (create_rectangle_path 0 0 label.width label.height),
        (0 ≤ v.1 ∧ v.1 ≤ label.width) ∧ (0 ≤ v.2 ∧ v.2 ≤ label.height))
    ∧ ((0 : R), (0 : R)) ∈ path_vertices
        (create_rectangle_path 0 0 label.width label.height)
    ∧ (label.width, label.height) ∈ path_vertices
        (create_rectangle_path 0 0 label.width label.height) := by
  have hpath : create_rectangle_path 0 0 label.width label.height
      = [Op.newpath, Op.moveto 0 0, Op.lineto label.width 0,
         Op.lineto label.width label.height, Op.lineto 0 label.height, Op.lineto 0 0,
         Op.closepath] := by
    simp [create_rectangle_path]
  have hvert : path_vertices (create_rectangle_path 0 0 label.width label.height)
      = [(0, 0), (label.width, 0), (label.width, label.height), (0, label.height),
         (0, 0)] := by
    rw [hpath]
    simp [path_vertices]
  refine ⟨?_, ?_, hpath, ?_, hvert, ?_, ?_, ?_⟩
  · simp only [clip_to_outline, hstyle, hround, if_true, hpath]
    rfl
  · simp only [draw_outline, hstyle, hround, if_true, hpath]
    rfl
  · rw [hpath]
    simp [isLineto]
  · rw [hvert]
    intro v hv
    simp only [List.mem_cons, List.mem_singleton, List.not_mem_nil, or_false] at hv
    rcases hv with rfl | rfl | rfl | rfl | rfl <;> simp [hw, hh]
  · rw [hvert]; simp
  · rw [hvert]; simp

/-- C12 on the sample label, 90 by 40. -/
theorem rect_outline_path_witness :
    sampleLabel.template.style = glTemplateStyle.RECT
    ∧ sampleLabel.template.label_round = 0
    ∧ 0 ≤ sampleLabel.width ∧ 0 ≤ sampleLabel.height
    ∧ path_vertices (create_rectangle_path 0 0 sampleLabel.width sampleLabel.height)
      = [(0, 0), (sampleLabel.width, 0), (sampleLabel.width, sampleLabel.height),
         (0, sampleLabel.height), (0, 0)] :=
  ⟨rfl, rfl, by simp [sampleLabel], by simp [sampleLabel],
   (rect_outline_path sampleEnv sampleLabel rfl rfl (by simp [sampleLabel])
      (by simp [sampleLabel])).2.2.2.2.1⟩

theorem create_ellipse_path_vertices (env : Env R) (x0 y0 rx ry : R) :
    path_vertices (create_ellipse_path env x0 y0 rx ry)
      = (x0 + rx, y0)
        :: (for_le_step 2 360 2).map (fun (i_theta : Int) =>
            (x0 + rx * env.cos ((i_theta : R) * env.M_PI / 180),
             y0 + ry * env.sin ((i_theta : R) * env.M_PI / 180))) := by
  unfold create_ellipse_path
  generalize for_le_step 2 360 2 = l
  rw [path_vertices_append, path_vertices_append,
    path_vertices_map_lineto l
      (fun i => x0 + rx * env.cos ((i : R) * env.M_PI / 180))
      (fun i => y0 + ry * env.sin ((i : R) * env.M_PI / 180))]
  simp [path_vertices]

theorem create_ellipse_path_vertices_explicit (env : Env R) (x0 y0 rx ry : R) :
    path_vertices (create_ellipse_path env x0 y0 rx ry)
      = (x0 + rx, y0)
        :: (List.range 180).map (fun (k : Nat) =>
            (x0 + rx * env.cos (((2 + 2 * (k : Int) : Int) : R) * env.M_PI / 180),
             y0 + ry * env.sin (((2 + 2 * (k : Int) : Int) : R) * env.M_PI / 180))) := by
  rw [create_ellipse_path_vertices, for_le_step_2_360, List.map_map]
  rfl

/-- C14: for CD style `clip_to_outline` installs exactly the clip path it installs for
Round style with the same `label_radius` `r1`, the outer circle centred at `(r1, r1)`
with radius `r1`, whatever `label_hole` is; `draw_outline` strokes two paths, each
opened by a new path and closed by a close path: the outer circle and the hole circle of
radius `label_hole`, both centred at `(r1, r1)`.  A circle of centre `(c, c)` and
radius `rad` is the closed polygon from `(c + rad, c)` through the 180 points
`(c + rad * cos t, c + rad * sin t)`, `t` = 2, 4, ..., 360 degrees; when
`cos² + sin² = 1`, each of its 181 vertices lies on the circle. -/
theorem cd_clip_and_outline (env : Env R) (label : glLabel R) (hole : R)
    (hstyle : label.template.style = glTemplateStyle.CD) :
    clip_to_outline env label
      = create_ellipse_path env label.template.label_radius label.template.label_radius
          label.template.label_radius label.template.label_radius ++ [Op.clip]
    ∧ clip_to_outline env label
      = clip_to_outline env
          { label with template := { label.template with style := glTemplateStyle.ROUND } }
    ∧ clip_to_outline env
          { label with template := { label.template with label_hole := hole } }
      = clip_to_outline env label
    ∧ draw_outline env label
      = [Op.setrgbcolor (1 / 4) (1 / 4) (1 / 4), Op.setopacity 1, Op.setlinewidth (1 / 4)]
        ++ create_ellipse_path env label.template.label_radius
            label.template.label_radius label.template.label_radius
            label.template.label_radius
        ++ [Op.stroke]
        ++ create_ellipse_path env label.template.label_radius
            label.template.label_radius label.template.label_hole
            label.template.label_hole
        ++ [Op.stroke]
    ∧ (∀ x0 y0 rx ry : R,
        (create_ellipse_path env x0 y0 rx ry).head? = some Op.newpath
        ∧ (create_ellipse_path env x0 y0 rx ry).getLast? = some Op.closepath
        ∧ (∀ op ∈ create_ellipse_path env x0 y0 rx ry, isPathOp op = true))
    ∧ ((∀ t : R, env.cos t ^ 2 + env.sin t ^ 2 = 1) →
        ∀ c rad : R, ∀ v ∈ path_vertices (create_ellipse_path env c c rad rad),
          (v.1 - c) ^ 2 + (v.2 - c) ^ 2 = rad ^ 2)
    ∧ (∀ x0 y0 rx ry : R,
        create_ellipse_path env x0 y0 rx ry
          = [Op.newpath, Op.moveto (x0 + rx) y0]
            ++ (List.range 180).map (fun (k : Nat) =>
                Op.lineto
                  (x0 + rx * env.cos (((2 + 2 * (k : Int) : Int) : R) * env.M_PI / 180))
                  (y0 + ry * env.sin (((2 + 2 * (k : Int) : Int) : R) * env.M_PI / 180)))
            ++ [Op.closepath])
    ∧ clip_to_outline env label
      = [Op.newpath,
         Op.moveto (label.template.label_radius + label.template.label_radius)
           label.template.label_radius]
        ++ (List.range 180).map (fun (k : Nat) =>
            Op.lineto
              (label.template.label_radius + label.template.label_radius
                * env.cos (((2 + 2 * (k : Int) : Int) : R) * env.M_PI / 180))
              (label.template.label_radius + label.template.label_radius
                * env.sin (((2 + 2 * (k : Int) : Int) : R) * env.M_PI / 180)))
        ++ [Op.closepath, Op.clip]
    ∧ draw_outline env label
      = [Op.setrgbcolor (1 / 4) (1 / 4) (1 / 4), Op.setopacity 1, Op.setlinewidth (1 / 4)]
        ++ [Op.newpath,
            Op.moveto (label.template.label_radius + label.template.label_radius)
              label.template.label_radius]
        ++ (List.range 180).map (fun (k : Nat) =>
            Op.lineto
              (label.template.label_radius + label.template.label_radius
                * env.cos (((2 + 2 * (k : Int) : Int) : R) * env.M_PI / 180))
              (label.template.label_radius + label.template.label_radius
                * env.sin (((2 + 2 * (k : Int) : Int) : R) * env.M_PI / 180)))
        ++ [Op.closepath, Op.stroke]
        ++ [Op.newpath,
            Op.moveto (label.template.label_radius + label.template.label_hole)
              label.template.label_radius]
        ++ (List.range 180).map (fun (k : Nat) =>
            Op.lineto
              (label.template.label_radius + label.template.label_hole
                * env.cos (((2 + 2 * (k : Int) : Int) : R) * env.M_PI / 180))
              (label.template.label_radius + label.template.label_hole
                * env.sin (((2 + 2 * (k : Int) : Int) : R) * env.M_PI / 180)))
        ++ [Op.closepath, Op.stroke]
    ∧ path_vertices (clip_to_outline env label)
      = (label.template.label_radius + label.template.label_radius,
          label.template.label_radius)
        :: (List.range 180).map (fun (k : Nat) =>
            (label.template.label_radius + label.template.label_radius
                * env.cos (((2 + 2 * (k : Int) : Int) : R) * env.M_PI / 180),
             label.template.label_radius + label.template.label_radius
                * env.sin (((2 + 2 * (k : Int) : Int) : R) * env.M_PI / 180)))
    ∧ (path_vertices (clip_to_outline env label)).length = 181
    ∧ ((∀ t : R, env.cos t ^ 2 + env.sin t ^ 2 = 1) →
        ∀ v ∈ path_vertices (clip_to_outline env label),
          (v.1 - label.template.label_radius) ^ 2
            + (v.2 - label.template.label_radius) ^ 2
            = label.template.label_radius ^ 2) := by
  have hclip : clip_to_outline env label
      = create_ellipse_path env label.template.label_radius label.template.label_radius
          label.template.label_radius label.template.label_radius ++ [Op.clip] := by
    simp only [clip_to_outline, hstyle]
  have hdraw : draw_outline env label
      = [Op.setrgbcolor (1 / 4) (1 / 4) (1 / 4), Op.setopacity 1, Op.setlinewidth (1 / 4)]
        ++ create_ellipse_path env label.template.label_radius
            label.template.label_radius label.template.label_radius
            label.template.label_radius
        ++ [Op.stroke]
        ++ create_ellipse_path env label.template.label_radius
            label.template.label_radius label.template.label_hole
            label.template.label_hole
        ++ [Op.stroke] := by
    simp only [draw_outline, hstyle, List.append_assoc]
  have hverts : path_vertices (clip_to_outline env label)
      = path_vertices (create_ellipse_path env label.template.label_radius
          label.template.label_radius label.template.label_radius
          label.template.label_radius) := by
    rw [hclip, path_vertices_append]
    simp [path_vertices]
  have hcircle : (∀ t : R, env.cos t ^ 2 + env.sin t ^ 2 = 1) →
      ∀ c rad : R, ∀ v ∈ path_vertices (create_ellipse_path env c c rad rad),
        (v.1 - c) ^ 2 + (v.2 - c) ^ 2 = rad ^ 2 := by
    intro hunit c rad v hv
    rw [create_ellipse_path_vertices] at hv
    simp only [List.mem_cons, List.mem_map] at hv
    rcases hv with rfl | ⟨i_theta, _, rfl⟩
    · simp
    · have h := hunit ((i_theta : R) * env.M_PI / 180)
      simp only [add_sub_cancel_left]
      rw [mul_pow, mul_pow, ← mul_add, h, mul_one]
  refine ⟨hclip, ?_, ?_, hdraw, ?_, hcircle, create_ellipse_path_explicit env, ?_, ?_,
    ?_, ?_, ?_⟩
  · simp only [clip_to_outline, hstyle]
  · simp only [clip_to_outline, hstyle]
  · intro x0 y0 rx ry
    refine ⟨rfl, ?_, create_ellipse_path_pathOps env x0 y0 rx ry⟩
    unfold create_ellipse_path
    rw [List.getLast?_append]
    simp
  · rw [hclip, create_ellipse_path_explicit]
    simp only [List.append_assoc, List.singleton_append, List.cons_append,
      List.nil_append]
  · rw [hdraw, create_ellipse_path_explicit, create_ellipse_path_explicit]
    simp only [List.append_assoc, List.singleton_append, List.cons_append,
      List.nil_append]
  · rw [hverts, create_ellipse_path_vertices_explicit]
  · rw [hverts, create_ellipse_path_vertices_explicit]
    simp
  · intro hunit v hv
    rw [hverts] at hv
    exact hcircle hunit _ _ v hv

/-- C14 on a CD template with radius 60 and hole 20, against a hole of 5. -/
theorem cd_clip_and_outline_witness :
    ({ sampleLabel with
        template := { sampleLabel.template with
          style := glTemplateStyle.CD, label_radius := 60, label_hole := 20 } }
      : glLabel ℚ).template.style = glTemplateStyle.CD
    ∧ clip_to_outline sampleEnv
        { sampleLabel with
          template := { sampleLabel.template with
            style := glTemplateStyle.CD, label_radius := 60, label_hole := 5 } }
      = clip_to_outline sampleEnv
        { sampleLabel with
          template := { sampleLabel.template with
            style := glTemplateStyle.CD, label_radius := 60, label_hole := 20 } } :=
  ⟨rfl,
   (cd_clip_and_outline sampleEnv
      { sampleLabel with
        template := { sampleLabel.template with
          style := glTemplateStyle.CD, label_radius := 60, label_hole := 20 } }
      5 rfl).2.2.1⟩

end Paths


/-! ## Rounded rectangle over the reals -/

theorem mem_for_le_step_0_90 (i : Int) (h : i ∈ for_le_step 0 90 5) : 0 ≤ i ∧ i ≤ 90 := by
  unfold for_le_step at h
  simp only [List.mem_map, List.mem_range] at h
  obtain ⟨k, hk, rfl⟩ := h
  have : ((90 - 0 : Int) / 5 + 1).toNat = 19 := by decide
  rw [this] at hk
  omega

theorem mem_for_le_step_5_90 (i : Int) (h : i ∈ for_le_step 5 90 5) : 0 ≤ i ∧ i ≤ 90 := by
  unfold for_le_step at h
  simp only [List.mem_map, List.mem_range] at h
  obtain ⟨k, hk, rfl⟩ := h
  have : ((90 - 5 : Int) / 5 + 1).toNat = 18 := by decide
  rw [this] at hk
  omega

theorem quarter_trig_bounds (i : Int) (h0 : 0 ≤ i) (h90 : i ≤ 90) :
    (0 ≤ Real.sin ((i : ℝ) * Real.pi / 180) ∧ Real.sin ((i : ℝ) * Real.pi / 180) ≤ 1)
    ∧ (0 ≤ Real.cos ((i : ℝ) * Real.pi / 180)
        ∧ Real.cos ((i : ℝ) * Real.pi / 180) ≤ 1) := by
  have hpi := Real.pi_pos
  have hi0 : (0 : ℝ) ≤ (i : ℝ) := by exact_mod_cast h0
  have hi90 : (i : ℝ) ≤ 90 := by exact_mod_cast h90
  have ht0 : 0 ≤ (i : ℝ) * Real.pi / 180 := by positivity
  have ht1 : (i : ℝ) * Real.pi / 180 ≤ Real.pi / 2 := by
    have : (i : ℝ) * Real.pi ≤ 90 * Real.pi := mul_le_mul_of_nonneg_right hi90 hpi.le
    linarith
  refine ⟨⟨Real.sin_nonneg_of_nonneg_of_le_pi ht0 (by linarith), Real.sin_le_one _⟩,
    ⟨Real.cos_nonneg_of_mem_Icc ⟨by linarith, ht1⟩, Real.cos_le_one _⟩⟩

/-- C13, as the claim states it: with `w = h = 1` and corner radius `r = 2` the first
vertex of the rounded rectangle path, `(r, 0)`, lies outside `[0, w] x [0, h]`. -/
theorem rounded_rectangle_vertex_outside :
    ¬ ∀ v ∈ path_vertices
        (create_rounded_rectangle_path (trigEnv Real.cos Real.sin Real.pi) 0 0 1 1 2),
      (0 ≤ v.1 ∧ v.1 ≤ 1) ∧ (0 ≤ v.2 ∧ v.2 ≤ 1) := by
  intro h
  have hmem : ((0 : ℝ) + 2, (0 : ℝ)) ∈ path_vertices
      (create_rounded_rectangle_path (trigEnv Real.cos Real.sin Real.pi) 0 0 1 1 2) := by
    unfold create_rounded_rectangle_path
    simp only [List.append_assoc, path_vertices_append]
    apply List.mem_append_left
    simp [path_vertices]
  have := (h _ hmem).1.2
  norm_num at this

/-- C13, amended: for every design size `w, h` and corner radius `r` with `0 < r ≤ w`
and `r ≤ h` (so that `w, h > 0`), no vertex of the path built by
`create_rounded_rectangle_path (0, 0, w, h, r)` lies outside `[0, w] x [0, h]`
(real coordinates, `sin` and `cos` the real functions, `M_PI` the real number pi). -/
theorem rounded_rectangle_vertices_in_box (env : Env ℝ)
    (hcos : env.cos = Real.cos) (hsin : env.sin = Real.sin) (hpi : env.M_PI = Real.pi)
    (w h r : ℝ) (hr : 0 < r) (hrw : r ≤ w) (hrh : r ≤ h) :
    ∀ v ∈ path_vertices (create_rounded_rectangle_path env 0 0 w h r),
      (0 ≤ v.1 ∧ v.1 ≤ w) ∧ (0 ≤ v.2 ∧ v.2 ≤ h) := by
  intro v hv
  unfold create_rounded_rectangle_path at hv
  rw [hcos, hsin, hpi] at hv
  simp only [List.append_assoc, path_vertices_append] at hv
  rw [path_vertices_map_lineto (for_le_step 5 90 5)
      (fun i => 0 + r - r * Real.sin ((i : ℝ) * Real.pi / 180))
      (fun i => 0 + r - r * Real.cos ((i : ℝ) * Real.pi / 180)),
    path_vertices_map_lineto (for_le_step 0 90 5)
      (fun i => 0 + r - r * Real.cos ((i : ℝ) * Real.pi / 180))
      (fun i => 0 + (h - r) + r * Real.sin ((i : ℝ) * Real.pi / 180)),
    path_vertices_map_lineto (for_le_step 0 90 5)
      (fun i => 0 + (w - r) + r * Real.sin ((i : ℝ) * Real.pi / 180))
      (fun i => 0 + (h - r) + r * Real.cos ((i : ℝ) * Real.pi / 180)),
    path_vertices_map_lineto (for_le_step 0 90 5)
      (fun i => 0 + (w - r) + r * Real.cos ((i : ℝ) * Real.pi / 180))
      (fun i => 0 + r - r * Real.sin ((i : ℝ) * Real.pi / 180))] at hv
  simp only [path_vertices, List.filterMap_cons, List.filterMap_nil, List.mem_append,
    List.mem_cons, List.mem_map, List.not_mem_nil, or_false] at hv
  have key : ∀ i : Int, 0 ≤ i → i ≤ 90 →
      (0 ≤ r * Real.sin ((i : ℝ) * Real.pi / 180)
        ∧ r * Real.sin ((i : ℝ) * Real.pi / 180) ≤ r)
      ∧ (0 ≤ r * Real.cos ((i : ℝ) * Real.pi / 180)
        ∧ r * Real.cos ((i : ℝ) * Real.pi / 180) ≤ r) := by
    intro i h0 h90
    obtain ⟨⟨hs0, hs1⟩, hc0, hc1⟩ := quarter_trig_bounds i h0 h90
    exact ⟨⟨mul_nonneg hr.le hs0, mul_le_of_le_one_right hr.le hs1⟩,
      ⟨mul_nonneg hr.le hc0, mul_le_of_le_one_right hr.le hc1⟩⟩
  rcases hv with rfl | ⟨i, hi, rfl⟩ | ⟨i, hi, rfl⟩ | ⟨i, hi, rfl⟩
    | ⟨i, hi, rfl⟩ | rfl
  · refine ⟨⟨?_, ?_⟩, ?_, ?_⟩ <;> simp only <;> linarith
  · obtain ⟨⟨hs0, hs1⟩, hc0, hc1⟩ :=
      key i (mem_for_le_step_5_90 i hi).1 (mem_for_le_step_5_90 i hi).2
    refine ⟨⟨?_, ?_⟩, ?_, ?_⟩ <;> simp only <;> linarith
  · obtain ⟨⟨hs0, hs1⟩, hc0, hc1⟩ :=
      key i (mem_for_le_step_0_90 i hi).1 (mem_for_le_step_0_90 i hi).2
    refine ⟨⟨?_, ?_⟩, ?_, ?_⟩ <;> simp only <;> linarith
  · obtain ⟨⟨hs0, hs1⟩, hc0, hc1⟩ :=
      key i (mem_for_le_step_0_90 i hi).1 (mem_for_le_step_0_90 i hi).2
    refine ⟨⟨?_, ?_⟩, ?_, ?_⟩ <;> simp only <;> linarith
  · obtain ⟨⟨hs0, hs1⟩, hc0, hc1⟩ :=
      key i (mem_for_le_step_0_90 i hi).1 (mem_for_le_step_0_90 i hi).2
    refine ⟨⟨?_, ?_⟩, ?_, ?_⟩ <;> simp only <;> linarith
  · refine ⟨⟨?_, ?_⟩, ?_, ?_⟩ <;> simp only <;> linarith

/-- C13, amended, on a 2 by 2 design with corner radius 1. -/
theorem rounded_rectangle_vertices_in_box_witness :
    (trigEnv Real.cos Real.sin Real.pi).cos = Real.cos
    ∧ (trigEnv Real.cos Real.sin Real.pi).sin = Real.sin
    ∧ (trigEnv Real.cos Real.sin Real.pi).M_PI = Real.pi
    ∧ (0 : ℝ) < 1 ∧ (1 : ℝ) ≤ 2
    ∧ ∀ v ∈ path_vertices
        (create_rounded_rectangle_path (trigEnv Real.cos Real.sin Real.pi) 0 0 2 2 1),
      (0 ≤ v.1 ∧ v.1 ≤ 2) ∧ (0 ≤ v.2 ∧ v.2 ≤ 2) :=
  ⟨rfl, rfl, rfl, by simp, by simp,
   rounded_rectangle_vertices_in_box (trigEnv Real.cos Real.sin Real.pi) rfl rfl rfl
     2 2 1 (by simp) (by simp) (by simp)⟩


/-! ## Barcode fallback and print job set-up -/

section Fallback

variable {R : Type} [LinearOrderedField R]

/-- C15, as the claim states it: when the message catalogue translates the fallback
text, the string shown for a rejected barcode is the translation, not the literal
"Invalid barcode". -/
theorem draw_barcode_object_translated :
    Op.showtext "Invalid barcode"
        ∉ draw_barcode_object
            { sampleEnv with gettext := fun _ => "Code-barres invalide" }
            { x := 1, y := 2, text_node := { field_flag := false, data := "x" },
              style := 0, text_flag := true, color := 255, scale := 1 } none
    ∧ Op.showtext "Code-barres invalide"
        ∈ draw_barcode_object
            { sampleEnv with gettext := fun _ => "Code-barres invalide" }
            { x := 1, y := 2, text_node := { field_flag := false, data := "x" },
              style := 0, text_flag := true, color := 255, scale := 1 } none := by
  constructor <;> simp [draw_barcode_object, sampleEnv]

/-- C15, amended: whenever barcode generation fails for the expanded text,
`draw_barcode_object` draws no barcode line segment and no barcode character: it selects
the barcode font at the fixed size 12, sets the object's own colour and opacity, moves
to the text position and shows exactly one string, the message-catalogue lookup
`_("Invalid barcode")` of the fallback text (the literal itself when the lookup leaves
it unchanged), inside one save/restore pair; the run continues with the next object. -/
theorem draw_barcode_object_fallback (env : Env R) (object : glLabelBarcode R)
    (record : Option glMergeRecord) (label : glLabel R)
    (rest : List (glLabelObject R))
    (hfail : env.barcode_new object.style object.text_flag object.scale
      (env.text_node_expand object.text_node record) = none) :
    draw_barcode_object env object record
      = ([Op.setfont
            { family := env.GL_BARCODE_FONT_FAMILY, weight := env.GL_BARCODE_FONT_WEIGHT,
              italic := false, size := 12 },
          Op.setrgbcolor (RED object.color) (GREEN object.color) (BLUE object.color),
          Op.setopacity (ALPHA object.color),
          Op.moveto object.x (object.y + (12 - env.font_get_descender
            { family := env.GL_BARCODE_FONT_FAMILY, weight := env.GL_BARCODE_FONT_WEIGHT,
              italic := false, size := 12 })),
          Op.gsave, Op.scale 1 (-1), Op.showtext (env.gettext "Invalid barcode"),
          Op.grestore] : List (Op R))
    ∧ (draw_barcode_object env object record).countP isShow = 1
    ∧ (draw_barcode_object env object record).countP isSave = 1
    ∧ (draw_barcode_object env object record).countP isRestore = 1
    ∧ (∀ op ∈ draw_barcode_object env object record,
        isLineto op = false ∧ isStroke op = false)
    ∧ (env.gettext "Invalid barcode" = "Invalid barcode" →
        Op.showtext "Invalid barcode" ∈ draw_barcode_object env object record)
    ∧ draw_label env { label with objects := glLabelObject.barcode object :: rest } record
        = draw_barcode_object env object record
          ++ draw_label env { label with objects := rest } record := by
  have heq := draw_barcode_object_none env object record hfail
  refine ⟨heq, ?_, ?_, ?_, ?_, ?_, ?_⟩
  · rw [heq]; simp [isShow]
  · rw [heq]; simp [isSave]
  · rw [heq]; simp [isRestore]
  · rw [heq]; simp [isLineto, isStroke]
  · intro hid
    rw [heq, hid]; simp
  · simp [draw_label, draw_object]

/-- C15, amended, on a barcode object with an environment whose generator rejects every
text and whose message catalogue is empty. -/
theorem draw_barcode_object_fallback_witness :
    sampleEnv.barcode_new 0 true 1
        (sampleEnv.text_node_expand { field_flag := false, data := "x" } none) = none
    ∧ sampleEnv.gettext "Invalid barcode" = "Invalid barcode"
    ∧ Op.showtext "Invalid barcode"
        ∈ draw_barcode_object sampleEnv
            { x := 1, y := 2, text_node := { field_flag := false, data := "x" },
              style := 0, text_flag := true, color := 255, scale := 1 } none :=
  ⟨rfl, rfl,
   (draw_barcode_object_fallback sampleEnv
      { x := 1, y := 2, text_node := { field_flag := false, data := "x" },
        style := 0, text_flag := true, color := 255, scale := 1 } none sampleLabel []
      rfl).2.2.2.2.2.1 rfl⟩

end Fallback

/-- C16, at the failing input: for a template whose page-size name "Foo" is unknown to
the paper lookup, `print_info_new` sets the paper size to "Custom" and then reads the
width through the NULL paper pointer; the default "US Letter" is configured only when
the template has no page-size name, and a known name yields "Custom" with the paper's
width and height. -/
theorem print_info_new_unknown_paper :
    samplePapers "Foo" = none
    ∧ print_info_new samplePapers
        (some { sampleTemplate 3 2 with page_size := some "Foo" }) false
      = PrintInfoResult.fault
          [ConfigCall.set ConfigKey.GNOME_PRINT_KEY_PAPER_SIZE "Custom"]
    ∧ print_info_new samplePapers
        (some { sampleTemplate 3 2 with page_size := none }) false
      = PrintInfoResult.ok
          { template := { sampleTemplate 3 2 with page_size := none },
            label_rotate_flag := false }
          [ConfigCall.set ConfigKey.GNOME_PRINT_KEY_PAPER_SIZE "US Letter"]
    ∧ print_info_new samplePapers
        (some { sampleTemplate 3 2 with page_size := some "A4" }) false
      = PrintInfoResult.ok
          { template := { sampleTemplate 3 2 with page_size := some "A4" },
            label_rotate_flag := false }
          [ConfigCall.set ConfigKey.GNOME_PRINT_KEY_PAPER_SIZE "Custom",
           ConfigCall.set_length ConfigKey.GNOME_PRINT_KEY_PAPER_WIDTH 595,
           ConfigCall.set_length ConfigKey.GNOME_PRINT_KEY_PAPER_HEIGHT 842] := by
  have h : samplePapers "Foo" = none := by simp [samplePapers]
  refine ⟨h, ?_, ?_, ?_⟩
  · simp [print_info_new, h]
  · simp [print_info_new, GL_PRINT_DEFAULT_PAPER]
  · have h : samplePapers "A4"
        = some { name := "A4", width := 595, height := 842 } := by
      simp [samplePapers]
    simp [print_info_new, h]


/-! ## Cell sequence of the merge modes -/

theorem labelsWithEnd_append (t u : List PageCall)
    (hu : u.head? ≠ some PageCall.showpage) :
    labelsWithEnd (t ++ u) = labelsWithEnd t ++ labelsWithEnd u := by
  induction t with
  | nil => simp [labelsWithEnd]
  | cons c rest ih =>
    cases c with
    | beginpage name => simpa [labelsWithEnd] using ih
    | showpage => simpa [labelsWithEnd] using ih
    | print_label i record o r =>
      have hhead : ((rest ++ u).head? = some PageCall.showpage)
          ↔ (rest.head? = some PageCall.showpage) := by
        cases rest with
        | nil =>
          simp only [List.nil_append, List.head?_nil]
          constructor
          · intro h; exact absurd h hu
          · intro h; cases h
        | cons d rest2 => simp
      show (i, decide ((rest ++ u).head? = some PageCall.showpage))
            :: labelsWithEnd (rest ++ u)
          = (i, decide (rest.head? = some PageCall.showpage)) :: labelsWithEnd rest
            ++ labelsWithEnd u
      rw [ih]
      simp only [hhead, List.cons_append]

theorem labelsWithEnd_append_showpage (t : List PageCall) :
    ∀ p ∈ labelsWithEnd (t ++ [PageCall.showpage]),
      p ∈ labelsWithEnd t ∨ p.2 = true := by
  induction t with
  | nil => simp [labelsWithEnd]
  | cons c rest ih =>
    intro p hp
    cases c with
    | beginpage name =>
      simp only [List.cons_append, labelsWithEnd] at hp ⊢
      exact ih p hp
    | showpage =>
      simp only [List.cons_append, labelsWithEnd] at hp ⊢
      exact ih p hp
    | print_label i record o r =>
      simp only [List.cons_append, labelsWithEnd, List.mem_cons] at hp ⊢
      rcases hp with rfl | hp
      · cases rest with
        | nil => right; simp
        | cons d rest2 => left; left; simp
      · rcases ih p hp with h | h
        · left; right; exact h
        · right; exact h

theorem wrap_iff_last_cell (L i : Int) (h0 : 0 ≤ i) (h1 : i < L) :
    (Int.tmod (i + 1) L = 0) ↔ (i % L = L - 1) := by
  rw [Int.tmod_eq_emod (by omega) (by omega), Int.emod_eq_of_lt h0 h1]
  constructor
  · intro h
    by_contra hne
    have hlt : i + 1 < L := by omega
    rw [Int.emod_eq_of_lt (by omega) hlt] at h
    omega
  · intro h
    have : i + 1 = L := by omega
    rw [this]
    exact Int.emod_self

theorem loop_calls_run_instances (L : Int) (o r : Bool)
    (instances : List glMergeRecord) (s : MergeState)
    (h0 : 0 ≤ s.i_label) (h1 : s.i_label < L) :
    ∃ u : List PageCall,
      (run_instances L o r instances s).out = s.out ++ u
      ∧ u.head? ≠ some PageCall.showpage
      ∧ labelsWithEnd u
          = (List.range instances.length).map (fun (k : Nat) =>
              ((s.i_label + (k : Int)) % L,
               decide ((s.i_label + (k : Int)) % L = L - 1))) := by
  have hL : 0 < L := lt_of_le_of_lt h0 h1
  induction instances generalizing s with
  | nil => exact ⟨[], by simp [run_instances], by simp, by simp [labelsWithEnd]⟩
  | cons record rest ih =>
    have hstep : (merge_instance L record o r s).i_label = (s.i_label + 1) % L := by
      rw [merge_instance_i_label, Int.tmod_eq_emod (by omega) (le_of_lt hL)]
    have hlo : 0 ≤ (merge_instance L record o r s).i_label := by
      rw [hstep]; exact Int.emod_nonneg _ (ne_of_gt hL)
    have hhi : (merge_instance L record o r s).i_label < L := by
      rw [hstep]; exact Int.emod_lt_of_pos _ hL
    obtain ⟨u2, hu1, hu2, hu3⟩ := ih (merge_instance L record o r s) hlo hhi
    have hwrap := wrap_iff_last_cell L s.i_label h0 h1
    refine ⟨(if s.i_label = 0 ∨ s.i_sheet = 0
              then [PageCall.beginpage (sheet_str (s.i_sheet + 1))] else [])
            ++ [PageCall.print_label s.i_label (some record) o r]
            ++ (if Int.tmod (s.i_label + 1) L = 0 then [PageCall.showpage] else [])
            ++ u2, ?_, ?_, ?_⟩
    · rw [run_instances_cons, hu1, merge_instance_out]
      simp only [List.append_assoc]
    · by_cases hc : s.i_label = 0 ∨ s.i_sheet = 0 <;> simp [hc]
    · rw [labelsWithEnd_append _ _ hu2, hu3, hstep, List.length_cons,
        List.range_succ_eq_map, List.map_cons, List.map_map]
      have hfirst : labelsWithEnd
          ((if s.i_label = 0 ∨ s.i_sheet = 0
              then [PageCall.beginpage (sheet_str (s.i_sheet + 1))] else [])
            ++ [PageCall.print_label s.i_label (some record) o r]
            ++ (if Int.tmod (s.i_label + 1) L = 0 then [PageCall.showpage] else []))
          = [(s.i_label % L, decide (s.i_label % L = L - 1))] := by
        rw [Int.emod_eq_of_lt h0 h1] at hwrap ⊢
        by_cases hc : s.i_label = 0 ∨ s.i_sheet = 0 <;>
          by_cases hw : Int.tmod (s.i_label + 1) L = 0 <;>
          simp [hc, hw, labelsWithEnd, ← hwrap]
      rw [hfirst]
      simp only [List.singleton_append, Nat.cast_zero, add_zero, List.cons.injEq,
        true_and]
      apply List.map_congr_left
      intro k _
      simp only [Function.comp, Nat.succ_eq_add_one, Nat.cast_add, Nat.cast_one]
      rw [Int.emod_add_emod]
      have : s.i_label + 1 + (k : Int) = s.i_label + ((k : Int) + 1) := by ring
      rw [this]

theorem cellSequence_merge_finish (L first : Int) (o r : Bool)
    (instances : List glMergeRecord) (hf1 : 1 ≤ first) (hfL : first ≤ L) :
    CellSequence L first instances.length
      (merge_finish (run_instances L o r instances
        { i_sheet := 0, i_label := first - 1, out := [] })) := by
  have h0 : (0 : Int) ≤ first - 1 := by omega
  have h1 : first - 1 < L := by omega
  have hL : 0 < L := by omega
  obtain ⟨hlab, hcells⟩ := cells_run_instances L o r instances
    { i_sheet := 0, i_label := first - 1, out := [] } h0 h1
  obtain ⟨u, hu1, _, hu3⟩ := loop_calls_run_instances L o r instances
    { i_sheet := 0, i_label := first - 1, out := [] } h0 h1
  simp only [List.nil_append] at hu1
  have hcells2 : drawnCells (merge_finish (run_instances L o r instances
      { i_sheet := 0, i_label := first - 1, out := [] }))
      = (List.range instances.length).map
          (fun (k : Nat) => (first - 1 + (k : Int)) % L) := by
    rw [drawnCells_merge_finish, hcells]
    simp [drawnCells]
  have hsplit : merge_finish (run_instances L o r instances
      { i_sheet := 0, i_label := first - 1, out := [] })
      = u ++ (if (first - 1 + (instances.length : Int)) % L ≠ 0
              then [PageCall.showpage] else []) := by
    unfold merge_finish
    rw [hlab, hu1]
    by_cases hz : (first - 1 + (instances.length : Int)) % L = 0 <;> simp [hz]
  refine ⟨hcells2, ?_, ⟨u, hsplit, hu3⟩, ?_⟩
  · intro c hc
    rw [hcells2, List.mem_map] at hc
    obtain ⟨k, _, rfl⟩ := hc
    exact ⟨Int.emod_nonneg _ (ne_of_gt hL), Int.emod_lt_of_pos _ hL⟩
  · intro p hp hp1
    have hloop : ∀ q ∈ labelsWithEnd u, q.1 = L - 1 → q.2 = true := by
      intro q hq hq1
      rw [hu3, List.mem_map] at hq
      obtain ⟨k, _, rfl⟩ := hq
      simpa using hq1
    rw [hsplit] at hp
    by_cases hz : (first - 1 + (instances.length : Int)) % L = 0
    · simp only [hz, ne_eq, not_true_eq_false, if_false, List.append_nil] at hp
      exact hloop p hp hp1
    · simp only [hz, ne_eq, not_false_eq_true, if_true] at hp
      rcases labelsWithEnd_append_showpage u p hp with h | h
      · exact hloop p h hp1
      · exact h

/-- C17: in both merge modes, for `first` in `[1, L]` with `L = nx * ny`, the `k`-th
label instance drawn is placed at cell `(first - 1 + k) mod L`; hence every cell index
passed to `print_label` lies in `[0, L)`, and within the loops a page is ended right
after an instance exactly when its cell index is `L - 1` (the statements after the
loops end the last page when it is partly filled). -/
theorem merge_cell_sequence {R : Type} (pi : PrintInfo R)
    (record_list : List glMergeRecord) (n_copies first : Int) (o r : Bool)
    (hf1 : 1 ≤ first) (hfL : first ≤ pi.template.nx * pi.template.ny) :
    CellSequence (pi.template.nx * pi.template.ny) first
        ((record_list.filter fun record => record.select_flag).length * n_copies.toNat)
        (gl_print_merge_collated pi record_list n_copies first o r)
    ∧ CellSequence (pi.template.nx * pi.template.ny) first
        ((record_list.filter fun record => record.select_flag).length * n_copies.toNat)
        (gl_print_merge_uncollated pi record_list n_copies first o r) := by
  constructor
  · rw [gl_print_merge_collated_eq, ← length_collated_order]
    exact cellSequence_merge_finish _ first o r _ hf1 hfL
  · rw [gl_print_merge_uncollated_eq, ← length_uncollated_order]
    exact cellSequence_merge_finish _ first o r _ hf1 hfL

/-- C17 on a 2 by 2 sheet started at its third cell with three selected records. -/
theorem merge_cell_sequence_witness :
    (1 : Int) ≤ 3
    ∧ 3 ≤ (samplePrintInfo 2 2).template.nx * (samplePrintInfo 2 2).template.ny
    ∧ drawnCells (gl_print_merge_collated (samplePrintInfo 2 2)
        [sampleRecord true "A", sampleRecord true "B", sampleRecord true "C"]
        1 3 false false) = [2, 3, 0] :=
  ⟨by decide, by decide,
   (merge_cell_sequence (samplePrintInfo 2 2)
      [sampleRecord true "A", sampleRecord true "B", sampleRecord true "C"]
      1 3 false false (by decide) (by decide)).1.1.trans (by decide)⟩


/-! ## Page brackets of the merge modes -/

theorem bracketInv_start (first : Int) :
    BracketInv { i_sheet := 0, i_label := first - 1, out := [] } := by
  simp [BracketInv]

theorem bracketInv_step (L : Int) (record : glMergeRecord) (o r : Bool)
    (s : MergeState) (h : BracketInv s) :
    BracketInv (merge_instance L record o r s)
    ∧ (merge_instance L record o r s).i_sheet ≠ 0 := by
  obtain ⟨hnonneg, hcase⟩ := h
  have hsheet : (merge_instance L record o r s).i_sheet ≠ 0
      ∧ 0 ≤ (merge_instance L record o r s).i_sheet := by
    rw [merge_instance_i_sheet]
    by_cases hc : s.i_label = 0 ∨ s.i_sheet = 0
    · rw [if_pos hc]; omega
    · rw [if_neg hc]
      exact ⟨fun h0 => hc (Or.inr h0), hnonneg⟩
  refine ⟨⟨hsheet.2, Or.inr ⟨hsheet.1, ?_⟩⟩, hsheet.1⟩
  rw [merge_instance_out, merge_instance_i_label]
  rcases hcase with ⟨hz, hout⟩ | ⟨hnz, hhead, hin⟩
  · have hc : s.i_label = 0 ∨ s.i_sheet = 0 := Or.inr hz
    rw [if_pos hc, hout, hz]
    by_cases hw : Int.tmod (s.i_label + 1) L = 0
    · rw [if_pos hw]
      exact ⟨rfl, Or.inl ⟨hw, rfl, rfl⟩⟩
    · rw [if_neg hw]
      exact ⟨rfl, Or.inr ⟨hw, 0, rfl⟩⟩
  · have hne : s.out ≠ [] := by
      intro he
      rw [he] at hhead
      cases hhead
    have hhead2 : ∀ u : List PageCall,
        (s.out ++ u).head? = some (PageCall.beginpage (sheet_str 1)) := by
      intro u
      rw [List.head?_append_of_ne_nil _ hne, hhead]
    rcases hin with ⟨hl0, hfold, _⟩ | ⟨hl, n, hfold⟩
    · have hc : s.i_label = 0 ∨ s.i_sheet = 0 := Or.inl hl0
      rw [if_pos hc]
      by_cases hw : Int.tmod (s.i_label + 1) L = 0
      · rw [if_pos hw]
        refine ⟨?_, Or.inl ⟨hw, ?_, ?_⟩⟩
        · simp only [List.append_assoc]; exact hhead2 _
        · simp only [List.foldl_append, hfold]; rfl
        · simp
      · rw [if_neg hw]
        refine ⟨?_, Or.inr ⟨hw, 0, ?_⟩⟩
        · simp only [List.append_assoc]; exact hhead2 _
        · simp only [List.foldl_append, hfold]; rfl
    · have hc : ¬ (s.i_label = 0 ∨ s.i_sheet = 0) := by
        rintro (h0 | h0)
        · exact hl h0
        · exact hnz h0
      rw [if_neg hc]
      by_cases hw : Int.tmod (s.i_label + 1) L = 0
      · rw [if_pos hw]
        refine ⟨?_, Or.inl ⟨hw, ?_, ?_⟩⟩
        · simp only [List.append_assoc]; exact hhead2 _
        · simp only [List.foldl_append, hfold]; rfl
        · simp
      · rw [if_neg hw]
        refine ⟨?_, Or.inr ⟨hw, n + 1, ?_⟩⟩
        · simp only [List.append_assoc]; exact hhead2 _
        · simp only [List.foldl_append, hfold]; rfl

theorem bracketInv_run (L : Int) (o r : Bool) (instances : List glMergeRecord)
    (s : MergeState) (h : BracketInv s) :
    BracketInv (run_instances L o r instances s)
    ∧ (instances ≠ [] ∨ s.i_sheet ≠ 0 →
        (run_instances L o r instances s).i_sheet ≠ 0) := by
  induction instances generalizing s with
  | nil =>
    refine ⟨by simpa [run_instances] using h, ?_⟩
    rintro (h1 | h1)
    · exact absurd rfl h1
    · simpa [run_instances] using h1
  | cons record rest ih =>
    rw [run_instances_cons]
    obtain ⟨hinv, hne⟩ := bracketInv_step L record o r s h
    exact ⟨(ih _ hinv).1, fun _ => (ih _ hinv).2 (Or.inr hne)⟩

theorem bracket_finish (s : MergeState) (h : BracketInv s) (hne : s.i_sheet ≠ 0) :
    wellBracketed (merge_finish s) = true
    ∧ (merge_finish s).head? = some (PageCall.beginpage "sheet 1")
    ∧ (merge_finish s).getLast? = some PageCall.showpage := by
  obtain ⟨_, hcase⟩ := h
  rcases hcase with ⟨hz, _⟩ | ⟨_, hhead, hin⟩
  · exact absurd hz hne
  · have hout : s.out ≠ [] := by
      intro he
      rw [he] at hhead
      cases hhead
    have hname : sheet_str 1 = "sheet 1" := by decide
    rw [hname] at hhead
    unfold merge_finish wellBracketed
    rcases hin with ⟨hl0, hfold, hlast⟩ | ⟨hl, n, hfold⟩
    · simp only [hl0, ne_eq, not_true_eq_false, if_false]
      exact ⟨by rw [hfold]; rfl, hhead, hlast⟩
    · simp only [hl, ne_eq, not_false_eq_true, if_true]
      refine ⟨?_, ?_, ?_⟩
      · rw [List.foldl_append, hfold]; rfl
      · rw [List.head?_append_of_ne_nil _ hout, hhead]
      · simp

theorem instances_ne_nil (l : List glMergeRecord) (h : 1 ≤ l.length) : l ≠ [] := by
  intro he
  rw [he] at h
  simp at h

/-- C18: in both merge modes, for every `first` and every input that emits at least one
label instance, the page calls are well bracketed: page begins and page ends strictly
alternate, the first call is the begin of "sheet 1" and the last call is a page end,
every label is drawn between a page begin and the page end that follows it, and no page
is empty. -/
theorem merge_pages_well_bracketed {R : Type} (pi : PrintInfo R)
    (record_list : List glMergeRecord) (n_copies first : Int) (o r : Bool)
    (hN : 1 ≤ (record_list.filter fun record => record.select_flag).length
            * n_copies.toNat) :
    (wellBracketed (gl_print_merge_collated pi record_list n_copies first o r) = true
      ∧ (gl_print_merge_collated pi record_list n_copies first o r).head?
          = some (PageCall.beginpage "sheet 1")
      ∧ (gl_print_merge_collated pi record_list n_copies first o r).getLast?
          = some PageCall.showpage)
    ∧ (wellBracketed (gl_print_merge_uncollated pi record_list n_copies first o r) = true
      ∧ (gl_print_merge_uncollated pi record_list n_copies first o r).head?
          = some (PageCall.beginpage "sheet 1")
      ∧ (gl_print_merge_uncollated pi record_list n_copies first o r).getLast?
          = some PageCall.showpage) := by
  constructor
  · rw [gl_print_merge_collated_eq]
    have hne : collated_order record_list n_copies ≠ [] :=
      instances_ne_nil _ (by rw [length_collated_order]; exact hN)
    obtain ⟨hinv, hsheet⟩ := bracketInv_run (pi.template.nx * pi.template.ny) o r
      (collated_order record_list n_copies) _ (bracketInv_start first)
    exact bracket_finish _ hinv (hsheet (Or.inl hne))
  · rw [gl_print_merge_uncollated_eq]
    have hne : uncollated_order record_list n_copies ≠ [] :=
      instances_ne_nil _ (by rw [length_uncollated_order]; exact hN)
    obtain ⟨hinv, hsheet⟩ := bracketInv_run (pi.template.nx * pi.template.ny) o r
      (uncollated_order record_list n_copies) _ (bracketInv_start first)
    exact bracket_finish _ hinv (hsheet (Or.inl hne))

/-- C18 on a 2 by 2 sheet started at its fourth cell with two selected records in two
copies. -/
theorem merge_pages_well_bracketed_witness :
    1 ≤ ([sampleRecord true "A", sampleRecord false "B", sampleRecord true "C"].filter
          fun record => record.select_flag).length * (2 : Int).toNat
    ∧ wellBracketed (gl_print_merge_uncollated (samplePrintInfo 2 2)
        [sampleRecord true "A", sampleRecord false "B", sampleRecord true "C"]
        2 4 false false) = true :=
  ⟨by decide,
   (merge_pages_well_bracketed (samplePrintInfo 2 2)
      [sampleRecord true "A", sampleRecord false "B", sampleRecord true "C"]
      2 4 false false (by decide)).2.1⟩

end GLabels
